import Mathlib

/-!
# Yacu: a verification development of the update orchestrator

A shallow embedding of the Go sources of `terrails/yacu` (package `main`,
`types/container`, `types/database`, `types/image`, `utils`).

Conventions of the embedding
* An instant (`time.Time`) is an integer number of nanoseconds since the Unix
  epoch; a `time.Duration` is an integer number of nanoseconds, saturated to the
  `int64` range exactly as `Time.Sub` does.  `Duration.Hours()/24` is computed
  with exact integer arithmetic (truncation toward zero) instead of `float64`.
* Go maps are association lists; `labels[key]` is `List.lookup`.
* Every call that leaves the process (row store, registry, container runtime,
  notification fan-out) appends one `Event` to the trace of the `World`.  The
  answer of the outside world to such a call is given by an oracle of `Env`,
  which may depend on the whole history of calls made so far.
* A Go run-time panic (nil dereference, index out of range) is the outcome
  `Res.panic`.
-/

namespace Yacu

/-! ## Time -/

/-- An instant, in nanoseconds since the Unix epoch (`time.Time`). -/
abbrev Time := Int

/-- A `time.Duration`, in nanoseconds. -/
abbrev Duration := Int

def maxDuration : Duration := 9223372036854775807

def minDuration : Duration := -9223372036854775808

/-- The method `Time.Sub`: the difference `t - u`, saturated to the range of `Duration`. -/
def Sub (t u : Time) : Duration :=
  if t - u > maxDuration then maxDuration
  else if t - u < minDuration then minDuration
  else t - u

/-- Nanoseconds in 24 hours. -/
def nsPerDay : Int := 24 * 3600 * 1000000000

/-- The function `utils.DaysPassed`, with the reading of `time.Now()` passed as `now`:
`int(now.Sub(t).Hours() / 24)`. -/
def DaysPassed (now t : Time) : Int :=
  Int.tdiv (Sub now t) nsPerDay

/-! ## Errors and results -/

/-- Go `error` values: the sentinels used by the program, opaque errors of the
collaborators, and `fmt.Errorf("...: %w", inner)`. -/
inductive Error where
  | ErrNoRows
  | ErrRepositoryNotTagged
  | ErrMissingRepoDigest
  | other (msg : String)
  | wrap (msg : String) (inner : Error)
  deriving DecidableEq, Repr

/-- The function `errors.Is(e, target)`. -/
def Error.Is : Error → Error → Bool
  | .wrap msg inner, target =>
    if Error.wrap msg inner = target then true else Error.Is inner target
  | e, target => decide (e = target)

/-- The method `err.Error()`: the message of an error. -/
def Error.text : Error → String
  | .ErrNoRows => "sql: no rows in result set"
  | .ErrRepositoryNotTagged => "repository is not tagged"
  | .ErrMissingRepoDigest => "image is missing a repository digest"
  | .other msg => msg
  | .wrap msg inner => msg ++ ": " ++ inner.text

/-- Outcome of a Go call returning `(α, error)` that may also panic. -/
inductive Res (α : Type) where
  | ok (v : α)
  | err (e : Error)
  | panic (msg : String)
  deriving DecidableEq, Repr

/-- Outcome of a piece of Go code that yields a value unless it panics. -/
inductive Step (α : Type) where
  | done (v : α)
  | panic (msg : String)
  deriving DecidableEq, Repr

/-- The way the body of the update loop ends: it falls through to the next statement, it
executes `continue`, or it panics. -/
inductive Flow (α : Type) where
  | next (v : α)
  | skip
  | panic (msg : String)
  deriving DecidableEq, Repr

/-! ## Strings (package `strings`, `strconv`) -/

/-- Helper of `Contains` on character lists. -/
def containsChars : List Char → List Char → Bool
  | [], sub => sub.isEmpty
  | c :: cs, sub => sub.isPrefixOf (c :: cs) || containsChars cs sub

/-- The function `strings.Contains`. -/
def Contains (s substr : String) : Bool :=
  containsChars s.data substr.data

/-- The function `strings.HasPrefix`. -/
def HasPrefix (s pre : String) : Bool :=
  pre.data.isPrefixOf s.data

/-- Helper of `Split`: `cur` is the field being read, reversed. -/
def splitChars (sep : Char) : List Char → List Char → List String
  | [], cur => [String.mk cur.reverse]
  | c :: cs, cur =>
    if c = sep then String.mk cur.reverse :: splitChars sep cs []
    else splitChars sep cs (c :: cur)

/-- The function `strings.Split(s, sep)` for a one-character separator. -/
def Split (s : String) (sep : Char) : List String :=
  splitChars sep s.data []

/-- The function `strconv.ParseBool`; `none` is the error result. -/
def ParseBool (s : String) : Option Bool :=
  if s = "1" ∨ s = "t" ∨ s = "T" ∨ s = "TRUE" ∨ s = "true" ∨ s = "True" then some true
  else if s = "0" ∨ s = "f" ∨ s = "F" ∨ s = "FALSE" ∨ s = "false" ∨ s = "False" then some false
  else none

/-- Value of a decimal digit character. -/
def digitVal (c : Char) : Option Nat :=
  if '0' ≤ c ∧ c ≤ '9' then some (c.toNat - '0'.toNat) else none

/-- Reads a non-empty run of decimal digits. -/
def parseDigits : List Char → Option Nat → Option Nat
  | [], acc => acc
  | c :: cs, acc =>
    match digitVal c with
    | none => none
    | some d => parseDigits cs (some (acc.getD 0 * 10 + d))

/-- The call `strconv.ParseInt(s, 10, 0)` on a 64-bit platform; `none` is the error
result (syntax error or value out of the `int64` range). -/
def ParseInt (s : String) : Option Int :=
  let (neg, digits) :=
    match s.data with
    | '+' :: cs => (false, cs)
    | '-' :: cs => (true, cs)
    | cs => (false, cs)
  match parseDigits digits none with
  | none => none
  | some n =>
    if neg then (if n ≤ 9223372036854775808 then some (-(n : Int)) else none)
    else (if n ≤ 9223372036854775807 then some (n : Int) else none)

/-! ## Image references (package `reference`) -/

/-- A parsed, normalized image reference (`reference.Named`), possibly tagged and/or
carrying a digest. -/
structure Named where
  Domain : String
  Path : String
  Tag : Option String
  Digest : Option String
  deriving DecidableEq, Repr

/-- A reference that carries a tag (`reference.NamedTagged`). -/
structure NamedTagged where
  Domain : String
  Path : String
  Tag : String
  Digest : Option String
  deriving DecidableEq, Repr

/-- The function `reference.TagNameOnly`: a name with neither tag nor digest gets the
tag `latest`. -/
def TagNameOnly (n : Named) : Named :=
  match n.Tag, n.Digest with
  | none, none => { n with Tag := some "latest" }
  | _, _ => n

/-- The type assertion `named.(reference.NamedTagged)`. -/
def asNamedTagged (n : Named) : Option NamedTagged :=
  match n.Tag with
  | some t => some { Domain := n.Domain, Path := n.Path, Tag := t, Digest := n.Digest }
  | none => none

/-- The function `reference.FamiliarName`: the default domain `docker.io` is dropped,
and so is the `library/` prefix of an official repository. -/
def FamiliarName (r : NamedTagged) : String :=
  if r.Domain = "docker.io" then
    match Split r.Path '/' with
    | [a, b] => if a = "library" then b else r.Path
    | _ => r.Path
  else if r.Domain = "" then r.Path
  else r.Domain ++ "/" ++ r.Path

/-- The function `utils.FamiliarTagged`. -/
def FamiliarTagged (r : NamedTagged) : String :=
  FamiliarName r ++ ":" ++ r.Tag

/-- The method `String()` of a tagged reference. -/
def NamedTagged.String (r : NamedTagged) : String :=
  let name := if r.Domain = "" then r.Path else r.Domain ++ "/" ++ r.Path
  match r.Digest with
  | none => name ++ ":" ++ r.Tag
  | some d => name ++ ":" ++ r.Tag ++ "@" ++ d

/-! ## Runtime, image and container records -/

/-- Endpoint of a container in one network (`network.EndpointSettings`). -/
structure EndpointSettings where
  NetworkID : String
  Aliases : List String
  deriving DecidableEq, Repr

/-- Health record of a container state (`types.Health`). -/
structure Health where
  Status : String
  deriving DecidableEq, Repr

/-- The record `types.ContainerState`; `Health` is a pointer that may be nil. -/
structure ContainerState where
  Status : String
  Health : Option Health
  deriving DecidableEq, Repr

/-- The record `container.Config`, restricted to the fields the program reads. -/
structure ContainerConfig where
  Image : String
  Labels : List (String × String)
  deriving DecidableEq, Repr

/-- The record `container.HostConfig`, restricted to the fields the program reads. -/
structure HostConfig where
  NetworkMode : String
  deriving DecidableEq, Repr

/-- Result of a container inspect (`types.ContainerJSON`); `Networks` is the map
`NetworkSettings.Networks`. -/
structure ContainerJSON where
  ID : String
  Name : String
  Image : String
  State : ContainerState
  Config : ContainerConfig
  HostConfig : HostConfig
  Networks : List (String × EndpointSettings)
  deriving DecidableEq, Repr

/-- One entry of a container listing (`types.Container`). -/
structure ContainerSummary where
  ID : String
  Names : List String
  ImageID : String
  Labels : List (String × String)
  deriving DecidableEq, Repr

/-- Result of an image inspect (`types.ImageInspect`). -/
structure ImageInspect where
  ID : String
  RepoDigests : List String
  Created : String
  deriving DecidableEq, Repr

/-- The record `image.ImageData`. -/
structure ImageData where
  Raw : ImageInspect
  ID : String
  Created : Time
  Repository : NamedTagged
  RepoDigest : String
  deriving DecidableEq, Repr

/-- The record `container.Container`. -/
structure Container where
  Raw : ContainerJSON
  ID : String
  Name : String
  Labels : List (String × String)
  Image : ImageData
  Repository : NamedTagged
  StopTimeout : Int
  MinImageAge : Int
  deriving DecidableEq, Repr

/-- The type `container.DependencyType`. -/
inductive DependencyType where
  | DEPENDENCY_STARTED
  | DEPENDENCY_COMPLETED
  | DEPENDENCY_HEALTHY
  deriving DecidableEq, Repr

/-- The record `container.DependantContainer`. -/
structure DependantContainer where
  Data : ContainerSummary
  Name : String
  StopTimeout : Int
  DependsOn : ContainerJSON
  DependencyType : DependencyType
  deriving DecidableEq, Repr

/-- The record `registry.ImageData`; `Created` is a pointer that may be nil. -/
structure RegistryImageData where
  Name : String
  Tag : String
  Created : Option Time
  Digest : String
  Arch : String
  OS : String
  deriving DecidableEq, Repr

/-- The record `database.RemoteImageRow`. -/
structure RemoteImageRow where
  RowId : Int
  Name : String
  Domain : String
  Created : Time
  Digest : String
  LastCheck : Time
  deriving DecidableEq, Repr

/-- A record of the table `remote_images` as stored: every column but `id` is text. -/
structure StoredRow where
  id : Int
  name : String
  domain : String
  created : String
  digest : String
  last_check : String
  deriving DecidableEq, Repr

/-- The record `container.CreateResponse`. -/
structure CreateResponse where
  ID : String
  Warnings : List String
  deriving DecidableEq, Repr

/-- The way a `ContainerWait` request ends within the select of the caller. -/
inductive WaitOutcome where
  | timeout
  | transport (e : Error)
  | response (errorMessage : Option String) (statusCode : Int)
  deriving DecidableEq, Repr

/-- The record `config.RegistryEntry`. -/
structure RegistryEntry where
  Domain : String
  Username : String
  Password : String
  Insecure : Bool
  deriving DecidableEq, Repr

/-! ## Events, environment and world -/

/-- One call that leaves the process.  Calls to a collaborator that can fail carry the
error they returned (`none` on success). -/
inductive Event where
  | dbGet (name : String) (err : Option Error)
  | dbSave (name domain created digest lastCheck : String) (err : Option Error)
  | dbUpdate (rowid : Int) (created digest : String) (err : Option Error)
  | dbUpdateCheck (rowid : Int) (lastCheck : String) (err : Option Error)
  | registryFetch (ref : NamedTagged) (err : Option Error)
  | ContainerList (filters : List (String × String)) (err : Option Error)
  | ContainerInspect (id : String) (err : Option Error)
  | ContainerStop (id : String) (timeout : Int) (err : Option Error)
  | ContainerStart (id : String) (err : Option Error)
  | ContainerRemove (id : String) (force removeVolumes : Bool) (err : Option Error)
  | ContainerCreate (config : ContainerConfig) (hostConfig : HostConfig)
      (networks : List (String × EndpointSettings)) (name : String) (err : Option Error)
  | NetworkConnect (network containerId : String) (settings : EndpointSettings)
      (err : Option Error)
  | ContainerWait (id : String) (outcome : WaitOutcome)
  | ImageInspect (ref : String) (err : Option Error)
  | ImagePull (ref : String) (auth : String) (err : Option Error)
  | ImageRemove (id : String) (force : Bool) (err : Option Error)
  | Sleep (seconds : Nat)
  | HookError (context : String) (err : Error)
  | HookImageUpdated (prevImage newImage : ImageData)
  | HookImageError (image : ImageData) (context : String) (err : Error)
  | HookImageRemovalFailed (image : ImageData) (err : Error)
  | HookContainerUpdated (prevContainer newContainer : Container) (warnings : List String)
  | HookContainerError (container : Container) (context : String) (err : Error)
  deriving DecidableEq, Repr

/-- Library functions the program calls and the answers of its collaborators.  Each
oracle receives the history of calls made so far. -/
structure Env where
  /-- The call `time.Parse(time.RFC3339Nano, s)`. -/
  timeParse : String → Option Time
  /-- The call `t.UTC().Format(time.RFC3339Nano)`. -/
  timeFormat : Time → String
  /-- The function `digest.Parse`. -/
  digestParse : String → Option String
  /-- The function `digest.FromString` (the SHA-256 digest of the text). -/
  digestFromString : String → String
  /-- The function `reference.ParseNormalizedNamed`. -/
  parseNormalizedNamed : String → Except Error Named
  /-- The function `strings.ToLower`. -/
  toLower : String → String
  /-- The function `registry.EncodeAuthConfig` on a user name and a password. -/
  encodeAuthConfig : String → String → Except Error String
  /-- Successive readings of `time.Now()`. -/
  clock : Nat → Time
  /-- The order in which a `range` over a map visits it, as an index of a permutation. -/
  rangeSeed : List Event → Nat
  /-- Number of ticks of the 10 s ticker served before the 5 min timer is selected. -/
  healthTicks : List Event → Nat
  /-- Failure of the next statement sent to the row store. -/
  dbFault : List Event → Option Error
  registry : List Event → NamedTagged → Except Error RegistryImageData
  containerList : List Event → List (String × String) → Except Error (List ContainerSummary)
  containerInspect : List Event → String → Except Error ContainerJSON
  containerStop : List Event → String → Int → Option Error
  containerStart : List Event → String → Option Error
  containerRemove : List Event → String → Bool → Bool → Option Error
  containerCreate : List Event → ContainerConfig → HostConfig →
    List (String × EndpointSettings) → String → Except Error CreateResponse
  networkConnect : List Event → String → String → EndpointSettings → Option Error
  containerWait : List Event → String → WaitOutcome
  imageInspect : List Event → String → Except Error ImageInspect
  /-- The call `ImagePull`: its error, or else the error of reading the response. -/
  imagePull : List Event → String → String → Except Error (Option Error)
  imageRemove : List Event → String → Bool → Option Error

/-- The mutable part of the outside world together with the history of calls. -/
structure World where
  /-- Number of readings of the clock made so far. -/
  tick : Nat
  /-- Content of the table `remote_images`, in the order a query scans it. -/
  rows : List StoredRow
  trace : List Event
  deriving DecidableEq, Repr

/-- Appends an event to the history. -/
def World.log (w : World) (e : Event) : World :=
  { w with trace := w.trace ++ [e] }

/-- The call `time.Now()`. -/
def timeNow (env : Env) (w : World) : Time × World :=
  (env.clock w.tick, { w with tick := w.tick + 1 })

/-- Error part of a result. -/
def errOf {α : Type} : Except Error α → Option Error
  | .error e => some e
  | .ok _ => none

/-! ## Row store (package `database`) -/

/-- The first of the given records in the order of the index of the constraint
`unique (name, domain)` of the table, through which the store answers `WHERE name=?`:
among records of one name, the one with the least domain. -/
def firstByDomain : List StoredRow → Option StoredRow
  | [] => none
  | r :: rest =>
    match firstByDomain rest with
    | none => some r
    | some best => if best.domain < r.domain then some best else some r

/-- The record that `QueryRow` yields for `SELECT * FROM remote_images WHERE name=?`: the
first record of that name in the order of the index, none when the name has no record. -/
def selectByName (rows : List StoredRow) (imageName : String) : Option StoredRow :=
  firstByDomain (rows.filter (fun r => r.name = imageName))

/-- The method `Database.getRemoteImage` on the query `SELECT * FROM remote_images WHERE
name=?`: the first record with that name, decoded; `sql.ErrNoRows` when there is none. -/
def GetRemoteImageFromName (env : Env) (imageName : String) (w : World) :
    Except Error RemoteImageRow × World :=
  let res : Except Error RemoteImageRow :=
    match env.dbFault w.trace with
    | some e => .error e
    | none =>
      match selectByName w.rows imageName with
      | none => .error .ErrNoRows
      | some r =>
        match env.timeParse r.created with
        | none => .error (.other "parsing time")
        | some created =>
          match env.digestParse r.digest with
          | none => .error (.other "invalid checksum digest format")
          | some digest =>
            match env.timeParse r.last_check with
            | none => .error (.other "parsing time")
            | some lastcheck =>
              .ok { RowId := r.id, Name := r.name, Domain := r.domain, Created := created,
                    Digest := digest, LastCheck := lastcheck }
  (res, w.log (.dbGet imageName (errOf res)))

/-- The row id given to a record inserted without one: one more than the largest. -/
def nextRowId (rows : List StoredRow) : Int :=
  rows.foldl (fun m r => max m r.id) 0 + 1

/-- The method `Database.SaveRemoteImage`: `INSERT OR REPLACE` under the constraint
`unique (name, domain)`, with `last_check` set to the current time. -/
def SaveRemoteImage (env : Env) (name domain : String) (created : Time) (digest : String)
    (w : World) : Except Error Int × World :=
  let (now, w1) := timeNow env w
  let rlastcheck := env.timeFormat now
  let rcreated := env.timeFormat created
  let rdigest := digest
  match env.dbFault w1.trace with
  | some e => (.error e, w1.log (.dbSave name domain rcreated rdigest rlastcheck (some e)))
  | none =>
    let id := nextRowId w1.rows
    let kept := w1.rows.filter (fun r => ¬ (r.name = name ∧ r.domain = domain))
    let row : StoredRow :=
      { id := id, name := name, domain := domain, created := rcreated, digest := rdigest,
        last_check := rlastcheck }
    (.ok id, { w1 with rows := kept ++ [row],
                       trace := w1.trace ++ [.dbSave name domain rcreated rdigest rlastcheck none] })

/-- The method `Database.UpdateRemoteImage`; `created` is a pointer that may be nil. -/
def UpdateRemoteImage (env : Env) (rowid : Int) (created : Option Time) (digest : String)
    (w : World) : Res Unit × World :=
  match created with
  | none => (.panic "invalid memory address or nil pointer dereference", w)
  | some c =>
    let rcreated := env.timeFormat c
    let rdigest := digest
    match env.dbFault w.trace with
    | some e => (.err e, w.log (.dbUpdate rowid rcreated rdigest (some e)))
    | none =>
      let rows := w.rows.map (fun r =>
        if r.id = rowid then { r with created := rcreated, digest := rdigest } else r)
      (.ok (), { w with rows := rows,
                        trace := w.trace ++ [.dbUpdate rowid rcreated rdigest none] })

/-- The method `Database.UpdateRemoteImageCheck`. -/
def UpdateRemoteImageCheck (env : Env) (rowid : Int) (w : World) : Option Error × World :=
  let (now, w1) := timeNow env w
  let lastCheck := env.timeFormat now
  match env.dbFault w1.trace with
  | some e => (some e, w1.log (.dbUpdateCheck rowid lastCheck (some e)))
  | none =>
    let rows := w1.rows.map (fun r =>
      if r.id = rowid then { r with last_check := lastCheck } else r)
    (none, { w1 with rows := rows, trace := w1.trace ++ [.dbUpdateCheck rowid lastCheck none] })

/-! ## Registry (package `registry`) -/

/-- The function `registry.GetImageDataFromRegistry`. -/
def GetImageDataFromRegistry (env : Env) (named : NamedTagged) (w : World) :
    Except Error RegistryImageData × World :=
  let res := env.registry w.trace named
  (res, w.log (.registryFetch named (errOf res)))

/-! ## Containers (package `container`) -/

def LABEL_ENABLE : String := "yacu.enable"

def LABEL_IMAGE_AGE : String := "yacu.image_age"

def LABEL_STOP_TIMEOUT : String := "yacu.stop_timeout"

def LABEL_DEPENDS_ON : String := "com.docker.compose.depends_on"

/-- The method `Container.IsRunning`. -/
def Container.IsRunning (c : Container) : Bool :=
  c.Raw.State.Status = "running"

/-- The method `Container.IsYacu`. -/
def Container.IsYacu (c : Container) : Bool :=
  HasPrefix c.Repository.Path "terrails/yacu"

/-- The method `Container.RepositoryFamiliarized`. -/
def Container.RepositoryFamiliarized (c : Container) : String :=
  FamiliarTagged c.Repository

/-- The method `Container.HasRepoDigest`. -/
def Container.HasRepoDigest (c : Container) (digest : String) : Bool :=
  c.Image.Raw.RepoDigests.any (fun str => Contains str digest)

/-- The method `Container.ShouldScan`. -/
def Container.ShouldScan (c : Container) (all stopped : Bool) : Bool :=
  if c.IsYacu then false
  else if !stopped && !c.IsRunning then false
  else
    match c.Labels.lookup LABEL_ENABLE with
    | some val =>
      match ParseBool val with
      | some bval => bval
      | none => false
    | none => all

/-- The method `Container.IsOutdated`. -/
def Container.IsOutdated (env : Env) (c : Container) (w : World) : Except Error Bool × World :=
  let createdTime := c.Image.Created
  let (now, w1) := timeNow env w
  if DaysPassed now createdTime < c.MinImageAge then (.ok false, w1)
  else (.ok true, w1)

/-! ## Freshness cache (`Yacu.IsRemotePullable`) -/

/-- The method `Yacu.IsRemotePullable`. -/
def IsRemotePullable (env : Env) (container : Container) (w : World) : Res Bool × World :=
  let familiarNameTagged := container.RepositoryFamiliarized
  match GetRemoteImageFromName env familiarNameTagged w with
  | (.error err, w1) =>
    if err.Is .ErrNoRows then
      match GetImageDataFromRegistry env container.Repository w1 with
      | (.error err, w2) => (.err err, w2)
      | (.ok remoteData, w2) =>
        match remoteData.Created with
        | none => (.panic "invalid memory address or nil pointer dereference", w2)
        | some created =>
          match SaveRemoteImage env familiarNameTagged container.Repository.Domain created
              remoteData.Digest w2 with
          | (.error err, w3) =>
            (.err (.wrap ("writing remote image data (" ++ familiarNameTagged ++
              ") to local database failed") err), w3)
          | (.ok _, w3) =>
            let (now, w4) := timeNow env w3
            if DaysPassed now created < container.MinImageAge then (.ok false, w4)
            else if container.HasRepoDigest remoteData.Digest then (.ok false, w4)
            else (.ok true, w4)
    else
      (.err (.wrap ("fetching remote image data (" ++ familiarNameTagged ++
        ") from local database failed") err), w1)
  | (.ok dbImage, w1) =>
    let (now1, w2) := timeNow env w1
    if DaysPassed now1 dbImage.Created < container.MinImageAge then (.ok false, w2)
    else
      let (now2, w3) := timeNow env w2
      if DaysPassed now2 dbImage.LastCheck < container.MinImageAge then (.ok false, w3)
      else
        match GetImageDataFromRegistry env container.Repository w3 with
        | (.error err, w4) => (.err err, w4)
        | (.ok remoteData, w4) =>
          match UpdateRemoteImage env dbImage.RowId remoteData.Created remoteData.Digest w4 with
          | (.panic msg, w5) => (.panic msg, w5)
          | (.err err, w5) =>
            (.err (.wrap ("writing remote image data (" ++ familiarNameTagged ++
              ") to local database failed") err), w5)
          | (.ok _, w5) =>
            match remoteData.Created with
            | none => (.panic "invalid memory address or nil pointer dereference", w5)
            | some created =>
              let (now3, w6) := timeNow env w5
              if DaysPassed now3 created < container.MinImageAge then (.ok false, w6)
              else
                match UpdateRemoteImageCheck env dbImage.RowId w6 with
                | (some err, w7) =>
                  (.err (.wrap ("updating remote image data (" ++ familiarNameTagged ++
                    ") in local database failed") err), w7)
                | (none, w7) =>
                  if container.HasRepoDigest remoteData.Digest then (.ok false, w7)
                  else (.ok true, w7)

/-! ## Images (package `image`, `utils`) -/

/-- The loop of `utils.GetRepoDigest` over the entries of `RepoDigests`. -/
def findRepoDigest (env : Env) (familiarName : String) : List String → Except Error String
  | [] => .error .ErrMissingRepoDigest
  | str :: rest =>
    match Split str '@' with
    | first :: second :: _ =>
      if first = familiarName then .ok (env.digestFromString second)
      else findRepoDigest env familiarName rest
    | _ => findRepoDigest env familiarName rest

/-- The function `utils.GetRepoDigest`. -/
def GetRepoDigest (env : Env) (repository : NamedTagged) (image : ImageInspect) :
    Except Error String :=
  findRepoDigest env (FamiliarName repository) image.RepoDigests

/-- The function `image.NewData`. -/
def NewData (env : Env) (image : ImageInspect) (repository : NamedTagged) :
    Except Error ImageData :=
  match GetRepoDigest env repository image with
  | .error err => .error err
  | .ok digest =>
    match env.timeParse image.Created with
    | none => .error (.other "parsing time")
    | some createdTime =>
      .ok { Raw := image, ID := image.ID, Created := createdTime, Repository := repository,
            RepoDigest := digest }

/-- The function `utils.IdEncoded`: an id without its algorithm part. -/
def IdEncoded (id : String) : String :=
  if Contains id ":" then (Split id ':').getD 1 "" else id

/-! ## Configuration (package `config`) and the application record -/

/-- The record `config.Scanner`. -/
structure Scanner where
  Interval : String
  ImageAge : Int
  ScanAll : Bool
  ScanStopped : Bool
  deriving DecidableEq, Repr

/-- The record `config.Updater`. -/
structure Updater where
  StopTimeout : Int
  RemoveVolumes : Bool
  RemoveImages : Bool
  deriving DecidableEq, Repr

/-- The record `Yacu` of package `main`, without its clients, which are the oracles of
`Env`. -/
structure App where
  Scanner : Scanner
  Updater : Updater
  Registries : List RegistryEntry
  deriving DecidableEq, Repr

/-- The method `RegistryEntries.GetAuthConfigFor`. -/
def GetAuthConfigFor (entries : List RegistryEntry) (domain : String) : Option RegistryEntry :=
  entries.find? (fun entry => entry.Domain = domain)

/-! ## Construction of a container record (`container.New`) -/

/-- The override of a global integer setting by a label: the label wins when it is
present and parses as a base-10 integer. -/
def labelInt (labels : List (String × String)) (label : String) (dflt : Int) : Int :=
  match labels.lookup label with
  | some val =>
    match ParseInt val with
    | some ival => ival
    | none => dflt
  | none => dflt

/-- The function `container.New`. -/
def New (env : Env) (data : ContainerJSON) (stopTimeout minImageAge : Int) (w : World) :
    Except Error Container × World :=
  match env.parseNormalizedNamed data.Config.Image with
  | .error err => (.error err, w)
  | .ok named =>
    match asNamedTagged (TagNameOnly named) with
    | none => (.error .ErrRepositoryNotTagged, w)
    | some namedTagged =>
      let res := env.imageInspect w.trace data.Image
      let w1 := w.log (.ImageInspect data.Image (errOf res))
      match res with
      | .error err => (.error err, w1)
      | .ok imageRaw =>
        match NewData env imageRaw namedTagged with
        | .error err => (.error err, w1)
        | .ok imageData =>
          (.ok { Raw := data, ID := data.ID, Name := data.Name, Labels := data.Config.Labels,
                 Image := imageData, Repository := namedTagged,
                 StopTimeout := labelInt data.Config.Labels LABEL_STOP_TIMEOUT stopTimeout,
                 MinImageAge := labelInt data.Config.Labels LABEL_IMAGE_AGE minImageAge }, w1)

/-! ## Candidate scanner (`Yacu.FetchUpdates`) -/

/-- The body of the loop of `Yacu.FetchUpdates` for one listed container: the list of
candidates after it, or the error (or panic) that ends the scan. -/
def scanContainer (env : Env) (app : App) (c : ContainerSummary) (containers : List Container)
    (w : World) : Res (List Container) × World :=
  let res := env.containerInspect w.trace c.ID
  let w1 := w.log (.ContainerInspect c.ID (errOf res))
  match res with
  | .error err => (.err (.wrap ("inspecting container " ++ c.ID ++ " failed") err), w1)
  | .ok ci =>
    match New env ci app.Updater.StopTimeout app.Scanner.ImageAge w1 with
    | (.error err, w2) =>
      if err.Is .ErrRepositoryNotTagged then (.ok containers, w2)
      else (.err (.wrap ("initializing container " ++ ci.Name ++ " failed") err), w2)
    | (.ok container, w2) =>
      if !container.ShouldScan app.Scanner.ScanAll app.Scanner.ScanStopped then
        (.ok containers, w2)
      else
        match container.IsOutdated env w2 with
        | (.error err, w3) => (.err err, w3)
        | (.ok yes, w3) =>
          if yes then
            match IsRemotePullable env container w3 with
            | (.panic msg, w4) => (.panic msg, w4)
            | (.err err, w4) => (.err err, w4)
            | (.ok yes, w4) =>
              if yes then (.ok (containers ++ [container]), w4) else (.ok containers, w4)
          else (.ok containers, w3)

/-- The loop of `Yacu.FetchUpdates` over the listed containers. -/
def scanLoop (env : Env) (app : App) :
    List ContainerSummary → List Container → World → Res (List Container) × World
  | [], containers, w => (.ok containers, w)
  | c :: rest, containers, w =>
    match scanContainer env app c containers w with
    | (.ok containers, w1) => scanLoop env app rest containers w1
    | (.err err, w1) => (.err err, w1)
    | (.panic msg, w1) => (.panic msg, w1)

/-- The method `Yacu.FetchUpdates`. -/
def FetchUpdates (env : Env) (app : App) (w : World) : Res (List Container) × World :=
  let res := env.containerList w.trace []
  let w1 := w.log (.ContainerList [] (errOf res))
  match res with
  | .error err => (.err (.wrap "listing containers failed" err), w1)
  | .ok cntList => scanLoop env app cntList [] w1

/-! ## Iteration over a map -/

/-- Helper of `rangeOrder`: `fuel` bounds the number of entries still to visit. -/
def rangeOrderAux {α : Type} : Nat → Nat → List α → List α
  | 0, _, _ => []
  | fuel + 1, seed, m =>
    match m.get? (seed % m.length) with
    | none => []
    | some x => x :: rangeOrderAux fuel (seed / m.length) (m.eraseIdx (seed % m.length))

/-- The order in which a `range` statement visits the entries of a map: some
permutation of them, selected by `seed`. -/
def rangeOrder {α : Type} (seed : Nat) (m : List α) : List α :=
  rangeOrderAux m.length seed m

/-! ## Dependent containers (`container.DependantContainer`) -/

/-- The function `container.NewDependant`; `data.Names[0]` panics on an empty list. -/
def NewDependant (data : ContainerSummary) (stopTimeout : Int) (dependsOn : ContainerJSON)
    (dependencyType : DependencyType) : Step DependantContainer :=
  match data.Names with
  | [] => .panic "index out of range [0] with length 0"
  | name :: _ =>
    .done { Data := data, Name := name,
            StopTimeout := labelInt data.Labels LABEL_STOP_TIMEOUT stopTimeout,
            DependsOn := dependsOn, DependencyType := dependencyType }

/-- The method `DependantContainer.Stop`. -/
def DependantContainer.Stop (env : Env) (c : DependantContainer) (w : World) :
    Option Error × World :=
  let res := env.containerStop w.trace c.Data.ID c.StopTimeout
  let w1 := w.log (.ContainerStop c.Data.ID c.StopTimeout res)
  match res with
  | some err => (some (.wrap ("failed to stop container " ++ c.Name) err), w1)
  | none => (none, w1)

/-- The method `DependantContainers.Stop`: the warnings of the failed stops. -/
def DependantContainers.Stop (env : Env) :
    List DependantContainer → World → List String × World
  | [], w => ([], w)
  | container :: rest, w =>
    match container.Stop env w with
    | (some err, w1) =>
      let (warnings, w2) := DependantContainers.Stop env rest w1
      (err.text :: warnings, w2)
    | (none, w1) => DependantContainers.Stop env rest w1

/-- The final `ContainerStart` of a dependent, with the message of its failure. -/
def DependantContainer.issueStart (env : Env) (c : DependantContainer) (msg : String)
    (w : World) : Option Error × World :=
  let res := env.containerStart w.trace c.Data.ID
  let w1 := w.log (.ContainerStart c.Data.ID res)
  match res with
  | some err => (some (.wrap msg err), w1)
  | none => (none, w1)

/-- The polling loop of `DependantContainer.Start` for the healthy condition; `ticks` is
the number of ticks of the ticker still served before the timer fires. -/
def DependantContainer.pollHealthy (env : Env) (c : DependantContainer) :
    Nat → World → Res Unit × World
  | 0, w =>
    (.err (.other ("timed out starting container " ++ c.Name ++ " due to " ++ c.DependsOn.Name ++
      " not starting or becoming healthy in a reasonable amount of time")), w)
  | ticks + 1, w =>
    let res := env.containerInspect w.trace c.DependsOn.ID
    let w1 := w.log (.ContainerInspect c.DependsOn.ID (errOf res))
    match res with
    | .error err =>
      (.err (.wrap ("failed to start container " ++ c.Name ++
        " due to an error from ContainerInspect") err), w1)
    | .ok container =>
      match container.State.Health with
      | none => (.panic "invalid memory address or nil pointer dereference", w1)
      | some health =>
        if health.Status = "none" ∨ health.Status = "healthy" then
          match c.issueStart env ("failed to start container " ++ c.Name) w1 with
          | (some err, w2) => (.err err, w2)
          | (none, w2) => (.ok (), w2)
        else if health.Status = "unhealthy" then
          (.err (.other ("failed to start container " ++ c.Name ++ " because " ++
            container.Name ++ " became unhealthy")), w1)
        else DependantContainer.pollHealthy env c ticks w1

/-- The method `DependantContainer.Start`: `Res.err` is the returned error (a warning for
the caller), `Res.ok` is the return of nil. -/
def DependantContainer.Start (env : Env) (c : DependantContainer) (w : World) :
    Res Unit × World :=
  let startFailed := "failed to start container " ++ c.Name ++ " depending on " ++
    c.DependsOn.Name
  match c.DependencyType with
  | .DEPENDENCY_STARTED =>
    match c.issueStart env startFailed w with
    | (some err, w1) => (.err err, w1)
    | (none, w1) => (.ok (), w1)
  | .DEPENDENCY_COMPLETED =>
    let outcome := env.containerWait w.trace c.DependsOn.ID
    let w1 := w.log (.ContainerWait c.DependsOn.ID outcome)
    match outcome with
    | .timeout =>
      (.err (.other ("timed out starting container " ++ c.Name ++ " due to " ++
        c.DependsOn.Name ++ " not exitting in a reasonable amount of time")), w1)
    | .transport err =>
      (.err (.wrap ("an error occurred while sending or receiving a ContainerWait request for "
        ++ c.DependsOn.Name) err), w1)
    | .response (some message) _ =>
      (.err (.wrap ("received an error from ContainerWait request for " ++ c.DependsOn.Name)
        (.other message)), w1)
    | .response none statusCode =>
      match c.issueStart env startFailed w1 with
      | (some err, w2) => (.err err, w2)
      | (none, w2) =>
        if statusCode ≠ 0 then
          (.err (.other ("container " ++ c.DependsOn.Name ++ " exit code not clean: " ++
            toString statusCode)), w2)
        else (.ok (), w2)
  | .DEPENDENCY_HEALTHY =>
    c.pollHealthy env (min (env.healthTicks w.trace) 30) w

/-- The method `DependantContainers.Start`: the warnings of the failed starts. -/
def DependantContainers.Start (env : Env) :
    List DependantContainer → World → Step (List String) × World
  | [], w => (.done [], w)
  | container :: rest, w =>
    match container.Start env w with
    | (.panic msg, w1) => (.panic msg, w1)
    | (.err err, w1) =>
      match DependantContainers.Start env rest w1 with
      | (.done warnings, w2) => (.done (err.text :: warnings), w2)
      | (.panic msg, w2) => (.panic msg, w2)
    | (.ok _, w1) => DependantContainers.Start env rest w1

/-! ## Dependency resolver (`Yacu.GetDependingContainers`) -/

/-- The condition named by the second field of a depends-on entry. -/
def conditionOf (env : Env) (depVals : List String) : DependencyType :=
  match depVals.get? 1 with
  | none => .DEPENDENCY_HEALTHY
  | some field =>
    let condStr := env.toLower field
    if condStr = "service_started" then .DEPENDENCY_STARTED
    else if condStr = "service_completed_successfully" then .DEPENDENCY_COMPLETED
    else .DEPENDENCY_HEALTHY

/-- The inner loop of `Yacu.GetDependingContainers` over the entries of one label: the
condition of the first entry that selects the container, if any.  The expression
`dependsOn.Name[1:]` panics on an empty name; it drops the first byte of the name, which
for the names the runtime reports is the character `/`. -/
def findDependency (env : Env) (dependsOn : ContainerJSON) :
    List String → Step (Option DependencyType)
  | [] => .done none
  | value :: rest =>
    let depVals := Split value ':'
    let dependency := depVals.headD ""
    match dependsOn.Name.data with
    | [] => .panic "slice bounds out of range [1:0]"
    | _ :: name =>
      if dependency ≠ String.mk name then findDependency env dependsOn rest
      else
        let condition := conditionOf env depVals
        match depVals.get? 2 with
        | none => .done (some condition)
        | some field =>
          match ParseBool field with
          | some false => findDependency env dependsOn rest
          | _ => .done (some condition)

/-- The outer loop of `Yacu.GetDependingContainers` over the listed containers. -/
def dependingLoop (env : Env) (app : App) (dependsOn : ContainerJSON) :
    List ContainerSummary → List DependantContainer → Step (List DependantContainer)
  | [], dependantContainers => .done dependantContainers
  | container :: rest, dependantContainers =>
    let val := (container.Labels.lookup LABEL_DEPENDS_ON).getD ""
    if val = "" then dependingLoop env app dependsOn rest dependantContainers
    else
      match findDependency env dependsOn (Split val ',') with
      | .panic msg => .panic msg
      | .done none => dependingLoop env app dependsOn rest dependantContainers
      | .done (some condition) =>
        match NewDependant container app.Updater.StopTimeout dependsOn condition with
        | .panic msg => .panic msg
        | .done dependant =>
          dependingLoop env app dependsOn rest (dependantContainers ++ [dependant])

/-- The method `Yacu.GetDependingContainers`. -/
def GetDependingContainers (env : Env) (app : App) (dependsOn : ContainerJSON) (w : World) :
    Res (List DependantContainer) × World :=
  let filters := [("label", LABEL_DEPENDS_ON), ("status", "running")]
  let res := env.containerList w.trace filters
  let w1 := w.log (.ContainerList filters (errOf res))
  match res with
  | .error err => (.err (.wrap "listing containers failed" err), w1)
  | .ok containers =>
    match dependingLoop env app dependsOn containers [] with
    | .panic msg => (.panic msg, w1)
    | .done dependantContainers => (.ok dependantContainers, w1)

/-! ## Stop and start of a container (`container.Container`) -/

/-- The method `Container.Stop`. -/
def Container.Stop (env : Env) (c : Container) (w : World) : Option Error × World :=
  let res := env.containerStop w.trace c.ID c.StopTimeout
  let w1 := w.log (.ContainerStop c.ID c.StopTimeout res)
  match res with
  | some err => (some (.wrap ("failed to stop container " ++ c.Name) err), w1)
  | none => (none, w1)

/-- The loop of `Container.Start`; `remaining` is `3 - i`. -/
def Container.startLoop (env : Env) (c : Container) : Nat → World → Option Error × World
  | 0, w => (none, w)
  | remaining + 1, w =>
    let res := env.containerStart w.trace c.ID
    let w1 := w.log (.ContainerStart c.ID res)
    match res with
    | some err =>
      if remaining = 0 then (some (.wrap ("failed to start container " ++ c.Name) err), w1)
      else Container.startLoop env c remaining (w1.log (.Sleep 1))
    | none => (none, w1)

/-- The method `Container.Start`. -/
def Container.Start (env : Env) (c : Container) (w : World) : Option Error × World :=
  c.startLoop env 3 w

/-! ## Image set (package `set`) -/

/-- The record `set.ImageSet`; `Items` is a map from image id to image. -/
structure ImageSet where
  Items : List (String × ImageData)
  deriving DecidableEq, Repr

/-- The function `set.NewImageSet`. -/
def NewImageSet : ImageSet :=
  { Items := [] }

/-- The method `ImageSet.Add`. -/
def ImageSet.Add (s : ImageSet) (img : ImageData) : ImageSet :=
  match s.Items.lookup img.ID with
  | some _ => s
  | none => { Items := s.Items ++ [(img.ID, img)] }

/-- The method `ImageSet.Remove`: `delete(s.Items, img.ID)`. -/
def ImageSet.Remove (s : ImageSet) (img : ImageData) : ImageSet :=
  { Items := s.Items.filter (fun entry => entry.1 ≠ img.ID) }

/-- The method `ImageSet.Contains`. -/
def ImageSet.Contains (s : ImageSet) (img : ImageData) : Bool :=
  match s.Items.lookup img.ID with
  | some _ => true
  | none => false

/-- The method `ImageSet.Size`: the number of entries of the map. -/
def ImageSet.Size (s : ImageSet) : Nat :=
  s.Items.length

/-- The loop of `ImageSet.Clear`: deletes the keys of the map one after the other. -/
def clearLoop : List String → List (String × ImageData) → List (String × ImageData)
  | [], items => items
  | k :: rest, items => clearLoop rest (items.filter (fun entry => entry.1 ≠ k))

/-- The method `ImageSet.Clear`. -/
def ImageSet.Clear (s : ImageSet) : ImageSet :=
  { Items := clearLoop (s.Items.map Prod.fst) s.Items }

/-! ## Image step (`Yacu.IsLatestImagePresent`, `Yacu.PullImage`) -/

/-- The method `Yacu.IsLatestImagePresent`. -/
def IsLatestImagePresent (env : Env) (named : NamedTagged) (w : World) :
    Except Error Bool × World :=
  let res := env.imageInspect w.trace named.String
  let w1 := w.log (.ImageInspect named.String (errOf res))
  match res with
  | .error err => (.error (.wrap ("inspecting image " ++ named.String ++ " failed") err), w1)
  | .ok currentImgData =>
    match GetRemoteImageFromName env (FamiliarTagged named) w1 with
    | (.error err, w2) =>
      (.error (.wrap ("fetching remote image data (" ++ named.String ++
        ") from local database failed") err), w2)
    | (.ok dbImage, w2) =>
      match env.timeParse currentImgData.Created with
      | none =>
        (.error (.wrap ("unknown time format " ++ currentImgData.Created)
          (.other "parsing time")), w2)
      | some createdTime =>
        if createdTime = dbImage.Created then (.ok true, w2)
        else (.ok (currentImgData.RepoDigests.any (fun str => Contains str dbImage.Digest)), w2)

/-- The method `Yacu.PullImage`. -/
def PullImage (env : Env) (app : App) (repository : NamedTagged) (w : World) :
    Option Error × World :=
  let auth : Except Error String :=
    match GetAuthConfigFor app.Registries repository.Domain with
    | some authEntry => env.encodeAuthConfig authEntry.Username authEntry.Password
    | none => .ok ""
  match auth with
  | .error err => (some (.wrap "encoding authentication configuration failed" err), w)
  | .ok registryAuth =>
    match env.imagePull w.trace repository.String registryAuth with
    | .error err =>
      (some (.wrap "failed to pull image" err),
        w.log (.ImagePull repository.String registryAuth (some err)))
    | .ok (some err) =>
      (some (.wrap "failure while pulling image" err),
        w.log (.ImagePull repository.String registryAuth (some err)))
    | .ok none => (none, w.log (.ImagePull repository.String registryAuth none))

/-- The body of the first loop of `Yacu.Run` (lines 59-91) for one candidate: `true` when
the loop goes on, `false` when `Run` returns. -/
def pullStep (env : Env) (app : App) (container : Container) (w : World) : Bool × World :=
  match IsLatestImagePresent env container.Repository w with
  | (.error err, w1) =>
    (false, w1.log (.HookImageError container.Image "Unable to check if image is latest" err))
  | (.ok yes, w1) =>
    if yes then (true, w1)
    else
      match PullImage env app container.Repository w1 with
      | (some err, w2) =>
        (false, w2.log (.HookImageError container.Image "Unable to pull image" err))
      | (none, w2) =>
        let res := env.imageInspect w2.trace container.Repository.String
        let w3 := w2.log (.ImageInspect container.Repository.String (errOf res))
        match res with
        | .error err =>
          (false, w3.log (.HookImageError container.Image "Unable to inspect image" err))
        | .ok newImageRaw =>
          match NewData env newImageRaw container.Repository with
          | .error err =>
            (false, w3.log (.HookImageError container.Image "Unable to initialize image" err))
          | .ok newImageData =>
            (true, w3.log (.HookImageUpdated container.Image newImageData))

/-- The first loop of `Yacu.Run`: pulls all new images. -/
def pullImages (env : Env) (app : App) : List Container → World → Bool × World
  | [], w => (true, w)
  | container :: rest, w =>
    match pullStep env app container w with
    | (true, w1) => pullImages env app rest w1
    | (false, w1) => (false, w1)

/-! ## Update executor (`Yacu.Run`) -/

/-- The variables `successCount` and `imgToRemove` of `Yacu.Run`. -/
structure Batch where
  successCount : Nat
  imgToRemove : ImageSet
  deriving DecidableEq, Repr

/-- The block `if shouldRestart { ... }` of `Yacu.Run` (lines 108-124).  The variable
`dependantContainers` that the block declares with `:=` lives in the block only; the
block yields the warnings of the stops. -/
def stopBlock (env : Env) (app : App) (container : Container) (updateWarnings : List String)
    (w : World) : Flow (List String) × World :=
  if container.IsRunning then
    match GetDependingContainers env app container.Raw w with
    | (.panic msg, w1) => (.panic msg, w1)
    | (.err err, w1) =>
      (.skip, w1.log (.HookContainerError container "Unable to fetch depending containers" err))
    | (.ok dependantContainers, w1) =>
      let (warnings, w2) := DependantContainers.Stop env dependantContainers w1
      let updateWarnings := updateWarnings ++ warnings
      match container.Stop env w2 with
      | (some err, w3) =>
        (.skip, w3.log (.HookContainerError container "Unable to stop container" err))
      | (none, w3) => (.next updateWarnings, w3)
  else (.next updateWarnings, w)

/-- The loop of lines 127-132: the first network the `range` visits, as the map
`singleNetSettings.EndpointsConfig`. -/
def singleNetwork (env : Env) (container : Container) (w : World) :
    List (String × EndpointSettings) :=
  match (rangeOrder (env.rangeSeed w.trace) container.Raw.Networks).head? with
  | some entry => [entry]
  | none => []

/-- The loop of lines 179-198 over the networks, in the order of the `range`. -/
def connectNetworks (env : Env) (newId : String) (single : List (String × EndpointSettings)) :
    List (String × EndpointSettings) → List String → World → List String × World
  | [], updateWarnings, w => (updateWarnings, w)
  | (netName, netSettings) :: rest, updateWarnings, w =>
    if (single.lookup netName).isSome then
      connectNetworks env newId single rest updateWarnings w
    else
      let res := env.networkConnect w.trace netName newId netSettings
      let w1 := w.log (.NetworkConnect netName newId netSettings res)
      match res with
      | some err =>
        connectNetworks env newId single rest
          (updateWarnings ++ ["connecting to network " ++ netName ++ " failed: " ++ err.text]) w1
      | none => connectNetworks env newId single rest updateWarnings w1

/-- The method `NetworkMode.IsHost`. -/
def HostConfig.IsHost (h : HostConfig) : Bool :=
  h.NetworkMode = "host"

/-- The success accounting of lines 228-231. -/
def finishUpdate (container newContainer : Container) (updateWarnings : List String)
    (batch : Batch) (w : World) : Step Batch × World :=
  (.done { successCount := batch.successCount + 1,
           imgToRemove := batch.imgToRemove.Add container.Image },
    w.log (.HookContainerUpdated container newContainer updateWarnings))

/-- Lines 134-168 of `Yacu.Run`: removes the old container and creates the new one on
the single network.  It yields the id of the new container and the warnings so far. -/
def recreate (env : Env) (app : App) (container : Container)
    (singleNetSettings : List (String × EndpointSettings)) (updateWarnings : List String)
    (w : World) : Flow (String × List String) × World :=
  let res := env.containerRemove w.trace container.ID true app.Updater.RemoveVolumes
  let w1 := w.log (.ContainerRemove container.ID true app.Updater.RemoveVolumes res)
  match res with
  | some err =>
    (.skip, w1.log (.HookContainerError container "Unable to remove container" err))
  | none =>
    let res := env.containerCreate w1.trace container.Raw.Config container.Raw.HostConfig
      singleNetSettings container.Raw.Name
    let w2 := w1.log (.ContainerCreate container.Raw.Config container.Raw.HostConfig
      singleNetSettings container.Raw.Name (errOf res))
    match res with
    | .error err =>
      (.skip, w2.log (.HookContainerError container "Unable to create container" err))
    | .ok response =>
      let newId := response.ID
      (.next (newId, updateWarnings ++ response.Warnings), w2)

/-- Lines 170-199 of `Yacu.Run`: connects the new container to the other networks. -/
def reconnect (env : Env) (container : Container)
    (singleNetSettings : List (String × EndpointSettings)) (newId : String)
    (updateWarnings : List String) (w : World) : List String × World :=
  if !container.Raw.HostConfig.IsHost then
    connectNetworks env newId singleNetSettings
      (rangeOrder (env.rangeSeed w.trace) container.Raw.Networks) updateWarnings w
  else (updateWarnings, w)

/-- Lines 201-231 of `Yacu.Run`: inspects the new container, starts it and the
containers of `dependantContainers` when `shouldRestart` holds, and accounts for the
success. -/
def restart (env : Env) (app : App) (container : Container) (shouldRestart : Bool)
    (dependantContainers : List DependantContainer) (newId : String)
    (updateWarnings : List String) (batch : Batch) (w : World) : Step Batch × World :=
  let res := env.containerInspect w.trace newId
  let w1 := w.log (.ContainerInspect newId (errOf res))
  match res with
  | .error err =>
    (.done batch, w1.log (.HookContainerError container "Unable to inspect container" err))
  | .ok newData =>
    match New env newData app.Updater.StopTimeout app.Scanner.ImageAge w1 with
    | (.error err, w2) =>
      (.done batch,
        w2.log (.HookContainerError container "Unable to initialize container" err))
    | (.ok newContainer, w2) =>
      if shouldRestart then
        match newContainer.Start env w2 with
        | (some err, w3) =>
          (.done batch, w3.log (.HookContainerError container "Unable to start container" err))
        | (none, w3) =>
          match DependantContainers.Start env dependantContainers w3 with
          | (.panic msg, w4) => (.panic msg, w4)
          | (.done warnings, w4) =>
            finishUpdate container newContainer (updateWarnings ++ warnings) batch w4
      else finishUpdate container newContainer updateWarnings batch w2

/-- The body of the second loop of `Yacu.Run` (lines 97-232) for one candidate: the
recreate sequence.  It yields the loop variables after the iteration, whether the
iteration ran to its end or left by `continue`.  The variable `dependantContainers` of
line 106 is never assigned: the block of `stopBlock` declares its own. -/
def updateContainer (env : Env) (app : App) (container : Container) (batch : Batch)
    (w : World) : Step Batch × World :=
  let updateWarnings : List String := []
  let shouldRestart := container.IsRunning
  let dependantContainers : List DependantContainer := []
  match stopBlock env app container updateWarnings w with
  | (.panic msg, w1) => (.panic msg, w1)
  | (.skip, w1) => (.done batch, w1)
  | (.next updateWarnings, w1) =>
    let singleNetSettings := singleNetwork env container w1
    match recreate env app container singleNetSettings updateWarnings w1 with
    | (.panic msg, w2) => (.panic msg, w2)
    | (.skip, w2) => (.done batch, w2)
    | (.next (newId, updateWarnings), w2) =>
      let (updateWarnings, w3) :=
        reconnect env container singleNetSettings newId updateWarnings w2
      restart env app container shouldRestart dependantContainers newId updateWarnings batch w3

/-- The second loop of `Yacu.Run`: updates all containers. -/
def updateContainers (env : Env) (app : App) :
    List Container → Batch → World → Step Batch × World
  | [], batch, w => (.done batch, w)
  | container :: rest, batch, w =>
    match updateContainer env app container batch w with
    | (.done batch1, w1) => updateContainers env app rest batch1 w1
    | (.panic msg, w1) => (.panic msg, w1)

/-! ## Image reclaimer (`Yacu.RemoveUnusedImages`) -/

/-- The loop of `Yacu.RemoveUnusedImages` over the images. -/
def removeLoop (env : Env) (containers : List ContainerSummary) :
    List ImageData → Nat → World → Nat × World
  | [], count, w => (count, w)
  | image :: rest, count, w =>
    let removeImage :=
      !containers.any (fun container => IdEncoded container.ImageID = IdEncoded image.ID)
    if removeImage then
      let res := env.imageRemove w.trace image.ID true
      let w1 := w.log (.ImageRemove image.ID true res)
      match res with
      | some err => removeLoop env containers rest count (w1.log (.HookImageRemovalFailed image err))
      | none => removeLoop env containers rest (count + 1) w1
    else removeLoop env containers rest count w

/-- The method `Yacu.RemoveUnusedImages`. -/
def RemoveUnusedImages (env : Env) (images : List ImageData) (w : World) : Nat × World :=
  let res := env.containerList w.trace []
  let w1 := w.log (.ContainerList [] (errOf res))
  match res with
  | .error _ => (0, w1)
  | .ok containers => removeLoop env containers images 0 w1

/-! ## One run of the orchestrator -/

/-- Lines 234-240 of `Yacu.Run`: after the update loop, the images of the updated
containers go to the reclaimer when the configuration asks for it. -/
def reclaim (env : Env) (app : App) : Step Batch × World → Step Unit × World
  | (.panic msg, w) => (.panic msg, w)
  | (.done batch, w) =>
    if app.Updater.RemoveImages && decide (batch.imgToRemove.Items.length > 0) then
      let images := rangeOrder (env.rangeSeed w.trace) (batch.imgToRemove.Items.map Prod.snd)
      (.done (), (RemoveUnusedImages env images w).2)
    else (.done (), w)

/-- The part of `Yacu.Run` after the scan (lines 52-240), for the candidates
`containers` that `FetchUpdates` returned. -/
def runBatch (env : Env) (app : App) (containers : List Container) (w : World) :
    Step Unit × World :=
  match pullImages env app containers w with
  | (false, w1) => (.done (), w1)
  | (true, w1) =>
    reclaim env app
      (updateContainers env app containers { successCount := 0, imgToRemove := NewImageSet } w1)

/-- The method `Yacu.Run`. -/
def Run (env : Env) (app : App) (w : World) : Step Unit × World :=
  match FetchUpdates env app w with
  | (.panic msg, w1) => (.panic msg, w1)
  | (.err err, w1) => (.done (), w1.log (.HookError "Unable to fetch updates" err))
  | (.ok containers, w1) => runBatch env app containers w1

/-! ## Observations on the history of calls -/

/-- The stops and starts of containers among the events, in order. -/
def stopsAndStarts : List Event → List (String × String)
  | [] => []
  | .ContainerStop id _ _ :: rest => ("stop", id) :: stopsAndStarts rest
  | .ContainerStart id _ :: rest => ("start", id) :: stopsAndStarts rest
  | _ :: rest => stopsAndStarts rest

/-- The event is a removal or a creation of a container. -/
def Event.isRemoveOrCreate : Event → Bool
  | .ContainerRemove _ _ _ _ => true
  | .ContainerCreate _ _ _ _ _ => true
  | _ => false

/-- The network connections requested for the container `id` among the events, in order. -/
def connectCalls (id : String) : List Event → List (String × Option Error)
  | [] => []
  | .NetworkConnect network containerId _ err :: rest =>
    if containerId = id then (network, err) :: connectCalls id rest else connectCalls id rest
  | _ :: rest => connectCalls id rest

/-- The warning that `Yacu.Run` records for a failed network connection. -/
def connectWarning (call : String × Option Error) : Option String :=
  match call.2 with
  | some err => some ("connecting to network " ++ call.1 ++ " failed: " ++ err.text)
  | none => none

/-- The history of `w'` extends that of `w` by events that neither remove nor create a
container. -/
def Quiet (w w' : World) : Prop :=
  ∃ evs, w'.trace = w.trace ++ evs ∧ ∀ ev ∈ evs, ev.isRemoveOrCreate = false

/-- The calls of `ImageRemove` among the events, in order: the id, the force flag and the
outcome of each. -/
def removeCalls : List Event → List (String × Bool × Option Error)
  | [] => []
  | .ImageRemove id force err :: rest => (id, force, err) :: removeCalls rest
  | _ :: rest => removeCalls rest

/-- The notifications `ImageRemovalFailed` among the events, in order. -/
def removalFailures : List Event → List (ImageData × Error)
  | [] => []
  | .HookImageRemovalFailed image err :: rest => (image, err) :: removalFailures rest
  | _ :: rest => removalFailures rest

/-- The event is a call of `ImageRemove` or a notification `ImageRemovalFailed`. -/
def Event.isRemoval : Event → Bool
  | .ImageRemove _ _ _ => true
  | .HookImageRemovalFailed _ _ => true
  | _ => false

/-- The notifications `ContainerUpdated` among the events, in order: the old container,
the new container and the warnings carried. -/
def updatedNotices : List Event → List (Container × Container × List String)
  | [] => []
  | .HookContainerUpdated prevContainer newContainer warnings :: rest =>
    (prevContainer, newContainer, warnings) :: updatedNotices rest
  | _ :: rest => updatedNotices rest

/-- The containers of the notifications `ContainerError` among the events, in order. -/
def failedNotices : List Event → List Container
  | [] => []
  | .HookContainerError container _ _ :: rest => container :: failedNotices rest
  | _ :: rest => failedNotices rest

/-- The history of `w'` extends that of `w` by events whose notifications
`ContainerUpdated` are `updated` and whose notifications `ContainerError` are for the
containers `failed`. -/
def Notices (w w' : World) (updated : List (Container × Container × List String))
    (failed : List Container) : Prop :=
  ∃ evs, w'.trace = w.trace ++ evs ∧ updatedNotices evs = updated ∧ failedNotices evs = failed

/-! ## Notification fan-out (package `webhook`) -/

/-- The record `config.WebhookKind`; each field is a pointer that may be nil. -/
structure WebhookKind where
  ImageSuccess : Option Bool
  ContainerSuccess : Option Bool
  Errors : Option Bool
  deriving DecidableEq, Repr

/-- The record `webhook`: a registered sink with its three gates; `funcs` names the
sink. -/
structure webhook where
  funcs : String
  errors : Bool
  image_success : Bool
  container_success : Bool
  deriving DecidableEq, Repr

/-- The record `Webhooks`: the registered sinks, in registration order. -/
structure Webhooks where
  webhooks : List webhook
  deriving DecidableEq, Repr

/-- A call of a method of the interface `webhookFuncs` on the sink `sink`. -/
inductive SinkCall where
  | Error (sink : String) (context : String) (err : Error)
  | ImageUpdated (sink : String) (prevImage newImage : ImageData)
  | ImageError (sink : String) (image : ImageData) (context : String) (err : Error)
  | ImageRemovalFailed (sink : String) (image : ImageData) (err : Error)
  | ContainerUpdated (sink : String) (prevContainer newContainer : Container)
      (warnings : List String)
  | ContainerError (sink : String) (container : Container) (context : String) (err : Error)
  deriving DecidableEq, Repr

/-- The function `NewWebhookHandler`. -/
def NewWebhookHandler : Webhooks :=
  { webhooks := [] }

/-- The method `Webhooks.Append`; the dereference of a nil gate panics. -/
def Webhooks.Append (w : Webhooks) (hook : String) (config : WebhookKind) : Step Webhooks :=
  match config.Errors, config.ImageSuccess, config.ContainerSuccess with
  | some errors, some imageSuccess, some containerSuccess =>
    .done { webhooks := w.webhooks ++
      [{ funcs := hook, errors := errors, image_success := imageSuccess,
         container_success := containerSuccess }] }
  | _, _, _ => .panic "invalid memory address or nil pointer dereference"

/-- The loop `for _, hook := range w.webhooks { if gate { hook.funcs.Method(...) } }` that
is the body of each dispatch method: `gate` reads the gate of the entry, `call` is the
method called on its sink, `calls` are the calls made on the sinks so far. -/
def dispatchLoop (gate : webhook → Bool) (call : String → SinkCall) :
    List webhook → List SinkCall → List SinkCall
  | [], calls => calls
  | hook :: rest, calls =>
    if gate hook then dispatchLoop gate call rest (calls ++ [call hook.funcs])
    else dispatchLoop gate call rest calls

/-- The method `Webhooks.Error`. -/
def Webhooks.Error (w : Webhooks) (context : String) (err : Yacu.Error)
    (calls : List SinkCall) : List SinkCall :=
  dispatchLoop (fun hook => hook.errors) (fun sink => .Error sink context err) w.webhooks calls

/-- The method `Webhooks.ImageUpdated`. -/
def Webhooks.ImageUpdated (w : Webhooks) (prevImage newImage : ImageData)
    (calls : List SinkCall) : List SinkCall :=
  dispatchLoop (fun hook => hook.image_success)
    (fun sink => .ImageUpdated sink prevImage newImage) w.webhooks calls

/-- The method `Webhooks.ImageError`. -/
def Webhooks.ImageError (w : Webhooks) (image : ImageData) (context : String)
    (err : Yacu.Error) (calls : List SinkCall) : List SinkCall :=
  dispatchLoop (fun hook => hook.errors) (fun sink => .ImageError sink image context err)
    w.webhooks calls

/-- The method `Webhooks.ImageRemovalFailed`. -/
def Webhooks.ImageRemovalFailed (w : Webhooks) (image : ImageData) (err : Yacu.Error)
    (calls : List SinkCall) : List SinkCall :=
  dispatchLoop (fun hook => hook.errors) (fun sink => .ImageRemovalFailed sink image err)
    w.webhooks calls

/-- The method `Webhooks.ContainerUpdated`. -/
def Webhooks.ContainerUpdated (w : Webhooks) (prevContainer newContainer : Container)
    (warnings : List String) (calls : List SinkCall) : List SinkCall :=
  dispatchLoop (fun hook => hook.container_success)
    (fun sink => .ContainerUpdated sink prevContainer newContainer warnings) w.webhooks calls

/-- The method `Webhooks.ContainerError`. -/
def Webhooks.ContainerError (w : Webhooks) (container : Container) (context : String)
    (err : Yacu.Error) (calls : List SinkCall) : List SinkCall :=
  dispatchLoop (fun hook => hook.errors)
    (fun sink => .ContainerError sink container context err) w.webhooks calls
/-! ## The inclusion policy in the words of the specification -/

/-- The rules of the inclusion policy of the candidate scanner, in the order of the
specification, each a condition with its verdict: self-exclusion; a container that is
not running when stopped containers are not scanned; an `enable` label, whose boolean
value is the verdict and which excludes when it does not parse; the global flag. -/
def inclusionRules (c : Container) (all stopped : Bool) : List (Bool × Bool) :=
  [(c.IsYacu, false),
   (!stopped && !c.IsRunning, false),
   ((c.Labels.lookup LABEL_ENABLE).isSome,
     ((c.Labels.lookup LABEL_ENABLE).bind ParseBool).getD false),
   (true, all)]

/-- The verdict of the first rule of `inclusionRules` whose condition holds. -/
def scanPolicy (c : Container) (all stopped : Bool) : Bool :=
  match (inclusionRules c all stopped).find? (fun rule => rule.1) with
  | some rule => rule.2
  | none => false

/-! ## The entries of a depends-on label in the words of the specification -/

/-- The name under which other containers depend on `d`: its runtime name without the
leading `/`. -/
def dependencyName (d : ContainerJSON) : String :=
  String.mk (d.Name.data.drop 1)

/-- The entry `dependency[:condition[:restart]]` names the dependency `name`. -/
def entryNames (name value : String) : Bool :=
  (Split value ':').headD "" = name

/-- The entry `dependency[:condition[:restart]]` has a restart field that parses to
false. -/
def entryRestartFalse (value : String) : Bool :=
  match (Split value ':').get? 2 with
  | some field => ParseBool field = some false
  | none => false

/-- The depends-on label of a listed container, empty when it has none. -/
def dependsOnLabel (s : ContainerSummary) : String :=
  (s.Labels.lookup LABEL_DEPENDS_ON).getD ""

/-- An id with its `algorithm:` prefix stripped: what follows the first colon, or the id
itself when it has no colon. -/
def stripAlgorithm (id : String) : String :=
  match id.data.dropWhile (fun c => c ≠ ':') with
  | [] => id
  | _ :: rest => String.mk rest

/-- The digest portion of `entry` when it reads `name@digest` with the name `familiarName`. -/
def digestPortion (familiarName entry : String) : Option String :=
  match Split entry '@' with
  | first :: second :: _ => if first = familiarName then some second else none
  | _ => none

/-- The digest portion of the first entry `name@digest` of `entries` whose name is
`familiarName`. -/
def firstDigestPortion (familiarName : String) (entries : List String) : Option String :=
  entries.findSome? (digestPortion familiarName)

/-! ## A small fleet on which the model is evaluated

One registry image `nginx` and one `postgres`; a running container `/web` on the
networks `front` and `back`, a running container `/worker` that depends on `web`, and a
running container `/db`.  The clock stands at day 40 of the epoch. -/

/-- The instant `n` days after the epoch. -/
def day (n : Int) : Time :=
  n * nsPerDay

/-- RFC 3339 text of the instants of the fleet. -/
def calendarFormat (t : Time) : String :=
  if t = day 0 then "1970-01-01T00:00:00Z"
  else if t = day 10 then "1970-01-11T00:00:00Z"
  else if t = day 38 then "1970-02-08T00:00:00Z"
  else if t = day 40 then "1970-02-10T00:00:00Z"
  else "0001-01-01T00:00:00Z"

/-- Inverse of `calendarFormat` on the instants of the fleet. -/
def calendarParse (s : String) : Option Time :=
  if s = "1970-01-01T00:00:00Z" then some (day 0)
  else if s = "1970-01-11T00:00:00Z" then some (day 10)
  else if s = "1970-02-08T00:00:00Z" then some (day 38)
  else if s = "1970-02-10T00:00:00Z" then some (day 40)
  else none

def nginxRef : NamedTagged :=
  { Domain := "docker.io", Path := "library/nginx", Tag := "latest", Digest := none }

def postgresRef : NamedTagged :=
  { Domain := "docker.io", Path := "library/postgres", Tag := "latest", Digest := none }

def nginxInspect : ImageInspect :=
  { ID := "sha256:img1", RepoDigests := ["nginx@sha256:d1"], Created := "1970-01-01T00:00:00Z" }

def postgresInspect : ImageInspect :=
  { ID := "sha256:img3", RepoDigests := ["postgres@sha256:d3"],
    Created := "1970-01-01T00:00:00Z" }

def nginxImage : ImageData :=
  { Raw := nginxInspect, ID := "sha256:img1", Created := day 0, Repository := nginxRef,
    RepoDigest := "sha256:hash-of-sha256:d1" }

def postgresImage : ImageData :=
  { Raw := postgresInspect, ID := "sha256:img3", Created := day 0, Repository := postgresRef,
    RepoDigest := "sha256:hash-of-sha256:d3" }

def frontEndpoint : EndpointSettings :=
  { NetworkID := "net-front", Aliases := ["web"] }

def backEndpoint : EndpointSettings :=
  { NetworkID := "net-back", Aliases := [] }

def webJSON : ContainerJSON :=
  { ID := "c1", Name := "/web", Image := "sha256:img1",
    State := { Status := "running", Health := none },
    Config := { Image := "nginx", Labels := [] },
    HostConfig := { NetworkMode := "front" },
    Networks := [("front", frontEndpoint), ("back", backEndpoint)] }

def dbJSON : ContainerJSON :=
  { ID := "c3", Name := "/db", Image := "sha256:img3",
    State := { Status := "running", Health := none },
    Config := { Image := "postgres", Labels := [] },
    HostConfig := { NetworkMode := "back" },
    Networks := [("back", backEndpoint)] }

def workerJSON : ContainerJSON :=
  { ID := "c2", Name := "/worker", Image := "sha256:img1",
    State := { Status := "running", Health := none },
    Config := { Image := "nginx", Labels := [(LABEL_DEPENDS_ON, "web:service_started")] },
    HostConfig := { NetworkMode := "back" },
    Networks := [("back", backEndpoint)] }

def webSummary : ContainerSummary :=
  { ID := "c1", Names := ["/web"], ImageID := "sha256:img1", Labels := [] }

def workerSummary : ContainerSummary :=
  { ID := "c2", Names := ["/worker"], ImageID := "sha256:img1",
    Labels := [(LABEL_DEPENDS_ON, "web:service_started")] }

def dbSummary : ContainerSummary :=
  { ID := "c3", Names := ["/db"], ImageID := "sha256:img3", Labels := [] }

/-- The candidate `/web`. -/
def webContainer : Container :=
  { Raw := webJSON, ID := "c1", Name := "/web", Labels := [], Image := nginxImage,
    Repository := nginxRef, StopTimeout := 10, MinImageAge := 7 }

/-- The candidate `/db`. -/
def dbContainer : Container :=
  { Raw := dbJSON, ID := "c3", Name := "/db", Labels := [], Image := postgresImage,
    Repository := postgresRef, StopTimeout := 10, MinImageAge := 7 }

/-- Global configuration of the fleet. -/
def fleetApp : App :=
  { Scanner := { Interval := "0 * * * *", ImageAge := 7, ScanAll := true, ScanStopped := false },
    Updater := { StopTimeout := 10, RemoveVolumes := false, RemoveImages := false },
    Registries := [] }

/-- The fleet at rest: every call of the program succeeds. -/
def fleetEnv : Env where
  timeParse := calendarParse
  timeFormat := calendarFormat
  digestParse := fun s => if HasPrefix s "sha256:" then some s else none
  digestFromString := fun s => "sha256:hash-of-" ++ s
  parseNormalizedNamed := fun s =>
    if s = "nginx" then .ok { Domain := "docker.io", Path := "library/nginx", Tag := none, Digest := none }
    else if s = "postgres" then
      .ok { Domain := "docker.io", Path := "library/postgres", Tag := none, Digest := none }
    else .error (.other "invalid reference format")
  toLower := fun s => String.mk (s.data.map Char.toLower)
  encodeAuthConfig := fun username password => .ok (username ++ ":" ++ password)
  clock := fun _ => day 40
  rangeSeed := fun _ => 0
  healthTicks := fun _ => 30
  dbFault := fun _ => none
  registry := fun _ named =>
    .ok { Name := named.Path, Tag := named.Tag, Created := some (day 10), Digest := "sha256:d1",
          Arch := "amd64", OS := "linux" }
  containerList := fun _ filters =>
    if filters = [] then .ok [webSummary, workerSummary, dbSummary] else .ok [workerSummary]
  containerInspect := fun _ id =>
    if id = "c1" then .ok webJSON
    else if id = "c2" then .ok workerJSON
    else if id = "c3" then .ok dbJSON
    else if id = "new/web" then .ok { webJSON with ID := "new/web" }
    else if id = "new/db" then .ok { dbJSON with ID := "new/db" }
    else .error (.other "no such container")
  containerStop := fun _ _ _ => none
  containerStart := fun _ _ => none
  containerRemove := fun _ _ _ _ => none
  containerCreate := fun _ _ _ _ name => .ok { ID := "new" ++ name, Warnings := [] }
  networkConnect := fun _ _ _ _ => none
  containerWait := fun _ _ => .response none 0
  imageInspect := fun _ ref =>
    if ref = "sha256:img1" ∨ ref = "docker.io/library/nginx:latest" then .ok nginxInspect
    else if ref = "sha256:img3" ∨ ref = "docker.io/library/postgres:latest" then
      .ok postgresInspect
    else .error (.other "no such image")
  imagePull := fun _ _ _ => .ok none
  imageRemove := fun _ _ _ => none

/-- The world before anything happened: no cache row, no call made. -/
def emptyWorld : World :=
  { tick := 0, rows := [], trace := [] }

/-- The cache row of `nginx:latest` as the program reads it. -/
def nginxRow (created lastCheck : Time) : RemoteImageRow :=
  { RowId := 1, Name := "nginx:latest", Domain := "docker.io", Created := created,
    Digest := "sha256:d1", LastCheck := lastCheck }

/-- The registry data of a build of `nginx` made at `created`. -/
def nginxRemote (created : Time) (digest : String) : RegistryImageData :=
  { Name := "library/nginx", Tag := "latest", Created := some created, Digest := digest,
    Arch := "amd64", OS := "linux" }

/-- The fleet when the registry holds a build of `nginx` made on day 38. -/
def freshEnv : Env :=
  { fleetEnv with registry := fun _ _ => .ok (nginxRemote (day 38) "sha256:d2") }

/-- A world whose cache holds one row for `nginx:latest`. -/
def cachedWorld (created lastCheck : Time) : World :=
  { tick := 0,
    rows := [{ id := 1, name := "nginx:latest", domain := "docker.io",
               created := calendarFormat created, digest := "sha256:d1",
               last_check := calendarFormat lastCheck }],
    trace := [] }

/-- The dependent `/worker` of `/web` as `GetDependingContainers` resolves it. -/
def workerDependant : DependantContainer :=
  { Data := workerSummary, Name := "/worker", StopTimeout := 10, DependsOn := webJSON,
    DependencyType := .DEPENDENCY_STARTED }

/-- The record of `/web` after its recreation. -/
def newWebContainer : Container :=
  { webContainer with Raw := { webJSON with ID := "new/web" }, ID := "new/web" }

/-- The loop variables of `Yacu.Run` before the first candidate. -/
def noUpdates : Batch :=
  { successCount := 0, imgToRemove := NewImageSet }

/-- The world after a scan that found `/web` and `/db` outdated: the cache holds a row
for each of the two images, and the local `postgres` image is not the registry one. -/
def scannedWorld : World :=
  { tick := 0,
    rows := [{ id := 1, name := "nginx:latest", domain := "docker.io",
               created := calendarFormat (day 10), digest := "sha256:d1",
               last_check := calendarFormat (day 40) },
             { id := 2, name := "postgres:latest", domain := "docker.io",
               created := calendarFormat (day 10), digest := "sha256:d4",
               last_check := calendarFormat (day 40) }],
    trace := [] }

/-- The fleet when the runtime cannot inspect the image `nginx:latest` by name. -/
def pullFailEnv : Env :=
  { fleetEnv with
    imageInspect := fun _ ref =>
      if ref = "docker.io/library/nginx:latest" then .error (.other "connection refused")
      else fleetEnv.imageInspect [] ref }

/-- The fleet when the runtime cannot stop `/web`. -/
def stopFailEnv : Env :=
  { fleetEnv with
    containerStop := fun _ id _ =>
      if id = "c1" then some (.other "cannot stop container") else none }

/-- The fleet when no network accepts a new endpoint. -/
def connectFailEnv : Env :=
  { fleetEnv with networkConnect := fun _ _ _ _ => some (.other "network unreachable") }

/-- The fleet when the local image of every container was built on day 38. -/
def youngImageEnv : Env :=
  { fleetEnv with
    imageInspect := fun _ _ => .ok { nginxInspect with Created := "1970-02-08T00:00:00Z" } }

/-- The record that `container.New` builds for `/web` on `youngImageEnv`. -/
def youngWebContainer : Container :=
  { webContainer with
    Image := { nginxImage with
      Raw := { nginxInspect with Created := "1970-02-08T00:00:00Z" }, Created := day 38 } }

/-- The world after `/web` and its dependents were stopped when no network accepts a new
endpoint. -/
def afterStop : World :=
  (stopBlock connectFailEnv fleetApp webContainer [] emptyWorld).2

/-- The world after `/web` was removed and created again, from `afterStop`. -/
def afterCreate : World :=
  (recreate connectFailEnv fleetApp webContainer
    (singleNetwork connectFailEnv webContainer afterStop) [] afterStop).2

/-- The candidate `/web` carrying the label `yacu.enable=true`. -/
def enabledWeb : Container :=
  { webContainer with Labels := [(LABEL_ENABLE, "true")] }

/-- The candidate `/web` carrying the label `yacu.enable=notabool`. -/
def mislabelledWeb : Container :=
  { webContainer with Labels := [(LABEL_ENABLE, "notabool")] }

/-- A container named `/api`, on which other containers depend. -/
def apiJSON : ContainerJSON :=
  { webJSON with ID := "c4", Name := "/api" }

/-- A listed container `/client` whose depends-on label is `label`. -/
def clientSummary (label : String) : ContainerSummary :=
  { ID := "c5", Names := ["/client"], ImageID := "sha256:img1",
    Labels := [(LABEL_DEPENDS_ON, label)] }

/-- The fleet when the only container with a depends-on label is `/client`, labelled
`label`. -/
def clientEnv (label : String) : Env :=
  { fleetEnv with
    containerList := fun _ filters =>
      if filters = [] then .ok [webSummary, dbSummary] else .ok [clientSummary label] }

/-- The dependent that `/client`, labelled `label`, is resolved to for `/api`. -/
def clientDependant (label : String) (condition : DependencyType) : DependantContainer :=
  { Data := clientSummary label, Name := "/client", StopTimeout := 10, DependsOn := apiJSON,
    DependencyType := condition }

/-- The dependent `/worker` of `/web` with the condition completed. -/
def completedWorker : DependantContainer :=
  { workerDependant with DependencyType := .DEPENDENCY_COMPLETED }

/-- The fleet when the wait on a container ends with the exit code `code`. -/
def exitCodeEnv (code : Int) : Env :=
  { fleetEnv with containerWait := fun _ _ => .response none code }

/-- The fleet when the wait on a container ends with the exit code `code` and no
container can be started. -/
def startFailEnv (code : Int) : Env :=
  { fleetEnv with
    containerWait := fun _ _ => .response none code
    containerStart := fun _ _ => some (.other "cannot start container") }

/-- The dependent `/worker` of `/web` with the condition healthy. -/
def healthyWorker : DependantContainer :=
  { workerDependant with DependencyType := .DEPENDENCY_HEALTHY }

/-- The fleet when every inspection reports the health status `status`. -/
def healthEnv (status : String) : Env :=
  { fleetEnv with
    containerInspect := fun _ _ =>
      .ok { webJSON with State := { Status := "running", Health := some { Status := status } } } }

/-- The fleet when the first `failures` starts of a container fail, each with an error of
its own. -/
def flakyEnv (failures : Nat) : Env :=
  { fleetEnv with
    containerStart := fun trace _ =>
      if (stopsAndStarts trace).length < failures then
        some (.other ("shim task failed, attempt " ++ toString ((stopsAndStarts trace).length + 1)))
      else none }

/-- The inspection of `/web` when its image is pinned by digest. -/
def pinnedJSON : ContainerJSON :=
  { webJSON with Config := { Image := "nginx@sha256:d1", Labels := [] } }

/-- The fleet when `/web` runs an image pinned by digest. -/
def pinnedEnv : Env :=
  { fleetEnv with
    parseNormalizedNamed := fun s =>
      if s = "nginx@sha256:d1" then
        .ok { Domain := "docker.io", Path := "library/nginx", Tag := none,
              Digest := some "sha256:d1" }
      else fleetEnv.parseNormalizedNamed s
    containerInspect := fun trace id =>
      if id = "c1" then .ok pinnedJSON else fleetEnv.containerInspect trace id }

/-- The fleet when the registry cannot be reached for the repository of nginx. -/
def registryFailEnv : Env :=
  { fleetEnv with
    registry := fun trace named =>
      if named.Path = "library/nginx" then .error (.other "registry unreachable")
      else fleetEnv.registry trace named }

/-- The fleet when the row store fails on the call that follows a fetch from the
registry. -/
def saveFailEnv : Env :=
  { fleetEnv with
    dbFault := fun trace =>
      match trace.getLast? with
      | some (.registryFetch _ none) => some (.other "database is locked")
      | _ => none }

/-- An image that no container of the fleet uses and that cannot be removed. -/
def lockedImage : ImageData :=
  { nginxImage with ID := "sha256:img8" }

/-- An image that no container of the fleet uses. -/
def orphanImage : ImageData :=
  { nginxImage with ID := "sha256:img9" }

/-- The fleet when the removal of the image `sha256:img8` fails. -/
def removeFailEnv : Env :=
  { fleetEnv with
    imageRemove := fun _ id _ =>
      if id = "sha256:img8" then some (.other "image is being used") else none }

/-- The inspection of `/web` with a stop timeout of 30 and an image age that is no number. -/
def tunedJSON : ContainerJSON :=
  { webJSON with
    Config := { Image := "nginx",
                Labels := [(LABEL_STOP_TIMEOUT, "30"), (LABEL_IMAGE_AGE, "soon")] } }

/-- The summary of `/worker` with a stop timeout of -1. -/
def tunedSummary : ContainerSummary :=
  { workerSummary with Labels := [(LABEL_STOP_TIMEOUT, "-1"), (LABEL_IMAGE_AGE, "3")] }

/-- The record that `container.New` builds from `tunedJSON` with the defaults 10 and 7. -/
def tunedContainer : Container :=
  { webContainer with
    Raw := tunedJSON, Labels := tunedJSON.Config.Labels, StopTimeout := 30, MinImageAge := 7 }

/-- The record that `NewDependant` builds from `tunedSummary` with the default 10. -/
def tunedDependant : DependantContainer :=
  { Data := tunedSummary, Name := "/worker", StopTimeout := -1, DependsOn := webJSON,
    DependencyType := .DEPENDENCY_STARTED }

/-- The fleet when the runtime cannot stop `/worker`. -/
def workerStopFailEnv : Env :=
  { fleetEnv with
    containerStop := fun _ id _ =>
      if id = "c2" then some (.other "cannot stop container") else none }

/-- The gates of the sink `discord`: errors and updated containers. -/
def discordKind : WebhookKind :=
  { ImageSuccess := some false, ContainerSuccess := some true, Errors := some true }

/-- The gates of the sink `audit`: updated images only. -/
def auditKind : WebhookKind :=
  { ImageSuccess := some true, ContainerSuccess := some false, Errors := some false }

/-- The gates of the sink `pager`: errors only. -/
def pagerKind : WebhookKind :=
  { ImageSuccess := some false, ContainerSuccess := some false, Errors := some true }

/-- The fan-out after the registration of `discord`, `audit` and `pager`, in this order. -/
def fleetHooks : Webhooks :=
  { webhooks := [{ funcs := "discord", errors := true, image_success := false,
                   container_success := true },
                 { funcs := "audit", errors := false, image_success := true,
                   container_success := false },
                 { funcs := "pager", errors := true, image_success := false,
                   container_success := false }] }

/-- A later build of `nginx` reported with the id of the first. -/
def rebuiltNginx : ImageData :=
  { nginxImage with Created := day 10 }

/-- The record of `/web` with an image age of 0 days. -/
def eagerWeb : Container :=
  { webContainer with MinImageAge := 0 }

/-- The record of `/web` when the runtime knows its image under a mirror only. -/
def mirroredWeb : Container :=
  { webContainer with
    Image := { nginxImage with
               Raw := { nginxInspect with RepoDigests := ["mirror.example/nginx@sha256:d9"] } } }

/-! ## Freshness cache: the age gate, the rate limit, the first lookup and the recheck -/

/-- A successful read of the cache logs one event and changes nothing else. -/
theorem GetRemoteImageFromName_ok (env : Env) (name : String) (w : World)
    (row : RemoteImageRow) (hrow : (GetRemoteImageFromName env name w).1 = .ok row) :
    GetRemoteImageFromName env name w = (.ok row, w.log (.dbGet name none)) := by
  simp only [GetRemoteImageFromName] at hrow ⊢
  rw [hrow]; rfl

/-- Replacing the records of a name that has none keeps the table as it is. -/
theorem filter_no_row (rows : List StoredRow) (name domain : String)
    (hnorow : rows.find? (fun r => r.name = name) = none) :
    rows.filter (fun r => ¬ (r.name = name ∧ r.domain = domain)) = rows := by
  rw [List.filter_eq_self]
  intro r hr
  have := List.find?_eq_none.mp hnorow r hr
  simp at this
  simp [this]

/-- A name that has no record is selected in vain. -/
theorem selectByName_none (rows : List StoredRow) (name : String)
    (hnorow : rows.find? (fun r => r.name = name) = none) :
    selectByName rows name = none := by
  have hnil : rows.filter (fun r => r.name = name) = [] := by
    rw [List.filter_eq_nil_iff]
    intro r hr
    exact List.find?_eq_none.mp hnorow r hr
  rw [selectByName, hnil]
  rfl

/-- Setting `last_check` after `created` and `digest` on the records of one id is one
update of the three columns. -/
theorem map_update_check (rows : List StoredRow) (a b d : String) (i : Int) :
    List.map (fun r : StoredRow => if r.id = i then { r with last_check := d } else r)
      (List.map (fun r : StoredRow =>
        if r.id = i then { r with created := a, digest := b } else r) rows)
    = List.map (fun r : StoredRow =>
        if r.id = i then { r with created := a, digest := b, last_check := d } else r) rows := by
  rw [List.map_map]
  apply List.map_congr_left
  intro r _
  by_cases h : r.id = i <;> simp [h]

/-- Claim C1.  For every effective `MinImageAge` and every existing cache row whose
`created` time is fewer than `MinImageAge` whole days old, `IsRemotePullable` returns
`false` without error; the only call it makes is the read of the cache (no registry call,
no write), and the table is unchanged. -/
theorem IsRemotePullable_young_row (env : Env) (c : Container) (w : World)
    (row : RemoteImageRow)
    (hrow : (GetRemoteImageFromName env c.RepositoryFamiliarized w).1 = .ok row)
    (hage : DaysPassed (env.clock w.tick) row.Created < c.MinImageAge) :
    (IsRemotePullable env c w).1 = .ok false ∧
    (IsRemotePullable env c w).2.trace = w.trace ++ [.dbGet c.RepositoryFamiliarized none] ∧
    (IsRemotePullable env c w).2.rows = w.rows := by
  have hget := GetRemoteImageFromName_ok env _ w row hrow
  simp [IsRemotePullable, hget, timeNow, World.log, hage]

/-- Claim C1 on the fleet: the row of `nginx:latest` was created two days ago and the
threshold is seven days. -/
theorem IsRemotePullable_young_row_witness :
    (GetRemoteImageFromName fleetEnv webContainer.RepositoryFamiliarized
        (cachedWorld (day 38) (day 38))).1 = .ok (nginxRow (day 38) (day 38)) ∧
    DaysPassed (fleetEnv.clock (cachedWorld (day 38) (day 38)).tick)
        (nginxRow (day 38) (day 38)).Created < webContainer.MinImageAge ∧
    (IsRemotePullable fleetEnv webContainer (cachedWorld (day 38) (day 38))).1 = .ok false ∧
    (IsRemotePullable fleetEnv webContainer (cachedWorld (day 38) (day 38))).2.trace =
      (cachedWorld (day 38) (day 38)).trace ++ [.dbGet webContainer.RepositoryFamiliarized none] ∧
    (IsRemotePullable fleetEnv webContainer (cachedWorld (day 38) (day 38))).2.rows =
      (cachedWorld (day 38) (day 38)).rows :=
  ⟨rfl, by decide,
    IsRemotePullable_young_row fleetEnv webContainer (cachedWorld (day 38) (day 38))
      (nginxRow (day 38) (day 38)) rfl (by decide)⟩

/-- Claim C2.  For every existing cache row whose `created` time is at least
`MinImageAge` whole days old and whose `last_check` time is fewer than `MinImageAge`
whole days old, `IsRemotePullable` returns `false` without error; the only call it makes
is the read of the cache (the registry is not called) and the table is unchanged. -/
theorem IsRemotePullable_rate_limit (env : Env) (c : Container) (w : World)
    (row : RemoteImageRow)
    (hrow : (GetRemoteImageFromName env c.RepositoryFamiliarized w).1 = .ok row)
    (hcreated : c.MinImageAge ≤ DaysPassed (env.clock w.tick) row.Created)
    (hcheck : DaysPassed (env.clock (w.tick + 1)) row.LastCheck < c.MinImageAge) :
    (IsRemotePullable env c w).1 = .ok false ∧
    (IsRemotePullable env c w).2.trace = w.trace ++ [.dbGet c.RepositoryFamiliarized none] ∧
    (IsRemotePullable env c w).2.rows = w.rows := by
  have hget := GetRemoteImageFromName_ok env _ w row hrow
  simp [IsRemotePullable, hget, timeNow, World.log, hcheck, not_lt.mpr hcreated]

/-- Claim C2 on the fleet: the row is forty days old and was checked two days ago. -/
theorem IsRemotePullable_rate_limit_witness :
    (GetRemoteImageFromName fleetEnv webContainer.RepositoryFamiliarized
        (cachedWorld (day 0) (day 38))).1 = .ok (nginxRow (day 0) (day 38)) ∧
    webContainer.MinImageAge ≤ DaysPassed (fleetEnv.clock (cachedWorld (day 0) (day 38)).tick)
        (nginxRow (day 0) (day 38)).Created ∧
    DaysPassed (fleetEnv.clock ((cachedWorld (day 0) (day 38)).tick + 1))
        (nginxRow (day 0) (day 38)).LastCheck < webContainer.MinImageAge ∧
    (IsRemotePullable fleetEnv webContainer (cachedWorld (day 0) (day 38))).1 = .ok false ∧
    (IsRemotePullable fleetEnv webContainer (cachedWorld (day 0) (day 38))).2.trace =
      (cachedWorld (day 0) (day 38)).trace ++ [.dbGet webContainer.RepositoryFamiliarized none] ∧
    (IsRemotePullable fleetEnv webContainer (cachedWorld (day 0) (day 38))).2.rows =
      (cachedWorld (day 0) (day 38)).rows :=
  ⟨rfl, by decide, by decide,
    IsRemotePullable_rate_limit fleetEnv webContainer (cachedWorld (day 0) (day 38))
      (nginxRow (day 0) (day 38)) rfl (by decide) (by decide)⟩

/-- Claim C3.  For a tagged name with no cache row, when the read of the cache, the
registry fetch (with a creation time) and the insert succeed, `IsRemotePullable` appends
to the table one row holding the fetched creation time and digest with `last_check` set
to the current time, and returns `true` exactly when the fetched creation time is at
least `MinImageAge` whole days old and the local image does not carry the fetched
digest; in particular it returns `false` whenever the local image carries that digest. -/
theorem IsRemotePullable_first_lookup (env : Env) (c : Container) (w : World)
    (remote : RegistryImageData) (created : Time)
    (hnorow : w.rows.find? (fun r => r.name = c.RepositoryFamiliarized) = none)
    (hread : env.dbFault w.trace = none)
    (hfetch : env.registry (w.trace ++ [.dbGet c.RepositoryFamiliarized (some .ErrNoRows)])
        c.Repository = .ok remote)
    (hcreated : remote.Created = some created)
    (hinsert : env.dbFault (w.trace ++ [.dbGet c.RepositoryFamiliarized (some .ErrNoRows),
        .registryFetch c.Repository none]) = none) :
    (IsRemotePullable env c w).2.rows = w.rows ++
      [{ id := nextRowId w.rows, name := c.RepositoryFamiliarized,
         domain := c.Repository.Domain, created := env.timeFormat created,
         digest := remote.Digest, last_check := env.timeFormat (env.clock w.tick) }] ∧
    (IsRemotePullable env c w).1 = .ok (decide (c.MinImageAge ≤
        DaysPassed (env.clock (w.tick + 1)) created) && !c.HasRepoDigest remote.Digest) ∧
    (c.HasRepoDigest remote.Digest = true → (IsRemotePullable env c w).1 = .ok false) := by
  have hkeep := filter_no_row w.rows c.RepositoryFamiliarized c.Repository.Domain hnorow
  have hget : GetRemoteImageFromName env c.RepositoryFamiliarized w
      = (.error .ErrNoRows, w.log (.dbGet c.RepositoryFamiliarized (some .ErrNoRows))) := by
    simp [GetRemoteImageFromName, hread, selectByName_none _ _ hnorow, errOf]
  simp only [IsRemotePullable, hget]
  simp only [Error.Is, GetImageDataFromRegistry, World.log, hfetch, hcreated, SaveRemoteImage,
    timeNow, hinsert, errOf, hkeep, List.append_assoc, List.singleton_append, decide_True,
    if_true]
  split_ifs with h1 h2
  · simp [not_le.mpr h1]
  · simp [h2]
  · simp [not_lt.mp h1, h2]

/-- Claim C3 on the fleet, the scenario of the specification: threshold seven days, no
prior row, the registry reports a build made thirty days ago with digest `sha256:d1`,
which the local image carries: the result is `false` and the row is persisted. -/
theorem IsRemotePullable_first_lookup_witness :
    webContainer.MinImageAge = 7 ∧
    Sub (fleetEnv.clock 1) (day 10) = 30 * nsPerDay ∧
    webContainer.HasRepoDigest "sha256:d1" = true ∧
    (IsRemotePullable fleetEnv webContainer emptyWorld).1 = .ok false ∧
    (IsRemotePullable fleetEnv webContainer emptyWorld).2.rows =
      [{ id := 1, name := "nginx:latest", domain := "docker.io",
         created := "1970-01-11T00:00:00Z", digest := "sha256:d1",
         last_check := "1970-02-10T00:00:00Z" }] :=
  ⟨rfl, by decide, by decide,
    (IsRemotePullable_first_lookup fleetEnv webContainer emptyWorld
      (nginxRemote (day 10) "sha256:d1") (day 10) rfl rfl rfl rfl rfl).2.1,
    (IsRemotePullable_first_lookup fleetEnv webContainer emptyWorld
      (nginxRemote (day 10) "sha256:d1") (day 10) rfl rfl rfl rfl rfl).1⟩

/-- Claim C4 as stated fails: the row of `nginx:latest` passes both gates (created forty
days ago, checked thirty days ago, threshold seven), the registry reports a build made
two days ago and every store call succeeds; the row takes the fetched creation time and
digest, but its `last_check` stays at day 10 and no `UpdateRemoteImageCheck` is issued. -/
theorem IsRemotePullable_recheck_counterexample :
    webContainer.MinImageAge ≤ DaysPassed (freshEnv.clock 0) (day 0) ∧
    webContainer.MinImageAge ≤ DaysPassed (freshEnv.clock 1) (day 10) ∧
    (IsRemotePullable freshEnv webContainer (cachedWorld (day 0) (day 10))).1 = .ok false ∧
    (IsRemotePullable freshEnv webContainer (cachedWorld (day 0) (day 10))).2.trace =
      [.dbGet "nginx:latest" none, .registryFetch nginxRef none,
       .dbUpdate 1 (calendarFormat (day 38)) "sha256:d2" none] ∧
    (IsRemotePullable freshEnv webContainer (cachedWorld (day 0) (day 10))).2.rows =
      [{ id := 1, name := "nginx:latest", domain := "docker.io",
         created := calendarFormat (day 38), digest := "sha256:d2",
         last_check := calendarFormat (day 10) }] ∧
    decide (calendarFormat (day 10) = calendarFormat (freshEnv.clock 3)) = false := by
  decide

/-- Claim C4, amended.  For an existing cache row that passes both age gates, when the
registry fetch (with a creation time) and the store calls succeed, `IsRemotePullable`
sets `created` and `digest` of the row to the fetched values.  When the fetched creation
time is fewer than `MinImageAge` whole days old it returns `false` and leaves
`last_check` as it was; otherwise it also sets `last_check` to the current time and
returns `true` exactly when the local image does not carry the fetched digest. -/
theorem IsRemotePullable_recheck (env : Env) (c : Container) (w : World)
    (row : RemoteImageRow) (remote : RegistryImageData) (created : Time)
    (hrow : (GetRemoteImageFromName env c.RepositoryFamiliarized w).1 = .ok row)
    (hgate1 : c.MinImageAge ≤ DaysPassed (env.clock w.tick) row.Created)
    (hgate2 : c.MinImageAge ≤ DaysPassed (env.clock (w.tick + 1)) row.LastCheck)
    (hfetch : env.registry (w.trace ++ [.dbGet c.RepositoryFamiliarized none]) c.Repository
        = .ok remote)
    (hcreated : remote.Created = some created)
    (hupdate : env.dbFault (w.trace ++ [.dbGet c.RepositoryFamiliarized none,
        .registryFetch c.Repository none]) = none)
    (hcheck : env.dbFault (w.trace ++ [.dbGet c.RepositoryFamiliarized none,
        .registryFetch c.Repository none,
        .dbUpdate row.RowId (env.timeFormat created) remote.Digest none]) = none) :
    (DaysPassed (env.clock (w.tick + 2)) created < c.MinImageAge →
      (IsRemotePullable env c w).1 = .ok false ∧
      (IsRemotePullable env c w).2.rows = w.rows.map (fun r =>
        if r.id = row.RowId then
          { r with created := env.timeFormat created, digest := remote.Digest } else r)) ∧
    (c.MinImageAge ≤ DaysPassed (env.clock (w.tick + 2)) created →
      (IsRemotePullable env c w).1 = .ok (!c.HasRepoDigest remote.Digest) ∧
      (IsRemotePullable env c w).2.rows = w.rows.map (fun r =>
        if r.id = row.RowId then
          { r with created := env.timeFormat created, digest := remote.Digest,
                   last_check := env.timeFormat (env.clock (w.tick + 3)) } else r)) := by
  have hget := GetRemoteImageFromName_ok env _ w row hrow
  constructor
  · intro hyoung
    simp [IsRemotePullable, hget, timeNow, World.log, not_lt.mpr hgate1, not_lt.mpr hgate2,
      GetImageDataFromRegistry, hfetch, errOf, UpdateRemoteImage, hcreated, hupdate, hyoung]
  · intro hold
    simp only [IsRemotePullable, hget, timeNow, World.log, not_lt.mpr hgate1,
      not_lt.mpr hgate2, GetImageDataFromRegistry, hfetch, errOf, UpdateRemoteImage, hcreated,
      hupdate, not_lt.mpr hold, UpdateRemoteImageCheck, List.append_assoc,
      List.singleton_append, if_false, List.cons_append, List.nil_append, hcheck]
    split_ifs with h
    · exact ⟨by simp [h], map_update_check _ _ _ _ _⟩
    · exact ⟨by simp [h], map_update_check _ _ _ _ _⟩

/-- Claim C4, amended, on the fleet: the row passes both gates and the registry reports a
build made thirty days ago, so `last_check` moves to day 40. -/
theorem IsRemotePullable_recheck_witness :
    (GetRemoteImageFromName fleetEnv webContainer.RepositoryFamiliarized
        (cachedWorld (day 0) (day 10))).1 = .ok (nginxRow (day 0) (day 10)) ∧
    webContainer.MinImageAge ≤ DaysPassed (fleetEnv.clock 2) (day 10) ∧
    (IsRemotePullable fleetEnv webContainer (cachedWorld (day 0) (day 10))).1 =
      .ok (!webContainer.HasRepoDigest "sha256:d1") ∧
    (IsRemotePullable fleetEnv webContainer (cachedWorld (day 0) (day 10))).2.rows =
      [{ id := 1, name := "nginx:latest", domain := "docker.io",
         created := "1970-01-11T00:00:00Z", digest := "sha256:d1",
         last_check := "1970-02-10T00:00:00Z" }] :=
  ⟨rfl, by decide,
    ((IsRemotePullable_recheck fleetEnv webContainer (cachedWorld (day 0) (day 10))
      (nginxRow (day 0) (day 10)) (nginxRemote (day 10) "sha256:d1") (day 10)
      rfl (by decide) (by decide) rfl rfl rfl rfl).2 (by decide)).1,
    ((IsRemotePullable_recheck fleetEnv webContainer (cachedWorld (day 0) (day 10))
      (nginxRow (day 0) (day 10)) (nginxRemote (day 10) "sha256:d1") (day 10)
      rfl (by decide) (by decide) rfl rfl rfl rfl).2 (by decide)).2⟩

/-! ## Update executor: dependents, image step, stop failure, networks -/

/-- Claim C5 on the fleet, where it fails.  The candidate `/web` is running and
`GetDependingContainers` resolves its dependent `/worker` (id `c2`); every call succeeds.
The update stops `c2`, then `c1`, and starts the recreated container `new/web`, but no
`ContainerStart` is ever issued for `c2`; the update is nevertheless counted and
reported as successful, without warning. -/
theorem updateContainer_dependents_not_started :
    webContainer.IsRunning = true ∧
    (GetDependingContainers fleetEnv fleetApp webJSON emptyWorld).1 = .ok [workerDependant] ∧
    stopsAndStarts (updateContainer fleetEnv fleetApp webContainer noUpdates emptyWorld).2.trace
      = [("stop", "c2"), ("stop", "c1"), ("start", "new/web")] ∧
    (updateContainer fleetEnv fleetApp webContainer noUpdates emptyWorld).1
      = .done { successCount := 1, imgToRemove := NewImageSet.Add nginxImage } ∧
    (updateContainer fleetEnv fleetApp webContainer noUpdates emptyWorld).2.trace.getLast?
      = some (.HookContainerUpdated webContainer newWebContainer []) := by
  decide

/-- A world extends itself quietly. -/
theorem Quiet.refl (w : World) : Quiet w w := ⟨[], by simp⟩

/-- Logging an event that is neither a removal nor a creation keeps the extension quiet. -/
theorem Quiet.log {w w' : World} (h : Quiet w w') (e : Event) (he : e.isRemoveOrCreate = false) :
    Quiet w (w'.log e) := by
  obtain ⟨evs, h1, h2⟩ := h
  refine ⟨evs ++ [e], by simp [World.log, h1], ?_⟩
  intro ev hev
  rcases List.mem_append.mp hev with hev | hev
  · exact h2 ev hev
  · simp at hev; subst hev; exact he

/-- Quiet extensions compose. -/
theorem Quiet.trans {a b c : World} (h1 : Quiet a b) (h2 : Quiet b c) : Quiet a c := by
  obtain ⟨e1, h11, h12⟩ := h1
  obtain ⟨e2, h21, h22⟩ := h2
  refine ⟨e1 ++ e2, by simp [h21, h11], ?_⟩
  intro ev hev
  rcases List.mem_append.mp hev with hev | hev
  · exact h12 ev hev
  · exact h22 ev hev

/-- The read of the cache logs one event, which is neither a removal nor a creation. -/
theorem GetRemoteImageFromName_quiet (env : Env) (name : String) (w : World) :
    Quiet w (GetRemoteImageFromName env name w).2 :=
  (Quiet.refl w).log _ (by rfl)

/-- The presence check of an image removes and creates nothing. -/
theorem IsLatestImagePresent_quiet (env : Env) (named : NamedTagged) (w : World) :
    Quiet w (IsLatestImagePresent env named w).2 := by
  have h1 : Quiet w (w.log (.ImageInspect named.String
      (errOf (env.imageInspect w.trace named.String)))) := (Quiet.refl w).log _ (by rfl)
  have h2 := h1.trans (GetRemoteImageFromName_quiet env (FamiliarTagged named) _)
  unfold IsLatestImagePresent
  simp only
  split
  · exact h1
  · split
    · rename_i heq; rw [heq] at h2; exact h2
    · rename_i heq; rw [heq] at h2
      split
      · exact h2
      · split <;> exact h2

/-- The pull of an image removes and creates nothing. -/
theorem PullImage_quiet (env : Env) (app : App) (r : NamedTagged) (w : World) :
    Quiet w (PullImage env app r w).2 := by
  unfold PullImage
  simp only
  split
  · exact Quiet.refl w
  · split <;> exact (Quiet.refl w).log _ (by rfl)

/-- The image step of a candidate removes and creates nothing. -/
theorem pullStep_quiet (env : Env) (app : App) (c : Container) (w : World) :
    Quiet w (pullStep env app c w).2 := by
  have h1 := IsLatestImagePresent_quiet env c.Repository w
  unfold pullStep
  split
  · rename_i heq; rw [heq] at h1; exact h1.log _ (by rfl)
  · rename_i yes w1 heq
    rw [heq] at h1
    have h2 := h1.trans (PullImage_quiet env app c.Repository w1)
    split
    · exact h1
    · split
      · rename_i heq2; rw [heq2] at h2; exact h2.log _ (by rfl)
      · rename_i heq2; rw [heq2] at h2
        simp only
        split
        · exact (h2.log _ (by rfl)).log _ (by rfl)
        · split
          · exact (h2.log _ (by rfl)).log _ (by rfl)
          · exact (h2.log _ (by rfl)).log _ (by rfl)

/-- The last event after a call is that call. -/
theorem getLast_log (w : World) (e : Event) : (w.log e).trace.getLast? = some e := by
  simp [World.log]

/-- A failed image step ends with the image-error notification of the candidate. -/
theorem pullStep_fails (env : Env) (app : App) (c : Container) (w : World)
    (h : (pullStep env app c w).1 = false) :
    ∃ context err, (pullStep env app c w).2.trace.getLast?
      = some (.HookImageError c.Image context err) := by
  unfold pullStep at h ⊢
  split
  · exact ⟨_, _, getLast_log _ _⟩
  · rename_i heq
    rw [heq] at h
    simp only at h ⊢
    split
    · rename_i hyes; simp [hyes] at h
    · rename_i hyes
      simp only [hyes] at h
      split
      · exact ⟨_, _, getLast_log _ _⟩
      · rename_i heq2
        rw [heq2] at h
        simp only at h ⊢
        split
        · exact ⟨_, _, getLast_log _ _⟩
        · rename_i heq3
          rw [heq3] at h
          simp only at h
          split
          · exact ⟨_, _, getLast_log _ _⟩
          · rename_i heq4
            rw [heq4] at h
            simp at h

/-- A candidate whose image step fails, after the image steps of the candidates before it
went through, ends the first loop of `Run`. -/
theorem pullImages_failed (env : Env) (app : App) (X : Container) (rest : List Container) :
    ∀ (pre : List Container) (w0 w w1 : World),
      pullImages env app pre w0 = (true, w) → pullStep env app X w = (false, w1) →
      pullImages env app (pre ++ X :: rest) w0 = (false, w1)
  | [], w0, w, w1, hpre, hX => by
    simp only [pullImages, Prod.mk.injEq, true_and] at hpre
    subst hpre
    simp only [List.nil_append, pullImages, hX]
  | c :: pre, w0, w, w1, hpre, hX => by
    rw [pullImages] at hpre
    rw [List.cons_append, pullImages]
    cases hc : pullStep env app c w0 with
    | mk b wc =>
      rw [hc] at hpre
      cases b with
      | true =>
        simp only at hpre ⊢
        exact pullImages_failed env app X rest pre wc w w1 hpre hX
      | false =>
        simp only [Prod.mk.injEq, Bool.false_eq_true, false_and] at hpre

/-- The failures of the image step of a candidate, from the answers of the runtime and of
the row store: a failed presence check (inspect of the image by name, read of the cache,
reading of the creation time), a failed pull (encoding of the credentials, pull request,
error in the pull stream), a failed inspect of the pulled image and a failed
initialisation each end the step with the image-error notification of the candidate. -/
theorem pullStep_failures (env : Env) (app : App) (X : Container) (w : World) :
    (∀ e, env.imageInspect w.trace X.Repository.String = .error e →
      pullStep env app X w =
        (false, (w.log (.ImageInspect X.Repository.String (some e))).log
          (.HookImageError X.Image "Unable to check if image is latest"
            (.wrap ("inspecting image " ++ X.Repository.String ++ " failed") e)))) ∧
    (∀ raw e w2, env.imageInspect w.trace X.Repository.String = .ok raw →
      GetRemoteImageFromName env (FamiliarTagged X.Repository)
        (w.log (.ImageInspect X.Repository.String none)) = (.error e, w2) →
      pullStep env app X w =
        (false, w2.log (.HookImageError X.Image "Unable to check if image is latest"
          (.wrap ("fetching remote image data (" ++ X.Repository.String ++
            ") from local database failed") e)))) ∧
    (∀ raw row w2, env.imageInspect w.trace X.Repository.String = .ok raw →
      GetRemoteImageFromName env (FamiliarTagged X.Repository)
        (w.log (.ImageInspect X.Repository.String none)) = (.ok row, w2) →
      env.timeParse raw.Created = none →
      pullStep env app X w =
        (false, w2.log (.HookImageError X.Image "Unable to check if image is latest"
          (.wrap ("unknown time format " ++ raw.Created) (.other "parsing time"))))) ∧
    (∀ w1, IsLatestImagePresent env X.Repository w = (.ok false, w1) →
      (∀ entry e, GetAuthConfigFor app.Registries X.Repository.Domain = some entry →
        env.encodeAuthConfig entry.Username entry.Password = .error e →
        pullStep env app X w =
          (false, w1.log (.HookImageError X.Image "Unable to pull image"
            (.wrap "encoding authentication configuration failed" e)))) ∧
      (∀ auth,
        (GetAuthConfigFor app.Registries X.Repository.Domain = none ∧ auth = "" ∨
         ∃ entry, GetAuthConfigFor app.Registries X.Repository.Domain = some entry ∧
           env.encodeAuthConfig entry.Username entry.Password = .ok auth) →
        (∀ e, env.imagePull w1.trace X.Repository.String auth = .error e →
          pullStep env app X w =
            (false, (w1.log (.ImagePull X.Repository.String auth (some e))).log
              (.HookImageError X.Image "Unable to pull image"
                (.wrap "failed to pull image" e)))) ∧
        (∀ e, env.imagePull w1.trace X.Repository.String auth = .ok (some e) →
          pullStep env app X w =
            (false, (w1.log (.ImagePull X.Repository.String auth (some e))).log
              (.HookImageError X.Image "Unable to pull image"
                (.wrap "failure while pulling image" e)))) ∧
        (env.imagePull w1.trace X.Repository.String auth = .ok none →
          (∀ e, env.imageInspect (w1.trace ++ [.ImagePull X.Repository.String auth none])
              X.Repository.String = .error e →
            pullStep env app X w =
              (false, ((w1.log (.ImagePull X.Repository.String auth none)).log
                (.ImageInspect X.Repository.String (some e))).log
                (.HookImageError X.Image "Unable to inspect image" e))) ∧
          (∀ raw e, env.imageInspect (w1.trace ++ [.ImagePull X.Repository.String auth none])
              X.Repository.String = .ok raw →
            NewData env raw X.Repository = .error e →
            pullStep env app X w =
              (false, ((w1.log (.ImagePull X.Repository.String auth none)).log
                (.ImageInspect X.Repository.String none)).log
                (.HookImageError X.Image "Unable to initialize image" e)))))) := by
  refine ⟨?_, ?_, ?_, ?_⟩
  · intro e h
    simp [pullStep, IsLatestImagePresent, h, errOf]
  · intro raw e w2 h hget
    simp [pullStep, IsLatestImagePresent, h, errOf, hget]
  · intro raw row w2 h hget htime
    simp [pullStep, IsLatestImagePresent, h, errOf, hget, htime]
  · intro w1 hpresent
    refine ⟨?_, ?_⟩
    · intro entry e hauth henc
      simp [pullStep, hpresent, PullImage, hauth, henc]
    · intro auth hauth
      have hpullImage : PullImage env app X.Repository w1 =
          match env.imagePull w1.trace X.Repository.String auth with
          | .error err =>
            (some (.wrap "failed to pull image" err),
              w1.log (.ImagePull X.Repository.String auth (some err)))
          | .ok (some err) =>
            (some (.wrap "failure while pulling image" err),
              w1.log (.ImagePull X.Repository.String auth (some err)))
          | .ok none => (none, w1.log (.ImagePull X.Repository.String auth none)) := by
        rcases hauth with ⟨h1, h2⟩ | ⟨entry, h1, h2⟩
        · subst h2
          simp only [PullImage, h1]
        · simp only [PullImage, h1, h2]
      refine ⟨?_, ?_, ?_⟩
      · intro e hpull
        rw [hpull] at hpullImage
        simp [pullStep, hpresent, hpullImage]
      · intro e hpull
        rw [hpull] at hpullImage
        simp [pullStep, hpresent, hpullImage]
      · intro hpull
        rw [hpull] at hpullImage
        refine ⟨?_, ?_⟩
        · intro e hins
          simp [pullStep, hpresent, hpullImage, World.log, hins, errOf]
        · intro raw e hins hnew
          simp [pullStep, hpresent, hpullImage, World.log, hins, errOf, hnew]

/-- Claim C6, amended.  When the image step of a candidate `X` fails, that is when the
presence check fails (the inspect of the image by name, the read of the cache or the
reading of the creation time), or, the image being absent, when the pull fails (encoding
of the credentials, pull request, error reported in the stream), the inspect of the
pulled image fails or its initialisation fails, the step reports an image error for `X`;
and when the step of `X` has reported the error, after the steps of the candidates before
`X` went through, `Run` returns at once: the world after the run is the world after that
step, so no image step is performed for a later candidate and no container of the batch
is removed or created. -/
theorem runBatch_image_failure (env : Env) (app : App) (X : Container) (rest : List Container)
    (w : World) :
    ((∀ e, env.imageInspect w.trace X.Repository.String = .error e →
      pullStep env app X w =
        (false, (w.log (.ImageInspect X.Repository.String (some e))).log
          (.HookImageError X.Image "Unable to check if image is latest"
            (.wrap ("inspecting image " ++ X.Repository.String ++ " failed") e)))) ∧
    (∀ raw e w2, env.imageInspect w.trace X.Repository.String = .ok raw →
      GetRemoteImageFromName env (FamiliarTagged X.Repository)
        (w.log (.ImageInspect X.Repository.String none)) = (.error e, w2) →
      pullStep env app X w =
        (false, w2.log (.HookImageError X.Image "Unable to check if image is latest"
          (.wrap ("fetching remote image data (" ++ X.Repository.String ++
            ") from local database failed") e)))) ∧
    (∀ raw row w2, env.imageInspect w.trace X.Repository.String = .ok raw →
      GetRemoteImageFromName env (FamiliarTagged X.Repository)
        (w.log (.ImageInspect X.Repository.String none)) = (.ok row, w2) →
      env.timeParse raw.Created = none →
      pullStep env app X w =
        (false, w2.log (.HookImageError X.Image "Unable to check if image is latest"
          (.wrap ("unknown time format " ++ raw.Created) (.other "parsing time"))))) ∧
    (∀ w1, IsLatestImagePresent env X.Repository w = (.ok false, w1) →
      (∀ entry e, GetAuthConfigFor app.Registries X.Repository.Domain = some entry →
        env.encodeAuthConfig entry.Username entry.Password = .error e →
        pullStep env app X w =
          (false, w1.log (.HookImageError X.Image "Unable to pull image"
            (.wrap "encoding authentication configuration failed" e)))) ∧
      (∀ auth,
        (GetAuthConfigFor app.Registries X.Repository.Domain = none ∧ auth = "" ∨
         ∃ entry, GetAuthConfigFor app.Registries X.Repository.Domain = some entry ∧
           env.encodeAuthConfig entry.Username entry.Password = .ok auth) →
        (∀ e, env.imagePull w1.trace X.Repository.String auth = .error e →
          pullStep env app X w =
            (false, (w1.log (.ImagePull X.Repository.String auth (some e))).log
              (.HookImageError X.Image "Unable to pull image"
                (.wrap "failed to pull image" e)))) ∧
        (∀ e, env.imagePull w1.trace X.Repository.String auth = .ok (some e) →
          pullStep env app X w =
            (false, (w1.log (.ImagePull X.Repository.String auth (some e))).log
              (.HookImageError X.Image "Unable to pull image"
                (.wrap "failure while pulling image" e)))) ∧
        (env.imagePull w1.trace X.Repository.String auth = .ok none →
          (∀ e, env.imageInspect (w1.trace ++ [.ImagePull X.Repository.String auth none])
              X.Repository.String = .error e →
            pullStep env app X w =
              (false, ((w1.log (.ImagePull X.Repository.String auth none)).log
                (.ImageInspect X.Repository.String (some e))).log
                (.HookImageError X.Image "Unable to inspect image" e))) ∧
          (∀ raw e, env.imageInspect (w1.trace ++ [.ImagePull X.Repository.String auth none])
              X.Repository.String = .ok raw →
            NewData env raw X.Repository = .error e →
            pullStep env app X w =
              (false, ((w1.log (.ImagePull X.Repository.String auth none)).log
                (.ImageInspect X.Repository.String none)).log
                (.HookImageError X.Image "Unable to initialize image" e))))))) ∧
    (∀ pre w0 w1, pullImages env app pre w0 = (true, w) →
      pullStep env app X w = (false, w1) →
      runBatch env app (pre ++ X :: rest) w0 = (.done (), w1)) ∧
    ((pullStep env app X w).1 = false →
      runBatch env app (X :: rest) w = (.done (), (pullStep env app X w).2) ∧
      (∃ context err, (pullStep env app X w).2.trace.getLast?
        = some (.HookImageError X.Image context err)) ∧
      ∃ evs, (runBatch env app (X :: rest) w).2.trace = w.trace ++ evs ∧
        ∀ ev ∈ evs, ev.isRemoveOrCreate = false) := by
  refine ⟨pullStep_failures env app X w, ?_, ?_⟩
  · intro pre w0 w1 hpre hX
    simp only [runBatch, pullImages_failed env app X rest pre w0 w w1 hpre hX]
  · intro hfail
    have hrun : runBatch env app (X :: rest) w = (.done (), (pullStep env app X w).2) := by
      rcases hp : pullStep env app X w with ⟨b, w1⟩
      rw [hp] at hfail
      simp only at hfail
      subst hfail
      simp [runBatch, pullImages, hp]
    refine ⟨hrun, pullStep_fails env app X w hfail, ?_⟩
    rw [hrun]
    exact pullStep_quiet env app X w

/-- Claim C6 as stated fails.  On the fleet the runtime cannot inspect `nginx:latest`, so
the image step of `/web` fails, while the image step of `/db` would succeed; `Run` on the
batch `[/web, /db]` makes the failed inspect, reports the image error of `/web` and
returns: nothing at all is done for `/db`. -/
theorem runBatch_image_failure_counterexample :
    (pullStep pullFailEnv fleetApp webContainer scannedWorld).1 = false ∧
    (pullStep pullFailEnv fleetApp dbContainer scannedWorld).1 = true ∧
    (runBatch pullFailEnv fleetApp [webContainer, dbContainer] scannedWorld).2.trace =
      [.ImageInspect "docker.io/library/nginx:latest" (some (.other "connection refused")),
       .HookImageError nginxImage "Unable to check if image is latest"
         (.wrap "inspecting image docker.io/library/nginx:latest failed"
           (.other "connection refused"))] := by
  decide

/-- Claim C6, amended, on the fleet: the batch `[/web, /db]` when `nginx:latest` cannot be
inspected by name; the presence check of `/web` fails and the run ends with its image
error. -/
theorem runBatch_image_failure_witness :
    pullFailEnv.imageInspect scannedWorld.trace webContainer.Repository.String =
      .error (.other "connection refused") ∧
    pullStep pullFailEnv fleetApp webContainer scannedWorld =
      (false, (scannedWorld.log (.ImageInspect webContainer.Repository.String
        (some (.other "connection refused")))).log
        (.HookImageError webContainer.Image "Unable to check if image is latest"
          (.wrap ("inspecting image " ++ webContainer.Repository.String ++ " failed")
            (.other "connection refused")))) ∧
    runBatch pullFailEnv fleetApp ([] ++ webContainer :: [dbContainer]) scannedWorld =
      (.done (), (scannedWorld.log (.ImageInspect webContainer.Repository.String
        (some (.other "connection refused")))).log
        (.HookImageError webContainer.Image "Unable to check if image is latest"
          (.wrap ("inspecting image " ++ webContainer.Repository.String ++ " failed")
            (.other "connection refused")))) :=
  ⟨rfl,
   (runBatch_image_failure pullFailEnv fleetApp webContainer [dbContainer] scannedWorld).1.1
     (.other "connection refused") rfl,
   (runBatch_image_failure pullFailEnv fleetApp webContainer [dbContainer]
     scannedWorld).2.1 [] scannedWorld _ rfl
     ((runBatch_image_failure pullFailEnv fleetApp webContainer [dbContainer]
       scannedWorld).1.1 (.other "connection refused") rfl)⟩

/-! ### Failure of the stop of a candidate -/

/-- The resolution of the dependents logs exactly the listing of the containers. -/
theorem GetDependingContainers_world (env : Env) (app : App) (d : ContainerJSON) (w : World) :
    (GetDependingContainers env app d w).2 = w.log (.ContainerList
      [("label", LABEL_DEPENDS_ON), ("status", "running")]
      (errOf (env.containerList w.trace [("label", LABEL_DEPENDS_ON), ("status", "running")]))) := by
  unfold GetDependingContainers
  simp only
  split
  · rfl
  · split <;> rfl

/-- The search of a label does not panic for a container that has a name. -/
theorem findDependency_total (env : Env) (d : ContainerJSON) (hname : d.Name ≠ "") :
    ∀ entries : List String, ∃ r, findDependency env d entries = .done r
  | [] => ⟨none, rfl⟩
  | value :: rest => by
    obtain ⟨r, hr⟩ := findDependency_total env d hname rest
    unfold findDependency
    simp only
    cases hd : d.Name.data with
    | nil =>
      exfalso; apply hname
      have : d.Name = String.mk d.Name.data := rfl
      rw [this, hd]
    | cons c cs =>
      simp only
      split
      · exact ⟨r, hr⟩
      · split
        · exact ⟨_, rfl⟩
        · split
          · exact ⟨r, hr⟩
          · exact ⟨_, rfl⟩

/-- The resolution loop does not panic when the container has a name and every listed container has one. -/
theorem dependingLoop_total (env : Env) (app : App) (d : ContainerJSON) (hname : d.Name ≠ "") :
    ∀ (containers : List ContainerSummary) (acc : List DependantContainer),
    (∀ s ∈ containers, s.Names ≠ []) → ∃ r, dependingLoop env app d containers acc = .done r
  | [], acc, _ => ⟨acc, rfl⟩
  | s :: rest, acc, hnames => by
    have hrest : ∀ s ∈ rest, s.Names ≠ [] := fun x hx => hnames x (List.mem_cons_of_mem _ hx)
    have hs : s.Names ≠ [] := hnames s (List.mem_cons_self _ _)
    unfold dependingLoop
    simp only
    split
    · exact dependingLoop_total env app d hname rest acc hrest
    · obtain ⟨r, hr⟩ := findDependency_total env d hname
        (Split ((List.lookup LABEL_DEPENDS_ON s.Labels).getD "") ',')
      rw [hr]
      cases r with
      | none => exact dependingLoop_total env app d hname rest acc hrest
      | some condition =>
        simp only
        cases hn : s.Names with
        | nil => exact absurd hn hs
        | cons n ns =>
          simp only [NewDependant, hn]
          exact dependingLoop_total env app d hname rest _ hrest

/-- The resolution of the dependents does not panic on such runtime data. -/
theorem GetDependingContainers_total (env : Env) (app : App) (d : ContainerJSON) (w : World)
    (hname : d.Name ≠ "")
    (hnames : ∀ containers,
      env.containerList w.trace [("label", LABEL_DEPENDS_ON), ("status", "running")]
        = .ok containers → ∀ s ∈ containers, s.Names ≠ []) :
    ∀ msg, (GetDependingContainers env app d w).1 ≠ .panic msg := by
  intro msg
  unfold GetDependingContainers
  simp only
  split
  · simp
  · rename_i containers hres
    obtain ⟨r, hr⟩ := dependingLoop_total env app d hname containers [] (hnames containers hres)
    rw [hr]
    simp

/-- The recreate sequence of a candidate ends without a panic when the runtime reports
a name for it and for every container it lists. -/
theorem updateContainer_total (env : Env) (app : App) (c : Container) (batch : Batch)
    (w : World)
    (hwf : c.IsRunning = true → c.Raw.Name ≠ "" ∧ ∀ containers,
      env.containerList w.trace [("label", LABEL_DEPENDS_ON), ("status", "running")]
        = .ok containers → ∀ s ∈ containers, s.Names ≠ []) :
    ∃ b, (updateContainer env app c batch w).1 = .done b := by
  have hstop : ∀ msg w1, stopBlock env app c [] w ≠ (.panic msg, w1) := by
    intro msg w1 h
    unfold stopBlock at h
    split at h
    · rename_i hrun
      obtain ⟨hname, hnames⟩ := hwf hrun
      have htot := GetDependingContainers_total env app c.Raw w hname hnames
      split at h
      · rename_i heq
        exact htot _ (by rw [heq])
      · simp at h
      · simp only at h
        split at h <;> simp at h
    · simp at h
  have hrec : ∀ single ws w1 msg w2, recreate env app c single ws w1 ≠ (.panic msg, w2) := by
    intro single ws w1 msg w2 h
    unfold recreate at h
    simp only at h
    split at h
    · simp at h
    · split at h <;> simp at h
  have hres : ∀ sr newId ws w1, ∃ b, (restart env app c sr [] newId ws batch w1).1 = .done b := by
    intro sr newId ws w1
    unfold restart
    simp only
    split
    · exact ⟨_, rfl⟩
    · split
      · exact ⟨_, rfl⟩
      · split
        · split
          · exact ⟨_, rfl⟩
          · exact ⟨_, rfl⟩
        · exact ⟨_, rfl⟩
  unfold updateContainer
  simp only
  split
  · rename_i heq; exact absurd heq (hstop _ _)
  · exact ⟨_, rfl⟩
  · split
    · rename_i heq; exact absurd heq (hrec _ _ _ _ _)
    · exact ⟨_, rfl⟩
    · exact hres _ _ _ _

/-- An entry of a list together with the list without it is a permutation of the list. -/
theorem perm_get_eraseIdx {α : Type} : ∀ (m : List α) (i : Nat) (x : α),
    m.get? i = some x → (x :: m.eraseIdx i).Perm m
  | [], _, _, h => by simp at h
  | a :: as, 0, x, h => by
    simp at h; subst h; simp
  | a :: as, i + 1, x, h => by
    rw [List.get?_cons_succ] at h
    have ih := perm_get_eraseIdx as i x h
    simp only [List.eraseIdx_cons_succ]
    exact (List.Perm.swap a x _).trans (ih.cons a)

/-- The helper of `rangeOrder` permutes a list of the announced length. -/
theorem rangeOrderAux_perm {α : Type} : ∀ (fuel seed : Nat) (m : List α),
    m.length = fuel → (rangeOrderAux fuel seed m).Perm m
  | 0, seed, m, h => by
    have : m = [] := List.length_eq_zero.mp h
    subst this; simp [rangeOrderAux]
  | fuel + 1, seed, m, h => by
    have hlt : seed % m.length < m.length := Nat.mod_lt _ (by omega)
    obtain ⟨x, hx⟩ : ∃ x, m.get? (seed % m.length) = some x :=
      ⟨m.get ⟨_, hlt⟩, List.get?_eq_get hlt⟩
    simp only [rangeOrderAux, hx]
    have hlen : (m.eraseIdx (seed % m.length)).length = fuel := by
      rw [List.length_eraseIdx_of_lt hlt]; omega
    exact ((rangeOrderAux_perm fuel _ _ hlen).cons x).trans (perm_get_eraseIdx m _ x hx)

/-- A `range` visits every entry of the map exactly once. -/
theorem rangeOrder_perm {α : Type} (seed : Nat) (m : List α) : (rangeOrder seed m).Perm m :=
  rangeOrderAux_perm m.length seed m rfl

/-- The snapshot of a non-empty set of networks is one of its entries. -/
theorem singleNetwork_mem (env : Env) (c : Container) (w : World) (hne : c.Raw.Networks ≠ []) :
    ∃ entry, entry ∈ c.Raw.Networks ∧ singleNetwork env c w = [entry] := by
  have hperm := rangeOrder_perm (env.rangeSeed w.trace) c.Raw.Networks
  unfold singleNetwork
  cases h : rangeOrder (env.rangeSeed w.trace) c.Raw.Networks with
  | nil =>
    rw [h] at hperm
    exact absurd hperm.symm.eq_nil hne
  | cons x xs =>
    rw [h] at hperm
    exact ⟨x, hperm.subset (List.mem_cons_self x xs), by simp⟩

/-- The reconnection loop calls `NetworkConnect` for the visited networks other than the
snapshot, in order, and adds one warning for each failed call. -/
theorem connectNetworks_calls (env : Env) (newId n : String) (settings : EndpointSettings) :
    ∀ (l : List (String × EndpointSettings)) (ws : List String) (w : World),
    ∃ evs, (connectNetworks env newId [(n, settings)] l ws w).2.trace = w.trace ++ evs ∧
      (∀ ev ∈ evs, ∃ net s err, ev = Event.NetworkConnect net newId s err) ∧
      (connectCalls newId evs).map Prod.fst = (l.map Prod.fst).filter (fun k => k ≠ n) ∧
      (connectNetworks env newId [(n, settings)] l ws w).1 =
        ws ++ (connectCalls newId evs).filterMap connectWarning
  | [], ws, w => ⟨[], by simp [connectNetworks, connectCalls]⟩
  | (netName, netSettings) :: rest, ws, w => by
    by_cases hk : netName = n
    · obtain ⟨evs, h1, h2, h3, h4⟩ := connectNetworks_calls env newId n settings rest ws w
      refine ⟨evs, ?_, h2, ?_, ?_⟩
      · simpa [connectNetworks, hk, List.lookup] using h1
      · simpa [hk] using h3
      · simpa [connectNetworks, hk, List.lookup] using h4
    · have hb : (netName == n) = false := by simpa using hk
      have hlook : (List.lookup netName [(n, settings)]).isSome = false := by
        simp [List.lookup, hb]
      cases hres : env.networkConnect w.trace netName newId netSettings with
      | none =>
        obtain ⟨evs, h1, h2, h3, h4⟩ := connectNetworks_calls env newId n settings rest ws
          (w.log (.NetworkConnect netName newId netSettings none))
        refine ⟨.NetworkConnect netName newId netSettings none :: evs, ?_, ?_, ?_, ?_⟩
        · simp only [connectNetworks, hlook, hres]
          simpa [World.log] using h1
        · intro ev hev
          rcases List.mem_cons.mp hev with rfl | hev
          · exact ⟨_, _, _, rfl⟩
          · exact h2 ev hev
        · simp [connectCalls, hk, h3]
        · simp only [connectNetworks, hlook, hres]
          simpa [connectCalls, connectWarning] using h4
      | some err =>
        obtain ⟨evs, h1, h2, h3, h4⟩ := connectNetworks_calls env newId n settings rest
          (ws ++ ["connecting to network " ++ netName ++ " failed: " ++ err.text])
          (w.log (.NetworkConnect netName newId netSettings (some err)))
        refine ⟨.NetworkConnect netName newId netSettings (some err) :: evs, ?_, ?_, ?_, ?_⟩
        · simp only [connectNetworks, hlook, hres]
          simpa [World.log] using h1
        · intro ev hev
          rcases List.mem_cons.mp hev with rfl | hev
          · exact ⟨_, _, _, rfl⟩
          · exact h2 ev hev
        · simp [connectCalls, hk, h3]
        · simp only [connectNetworks, hlook, hres]
          simpa [connectCalls, connectWarning] using h4

/-- A removal and a creation that succeed log exactly these two calls. -/
theorem recreate_next (env : Env) (app : App) (c : Container)
    (single : List (String × EndpointSettings)) (ws0 ws1 : List String) (newId : String)
    (w1 w2 : World)
    (h : recreate env app c single ws0 w1 = (.next (newId, ws1), w2)) :
    w2.trace = w1.trace ++ [.ContainerRemove c.ID true app.Updater.RemoveVolumes none,
      .ContainerCreate c.Raw.Config c.Raw.HostConfig single c.Raw.Name none] := by
  unfold recreate at h
  simp only at h
  split at h
  · simp at h
  · rename_i hrem
    split at h
    · simp at h
    · rename_i response hcr
      simp only [Prod.mk.injEq, Flow.next.injEq] at h
      obtain ⟨_, rfl⟩ := h
      rw [hrem] at hcr
      simp only [World.log] at hcr
      simp [World.log, hrem, hcr, errOf]

/-- Claim C8.  For a candidate that does not use host networking and whose networks `S`
are not empty (their names distinct, as the keys of a map are), once the stop block is
passed and the removal and the creation succeed: the new container was created on exactly
one network `n` of `S`; the reconnection then issues only `NetworkConnect` calls for the new
container, one for each network of `S` other than `n` and for no other; the warnings grow
by exactly one for each failing call; the update goes on with the inspect and start steps
whatever the calls returned, and when those succeed the candidate is counted successful
and reported by `ContainerUpdated` carrying those warnings. -/
theorem updateContainer_networks (env : Env) (app : App) (c : Container) (batch : Batch)
    (w w1 w2 : World) (ws0 ws1 : List String) (newId : String)
    (hhost : c.Raw.HostConfig.IsHost = false)
    (hne : c.Raw.Networks ≠ [])
    (hkeys : (c.Raw.Networks.map Prod.fst).Nodup)
    (hstop : stopBlock env app c [] w = (.next ws0, w1))
    (hrecreate : recreate env app c (singleNetwork env c w1) ws0 w1 = (.next (newId, ws1), w2)) :
    ∃ n settings evs,
      (n, settings) ∈ c.Raw.Networks ∧
      w2.trace = w1.trace ++ [.ContainerRemove c.ID true app.Updater.RemoveVolumes none,
        .ContainerCreate c.Raw.Config c.Raw.HostConfig [(n, settings)] c.Raw.Name none] ∧
      (reconnect env c [(n, settings)] newId ws1 w2).2.trace = w2.trace ++ evs ∧
      (∀ ev ∈ evs, ∃ net s err, ev = Event.NetworkConnect net newId s err) ∧
      ((connectCalls newId evs).map Prod.fst).Perm ((c.Raw.Networks.map Prod.fst).erase n) ∧
      (reconnect env c [(n, settings)] newId ws1 w2).1 =
        ws1 ++ (connectCalls newId evs).filterMap connectWarning ∧
      updateContainer env app c batch w =
        restart env app c c.IsRunning [] newId (reconnect env c [(n, settings)] newId ws1 w2).1
          batch (reconnect env c [(n, settings)] newId ws1 w2).2 ∧
      (∀ newData newContainer w4,
        env.containerInspect (reconnect env c [(n, settings)] newId ws1 w2).2.trace newId
          = .ok newData →
        New env newData app.Updater.StopTimeout app.Scanner.ImageAge
          ((reconnect env c [(n, settings)] newId ws1 w2).2.log (.ContainerInspect newId none))
          = (.ok newContainer, w4) →
        (c.IsRunning = true → (newContainer.Start env w4).1 = none) →
        (updateContainer env app c batch w).1 = .done
          { successCount := batch.successCount + 1,
            imgToRemove := batch.imgToRemove.Add c.Image } ∧
        (updateContainer env app c batch w).2.trace.getLast? = some
          (.HookContainerUpdated c newContainer
            (reconnect env c [(n, settings)] newId ws1 w2).1)) := by
  obtain ⟨⟨n, settings⟩, hmem, hsingle⟩ := singleNetwork_mem env c w1 hne
  rw [hsingle] at hrecreate
  have htrace := recreate_next env app c _ ws0 ws1 newId w1 w2 hrecreate
  have hperm := rangeOrder_perm (env.rangeSeed w2.trace) c.Raw.Networks
  obtain ⟨evs, h1, h2, h3, h4⟩ := connectNetworks_calls env newId n settings
    (rangeOrder (env.rangeSeed w2.trace) c.Raw.Networks) ws1 w2
  have hrec : reconnect env c [(n, settings)] newId ws1 w2 =
      connectNetworks env newId [(n, settings)]
        (rangeOrder (env.rangeSeed w2.trace) c.Raw.Networks) ws1 w2 := by
    simp [reconnect, hhost]
  have hupd : updateContainer env app c batch w =
      restart env app c c.IsRunning [] newId (reconnect env c [(n, settings)] newId ws1 w2).1
        batch (reconnect env c [(n, settings)] newId ws1 w2).2 := by
    simp only [updateContainer, hstop, hsingle, hrecreate]
  refine ⟨n, settings, evs, hmem, htrace, ?_, h2, ?_, ?_, hupd, ?_⟩
  · rw [hrec]; exact h1
  · rw [h3]
    have hp : (List.filter (fun k => decide (k ≠ n))
        (List.map Prod.fst (rangeOrder (env.rangeSeed w2.trace) c.Raw.Networks))).Perm
        (List.filter (fun k => decide (k ≠ n)) (List.map Prod.fst c.Raw.Networks)) :=
      (hperm.map Prod.fst).filter _
    rw [List.Nodup.erase_eq_filter hkeys]
    have hfun : (fun k : String => k != n) = (fun k : String => decide (k ≠ n)) := by
      funext k; by_cases h : k = n <;> simp [h]
    rw [hfun]
    exact hp
  · rw [hrec]; exact h4
  · intro newData newContainer w4 hinspect hnew hstart
    rw [hupd]
    unfold restart
    simp only [hinspect, errOf, hnew]
    cases hr : c.IsRunning with
    | false => simp [finishUpdate, World.log]
    | true =>
      have hs := hstart hr
      rcases hst : newContainer.Start env w4 with ⟨r, w5⟩
      rw [hst] at hs
      simp only at hs
      subst hs
      simp [DependantContainers.Start, finishUpdate, World.log]

/-- Claim C8 on the fleet: `/web` is on the networks `front` and `back`, and no network
accepts a new endpoint; the update is reported successful with one warning. -/
theorem updateContainer_networks_witness :
    webContainer.Raw.HostConfig.IsHost = false ∧
    webContainer.Raw.Networks ≠ [] ∧
    (webContainer.Raw.Networks.map Prod.fst).Nodup ∧
    stopBlock connectFailEnv fleetApp webContainer [] emptyWorld = (.next [], afterStop) ∧
    recreate connectFailEnv fleetApp webContainer
      (singleNetwork connectFailEnv webContainer afterStop) [] afterStop
      = (.next ("new/web", []), afterCreate) ∧
    (updateContainer connectFailEnv fleetApp webContainer noUpdates emptyWorld).2.trace.getLast?
      = some (.HookContainerUpdated webContainer newWebContainer
          ["connecting to network back failed: network unreachable"]) ∧
    ∃ n settings evs,
      (n, settings) ∈ webContainer.Raw.Networks ∧
      afterCreate.trace = afterStop.trace ++
        [.ContainerRemove webContainer.ID true fleetApp.Updater.RemoveVolumes none,
         .ContainerCreate webContainer.Raw.Config webContainer.Raw.HostConfig [(n, settings)]
           webContainer.Raw.Name none] ∧
      (reconnect connectFailEnv webContainer [(n, settings)] "new/web" [] afterCreate).2.trace
        = afterCreate.trace ++ evs ∧
      (∀ ev ∈ evs, ∃ net s err, ev = Event.NetworkConnect net "new/web" s err) ∧
      ((connectCalls "new/web" evs).map Prod.fst).Perm
        ((webContainer.Raw.Networks.map Prod.fst).erase n) ∧
      (reconnect connectFailEnv webContainer [(n, settings)] "new/web" [] afterCreate).1 =
        [] ++ (connectCalls "new/web" evs).filterMap connectWarning ∧
      updateContainer connectFailEnv fleetApp webContainer noUpdates emptyWorld =
        restart connectFailEnv fleetApp webContainer webContainer.IsRunning [] "new/web"
          (reconnect connectFailEnv webContainer [(n, settings)] "new/web" [] afterCreate).1
          noUpdates
          (reconnect connectFailEnv webContainer [(n, settings)] "new/web" [] afterCreate).2 ∧
      (∀ newData newContainer w4,
        connectFailEnv.containerInspect
          (reconnect connectFailEnv webContainer [(n, settings)] "new/web" [] afterCreate).2.trace
          "new/web" = .ok newData →
        New connectFailEnv newData fleetApp.Updater.StopTimeout fleetApp.Scanner.ImageAge
          ((reconnect connectFailEnv webContainer [(n, settings)] "new/web" []
            afterCreate).2.log (.ContainerInspect "new/web" none))
          = (.ok newContainer, w4) →
        (webContainer.IsRunning = true → (newContainer.Start connectFailEnv w4).1 = none) →
        (updateContainer connectFailEnv fleetApp webContainer noUpdates emptyWorld).1 = .done
          { successCount := noUpdates.successCount + 1,
            imgToRemove := noUpdates.imgToRemove.Add webContainer.Image } ∧
        (updateContainer connectFailEnv fleetApp webContainer noUpdates
          emptyWorld).2.trace.getLast? = some
          (.HookContainerUpdated webContainer newContainer
            (reconnect connectFailEnv webContainer [(n, settings)] "new/web" []
              afterCreate).1)) :=
  ⟨by decide, by decide, by decide, by decide, by decide, by decide,
    updateContainer_networks connectFailEnv fleetApp webContainer noUpdates emptyWorld
      afterStop afterCreate [] [] "new/web" (by decide) (by decide) (by decide) (by decide)
      (by decide)⟩

/-! ## Candidate scanner: inclusion policy and age of the local image -/

/-- Claim C9.  `Container.ShouldScan` is the decision list of the specification
(`scanPolicy`): not the orchestrator itself, not a stopped container unless stopped
containers are scanned, then the parsed value of the label `yacu.enable` when present
(`false` when it does not parse), else the global flag.  Hence a running container that
is not the orchestrator and is labelled `yacu.enable=true` is scanned when `scanAll` is
false, and a container labelled `yacu.enable=notabool` is never scanned. -/
theorem ShouldScan_policy (c : Container) (all stopped : Bool) :
    c.ShouldScan all stopped = scanPolicy c all stopped ∧
    (c.IsYacu = false → c.IsRunning = true → c.Labels.lookup LABEL_ENABLE = some "true" →
      c.ShouldScan false stopped = true) ∧
    (c.Labels.lookup LABEL_ENABLE = some "notabool" → c.ShouldScan all stopped = false) := by
  refine ⟨?_, ?_, ?_⟩
  · unfold Container.ShouldScan scanPolicy inclusionRules
    cases h1 : c.IsYacu <;> cases h2 : (!stopped && !c.IsRunning) <;>
      cases h3 : c.Labels.lookup LABEL_ENABLE <;> simp [List.find?, h2]
    rename_i val
    cases ParseBool val <;> simp
  · intro h1 h2 h3
    simp [Container.ShouldScan, h1, h2, h3]
    decide
  · intro h
    unfold Container.ShouldScan
    simp only [h]
    have : ParseBool "notabool" = none := by decide
    simp [this]

/-- Claim C9 on the fleet: `/web` labelled `yacu.enable=true` is scanned although
`scanAll` is false, and `/web` labelled `yacu.enable=notabool` is excluded for both
values of `scanAll`. -/
theorem ShouldScan_policy_witness :
    enabledWeb.IsYacu = false ∧ enabledWeb.IsRunning = true ∧
    enabledWeb.Labels.lookup LABEL_ENABLE = some "true" ∧
    enabledWeb.ShouldScan false false = true ∧
    mislabelledWeb.ShouldScan true true = false ∧
    mislabelledWeb.ShouldScan false true = false :=
  ⟨by decide, by decide, by decide,
    (ShouldScan_policy enabledWeb false false).2.1 (by decide) (by decide) (by decide),
    (ShouldScan_policy mislabelledWeb true true).2.2 (by decide),
    (ShouldScan_policy mislabelledWeb false true).2.2 (by decide)⟩

/-- A successful construction of a container record logs exactly the inspect of its image. -/
theorem New_ok_world (env : Env) (data : ContainerJSON) (a b : Int) (w w2 : World)
    (c : Container) (h : New env data a b w = (.ok c, w2)) :
    w2 = w.log (.ImageInspect data.Image none) := by
  unfold New at h
  split at h
  · simp at h
  · split at h
    · simp at h
    · simp only at h
      split at h
      · simp at h
      · rename_i hres
        split at h
        · simp at h
        · simp only [Prod.mk.injEq] at h
          rw [← h.2, hres]
          rfl

/-- One iteration of the scan keeps the candidates old enough. -/
theorem scanContainer_old_enough (env : Env) (app : App) (s : ContainerSummary)
    (acc res : List Container) (w : World)
    (hacc : ∀ c ∈ acc, ∃ k, c.MinImageAge ≤ DaysPassed (env.clock k) c.Image.Created)
    (h : (scanContainer env app s acc w).1 = .ok res) :
    ∀ c ∈ res, ∃ k, c.MinImageAge ≤ DaysPassed (env.clock k) c.Image.Created := by
  unfold scanContainer at h
  simp only at h
  split at h
  · simp at h
  · split at h
    · split at h
      · simp at h; subst h; exact hacc
      · simp at h
    · rename_i container w2 _
      split at h
      · simp at h; subst h; exact hacc
      · simp only [Container.IsOutdated, timeNow] at h
        split at h
        · simp at h
        · rename_i yes w3 heq
          split at heq
          · simp at heq
            obtain ⟨⟨rfl, rfl⟩⟩ := heq
            simp at h; subst h; exact hacc
          · rename_i hnot
            simp at heq
            obtain ⟨rfl, rfl⟩ := heq
            simp only [if_true] at h
            split at h
            · simp at h
            · simp at h
            · split at h
              · simp at h; subst h
                intro c hc
                rcases List.mem_append.mp hc with hc | hc
                · exact hacc c hc
                · simp at hc; subst hc
                  exact ⟨_, not_lt.mp hnot⟩
              · simp at h; subst h; exact hacc

/-- The loop of the scan keeps the candidates old enough. -/
theorem scanLoop_old_enough (env : Env) (app : App) :
    ∀ (l : List ContainerSummary) (acc res : List Container) (w : World),
    (∀ c ∈ acc, ∃ k, c.MinImageAge ≤ DaysPassed (env.clock k) c.Image.Created) →
    (scanLoop env app l acc w).1 = .ok res →
    ∀ c ∈ res, ∃ k, c.MinImageAge ≤ DaysPassed (env.clock k) c.Image.Created
  | [], acc, res, w, hacc, h => by
    simp [scanLoop] at h; subst h; exact hacc
  | s :: rest, acc, res, w, hacc, h => by
    unfold scanLoop at h
    split at h
    · rename_i acc1 w1 heq
      have h1 := scanContainer_old_enough env app s acc acc1 w hacc (by rw [heq])
      exact scanLoop_old_enough env app rest acc1 res w1 h1 h
    · simp at h
    · simp at h

/-- Claim C10.  Every container returned by `FetchUpdates` has a local image whose age
in whole days, at the reading of the clock made by `IsOutdated`, is at least its
`MinImageAge`.  In the iteration of the scan for a container whose record was built and
whose local image is younger than that, the candidates are unchanged and the only calls
are the inspect of the container and of its image: the cache is not read, the registry is
not called and the table is unchanged, whatever the registry would answer. -/
theorem FetchUpdates_old_enough (env : Env) (app : App) (w : World) :
    (∀ containers, (FetchUpdates env app w).1 = .ok containers →
      ∀ c ∈ containers, ∃ k, c.MinImageAge ≤ DaysPassed (env.clock k) c.Image.Created) ∧
    (∀ (s : ContainerSummary) (acc : List Container) (w0 w2 : World) (ci : ContainerJSON)
        (c : Container),
      env.containerInspect w0.trace s.ID = .ok ci →
      New env ci app.Updater.StopTimeout app.Scanner.ImageAge
        (w0.log (.ContainerInspect s.ID none)) = (.ok c, w2) →
      DaysPassed (env.clock w2.tick) c.Image.Created < c.MinImageAge →
      (scanContainer env app s acc w0).1 = .ok acc ∧
      (scanContainer env app s acc w0).2.trace =
        w0.trace ++ [.ContainerInspect s.ID none, .ImageInspect ci.Image none] ∧
      (scanContainer env app s acc w0).2.rows = w0.rows) := by
  constructor
  · intro containers h
    unfold FetchUpdates at h
    simp only at h
    split at h
    · simp at h
    · exact scanLoop_old_enough env app _ [] containers _ (by simp) h
  · intro s acc w0 w2 ci c hinspect hnew hyoung
    have hw2 := New_ok_world env ci _ _ _ w2 c hnew
    unfold scanContainer
    simp only [hinspect, errOf, hnew]
    split
    · subst hw2; simp [World.log]
    · simp only [Container.IsOutdated, timeNow, hyoung, if_true]
      subst hw2; simp [World.log]

/-- Claim C10 on the fleet: the scan returns `/db`, whose image is forty days old; and
when the local image of `/web` is two days old its iteration makes the two inspects
only. -/
theorem FetchUpdates_old_enough_witness :
    (FetchUpdates fleetEnv fleetApp emptyWorld).1 = .ok [dbContainer] ∧
    (∃ k, dbContainer.MinImageAge ≤
      DaysPassed (fleetEnv.clock k) dbContainer.Image.Created) ∧
    DaysPassed (youngImageEnv.clock 0) youngWebContainer.Image.Created
      < youngWebContainer.MinImageAge ∧
    (scanContainer youngImageEnv fleetApp webSummary [] emptyWorld).1 = .ok [] ∧
    (scanContainer youngImageEnv fleetApp webSummary [] emptyWorld).2.trace =
      emptyWorld.trace ++ [.ContainerInspect webSummary.ID none,
        .ImageInspect webJSON.Image none] ∧
    (scanContainer youngImageEnv fleetApp webSummary [] emptyWorld).2.rows = emptyWorld.rows :=
  ⟨by decide,
    (FetchUpdates_old_enough fleetEnv fleetApp emptyWorld).1 [dbContainer] (by decide)
      dbContainer (List.mem_singleton.mpr rfl),
    by decide,
    (FetchUpdates_old_enough youngImageEnv fleetApp emptyWorld).2 webSummary [] emptyWorld
      ((emptyWorld.log (.ContainerInspect "c1" none)).log (.ImageInspect "sha256:img1" none))
      webJSON youngWebContainer rfl rfl (by decide)⟩

/-! ## Dependency resolver: restart flag and condition of an entry -/

/-- An entry list that yields a condition holds an entry that names the container and whose restart field does not parse to false. -/
theorem findDependency_selects (env : Env) (d : ContainerJSON) :
    ∀ (entries : List String) (cond : DependencyType),
    findDependency env d entries = .done (some cond) →
    ∃ value ∈ entries, entryNames (dependencyName d) value = true ∧
      entryRestartFalse value = false
  | [], cond, h => by simp [findDependency] at h
  | value :: rest, cond, h => by
    unfold findDependency at h
    simp only at h
    split at h
    · simp at h
    · rename_i c name hname
      have hdn : dependencyName d = String.mk name := by
        simp [dependencyName, hname]
      split at h
      · obtain ⟨v, hv, h1, h2⟩ := findDependency_selects env d rest cond h
        exact ⟨v, List.mem_cons_of_mem _ hv, h1, h2⟩
      · rename_i hdep
        have hnames : entryNames (dependencyName d) value = true := by
          simp only [ne_eq, Decidable.not_not] at hdep
          unfold entryNames
          rw [hdn]
          exact decide_eq_true hdep
        split at h
        · rename_i hnone
          exact ⟨value, List.mem_cons_self _ _, hnames, by unfold entryRestartFalse; rw [hnone]⟩
        · rename_i field hfield
          split at h
          · obtain ⟨v, hv, h1, h2⟩ := findDependency_selects env d rest cond h
            exact ⟨v, List.mem_cons_of_mem _ hv, h1, h2⟩
          · rename_i hpb
            refine ⟨value, List.mem_cons_self _ _, hnames, ?_⟩
            unfold entryRestartFalse
            rw [hfield]
            exact decide_eq_false (fun hf => hpb hf)

/-- Every resolved dependent is a listed container whose label selects it. -/
theorem dependingLoop_mem (env : Env) (app : App) (d : ContainerJSON) :
    ∀ (containers : List ContainerSummary) (acc res : List DependantContainer),
    dependingLoop env app d containers acc = .done res →
    ∀ x ∈ res, x ∈ acc ∨ (x.Data ∈ containers ∧
      ∃ cond, findDependency env d (Split (dependsOnLabel x.Data) ',') = .done (some cond))
  | [], acc, res, h, x, hx => by
    simp [dependingLoop] at h; subst h; exact Or.inl hx
  | s :: rest, acc, res, h, x, hx => by
    unfold dependingLoop at h
    simp only at h
    split at h
    · rcases dependingLoop_mem env app d rest acc res h x hx with h1 | ⟨h1, h2⟩
      · exact Or.inl h1
      · exact Or.inr ⟨List.mem_cons_of_mem _ h1, h2⟩
    · split at h
      · simp at h
      · rcases dependingLoop_mem env app d rest acc res h x hx with h1 | ⟨h1, h2⟩
        · exact Or.inl h1
        · exact Or.inr ⟨List.mem_cons_of_mem _ h1, h2⟩
      · rename_i cond hfind
        split at h
        · simp at h
        · rename_i dep hnew
          rcases dependingLoop_mem env app d rest _ res h x hx with h1 | ⟨h1, h2⟩
          · rcases List.mem_append.mp h1 with h1 | h1
            · exact Or.inl h1
            · simp only [List.mem_singleton] at h1
              subst h1
              have hdata : x.Data = s := by
                unfold NewDependant at hnew
                split at hnew
                · simp at hnew
                · simp only [Step.done.injEq] at hnew
                  rw [← hnew]
              refine Or.inr ⟨by rw [hdata]; exact List.mem_cons_self _ _, cond, ?_⟩
              rw [hdata]; exact hfind
          · exact Or.inr ⟨List.mem_cons_of_mem _ h1, h2⟩

/-- The stops and starts of a concatenation of histories. -/
theorem stopsAndStarts_append : ∀ (a b : List Event),
    stopsAndStarts (a ++ b) = stopsAndStarts a ++ stopsAndStarts b
  | [], b => rfl
  | e :: a, b => by
    have ih := stopsAndStarts_append a b
    cases e <;> simp [stopsAndStarts, ih]

/-- Stopping the dependents issues one stop for each, in order. -/
theorem DependantContainers_Stop_events (env : Env) :
    ∀ (deps : List DependantContainer) (w : World),
    ∃ evs, (DependantContainers.Stop env deps w).2.trace = w.trace ++ evs ∧
      stopsAndStarts evs = deps.map (fun d => ("stop", d.Data.ID))
  | [], w => ⟨[], by simp [DependantContainers.Stop, stopsAndStarts]⟩
  | d :: rest, w => by
    obtain ⟨evs, h1, h2⟩ := DependantContainers_Stop_events env rest
      (w.log (.ContainerStop d.Data.ID d.StopTimeout
        (env.containerStop w.trace d.Data.ID d.StopTimeout)))
    refine ⟨.ContainerStop d.Data.ID d.StopTimeout
      (env.containerStop w.trace d.Data.ID d.StopTimeout) :: evs, ?_, ?_⟩
    · simp only [DependantContainers.Stop, DependantContainer.Stop]
      cases hres : env.containerStop w.trace d.Data.ID d.StopTimeout <;>
        simp only [hres] at h1 ⊢ <;> simpa [World.log] using h1
    · simp [stopsAndStarts, h2]

/-- The final start of a dependent logs exactly one `ContainerStart`. -/
theorem issueStart_events (env : Env) (c : DependantContainer) (msg : String) (w : World) :
    (c.issueStart env msg w).2.trace =
      w.trace ++ [.ContainerStart c.Data.ID (env.containerStart w.trace c.Data.ID)] := by
  unfold DependantContainer.issueStart
  simp only
  split <;> simp [World.log, *]

/-- The polling loop issues at most one start, for the dependent. -/
theorem pollHealthy_events (env : Env) (c : DependantContainer) :
    ∀ (ticks : Nat) (w : World),
    ∃ evs, (c.pollHealthy env ticks w).2.trace = w.trace ++ evs ∧
      (stopsAndStarts evs = [] ∨ stopsAndStarts evs = [("start", c.Data.ID)])
  | 0, w => ⟨[], by simp [DependantContainer.pollHealthy, stopsAndStarts]⟩
  | ticks + 1, w => by
    unfold DependantContainer.pollHealthy
    simp only
    split
    · exact ⟨[(.ContainerInspect c.DependsOn.ID (errOf (env.containerInspect w.trace c.DependsOn.ID)))], by simp [World.log], Or.inl rfl⟩
    · split
      · exact ⟨[(.ContainerInspect c.DependsOn.ID (errOf (env.containerInspect w.trace c.DependsOn.ID)))], by simp [World.log], Or.inl rfl⟩
      · split
        · have hs := issueStart_events env c ("failed to start container " ++ c.Name)
            (w.log (.ContainerInspect c.DependsOn.ID
              (errOf (env.containerInspect w.trace c.DependsOn.ID))))
          split
          · rename_i heq
            rw [heq] at hs
            exact ⟨[(.ContainerInspect c.DependsOn.ID (errOf (env.containerInspect w.trace c.DependsOn.ID))), .ContainerStart c.Data.ID _], by simpa [World.log] using hs, Or.inr rfl⟩
          · rename_i heq
            rw [heq] at hs
            exact ⟨[(.ContainerInspect c.DependsOn.ID (errOf (env.containerInspect w.trace c.DependsOn.ID))), .ContainerStart c.Data.ID _], by simpa [World.log] using hs, Or.inr rfl⟩
        · split
          · exact ⟨[(.ContainerInspect c.DependsOn.ID (errOf (env.containerInspect w.trace c.DependsOn.ID)))], by simp [World.log], Or.inl rfl⟩
          · obtain ⟨evs, h1, h2⟩ := pollHealthy_events env c ticks
              (w.log (.ContainerInspect c.DependsOn.ID
                (errOf (env.containerInspect w.trace c.DependsOn.ID))))
            refine ⟨.ContainerInspect c.DependsOn.ID
              (errOf (env.containerInspect w.trace c.DependsOn.ID)) :: evs, ?_, ?_⟩
            · simpa [World.log] using h1
            · simpa [stopsAndStarts] using h2

/-- The start of one dependent issues at most one start, for that dependent. -/
theorem DependantContainer_Start_events (env : Env) (c : DependantContainer) (w : World) :
    ∃ evs, (c.Start env w).2.trace = w.trace ++ evs ∧
      (stopsAndStarts evs = [] ∨ stopsAndStarts evs = [("start", c.Data.ID)]) := by
  unfold DependantContainer.Start
  simp only
  split
  · have hs := issueStart_events env c
      ("failed to start container " ++ c.Name ++ " depending on " ++ c.DependsOn.Name) w
    split
    · rename_i heq
      rw [heq] at hs
      exact ⟨[.ContainerStart c.Data.ID _], hs, Or.inr rfl⟩
    · rename_i heq
      rw [heq] at hs
      exact ⟨[.ContainerStart c.Data.ID _], hs, Or.inr rfl⟩
  · split
    · exact ⟨[.ContainerWait c.DependsOn.ID (env.containerWait w.trace c.DependsOn.ID)],
        by simp [World.log], Or.inl rfl⟩
    · exact ⟨[.ContainerWait c.DependsOn.ID (env.containerWait w.trace c.DependsOn.ID)],
        by simp [World.log], Or.inl rfl⟩
    · exact ⟨[.ContainerWait c.DependsOn.ID (env.containerWait w.trace c.DependsOn.ID)],
        by simp [World.log], Or.inl rfl⟩
    · have hs := issueStart_events env c
        ("failed to start container " ++ c.Name ++ " depending on " ++ c.DependsOn.Name)
        (w.log (.ContainerWait c.DependsOn.ID (env.containerWait w.trace c.DependsOn.ID)))
      split
      · rename_i heq
        rw [heq] at hs
        exact ⟨[.ContainerWait c.DependsOn.ID _, .ContainerStart c.Data.ID _],
          by simpa [World.log] using hs, Or.inr rfl⟩
      · rename_i heq
        rw [heq] at hs
        split
        · exact ⟨[.ContainerWait c.DependsOn.ID _, .ContainerStart c.Data.ID _],
            by simpa [World.log] using hs, Or.inr rfl⟩
        · exact ⟨[.ContainerWait c.DependsOn.ID _, .ContainerStart c.Data.ID _],
            by simpa [World.log] using hs, Or.inr rfl⟩
  · exact pollHealthy_events env c _ w

/-- Starting the dependents issues starts for dependents of the list only, in order. -/
theorem DependantContainers_Start_events (env : Env) :
    ∀ (deps : List DependantContainer) (w : World),
    ∃ evs, (DependantContainers.Start env deps w).2.trace = w.trace ++ evs ∧
      (stopsAndStarts evs).Sublist (deps.map (fun d => ("start", d.Data.ID)))
  | [], w => ⟨[], by simp [DependantContainers.Start, stopsAndStarts]⟩
  | d :: rest, w => by
    obtain ⟨e1, h1, h2⟩ := DependantContainer_Start_events env d w
    have hsub1 : (stopsAndStarts e1).Sublist [("start", d.Data.ID)] := by
      rcases h2 with h2 | h2 <;> simp [h2]
    have key : ∀ w1, w1 = (d.Start env w).2 →
        ∃ evs, (DependantContainers.Start env rest w1).2.trace = w.trace ++ evs ∧
          (stopsAndStarts evs).Sublist ((d :: rest).map (fun d => ("start", d.Data.ID))) := by
      intro w1 hw1
      obtain ⟨e2, h3, h4⟩ := DependantContainers_Start_events env rest w1
      refine ⟨e1 ++ e2, ?_, ?_⟩
      · rw [h3, hw1, h1, List.append_assoc]
      · rw [stopsAndStarts_append]
        exact List.Sublist.append hsub1 h4
    unfold DependantContainers.Start
    split
    · rename_i heq
      refine ⟨e1, ?_, ?_⟩
      · rw [heq] at h1; exact h1
      · exact hsub1.trans (by simp)
    · rename_i err w1 heq
      obtain ⟨evs, h5, h6⟩ := key w1 (by rw [heq])
      split
      · rename_i heq2
        rw [heq2] at h5
        exact ⟨evs, h5, h6⟩
      · rename_i heq2
        rw [heq2] at h5
        exact ⟨evs, h5, h6⟩
    · rename_i w1 heq
      exact key w1 (by rw [heq])

/-- Claim C11, amended.  Let `s` be a listed running container such that every entry of
its depends-on label that names the container being updated has a restart field that
parses to false.  Then `GetDependingContainers` does not include `s` in its result, and
(the ids of the listed containers being distinct) neither `DependantContainers.Stop` nor
`DependantContainers.Start` on that result issues a stop or a start for `s`. -/
theorem GetDependingContainers_restart_false (env : Env) (app : App)
    (dependsOn : ContainerJSON) (w : World) (containers : List ContainerSummary)
    (deps : List DependantContainer) (s : ContainerSummary)
    (hlist : env.containerList w.trace [("label", LABEL_DEPENDS_ON), ("status", "running")]
      = .ok containers)
    (hids : (containers.map (fun c => c.ID)).Nodup)
    (hs : s ∈ containers)
    (hres : (GetDependingContainers env app dependsOn w).1 = .ok deps)
    (hfalse : ∀ value ∈ Split (dependsOnLabel s) ',',
      entryNames (dependencyName dependsOn) value = true → entryRestartFalse value = true) :
    (∀ d ∈ deps, d.Data ≠ s ∧ d.Data.ID ≠ s.ID) ∧
    (∀ w', ∃ evs, (DependantContainers.Stop env deps w').2.trace = w'.trace ++ evs ∧
      ∀ p ∈ stopsAndStarts evs, p.2 ≠ s.ID) ∧
    (∀ w', ∃ evs, (DependantContainers.Start env deps w').2.trace = w'.trace ++ evs ∧
      ∀ p ∈ stopsAndStarts evs, p.2 ≠ s.ID) := by
  have hloop : dependingLoop env app dependsOn containers [] = .done deps := by
    unfold GetDependingContainers at hres
    simp only [hlist] at hres
    split at hres
    · simp at hres
    · rename_i heq
      simp only [Res.ok.injEq] at hres
      rw [heq, hres]
  have hmem : ∀ d ∈ deps, d.Data ≠ s ∧ d.Data.ID ≠ s.ID := by
    intro d hd
    rcases dependingLoop_mem env app dependsOn containers [] deps hloop d hd with h | ⟨h1, cond, h2⟩
    · simp at h
    · have hne : d.Data ≠ s := by
        intro heq
        obtain ⟨value, hv, hn, hr⟩ := findDependency_selects env dependsOn _ cond h2
        rw [heq] at hv
        have := hfalse value hv hn
        rw [hr] at this
        exact Bool.false_ne_true this
      refine ⟨hne, ?_⟩
      intro hid
      exact hne (List.inj_on_of_nodup_map hids h1 hs hid)
  have hids2 : ∀ p ∈ deps.map (fun d => ("stop", d.Data.ID)), p.2 ≠ s.ID := by
    intro p hp
    obtain ⟨d, hd, rfl⟩ := List.mem_map.mp hp
    exact (hmem d hd).2
  have hids3 : ∀ p ∈ deps.map (fun d => ("start", d.Data.ID)), p.2 ≠ s.ID := by
    intro p hp
    obtain ⟨d, hd, rfl⟩ := List.mem_map.mp hp
    exact (hmem d hd).2
  refine ⟨hmem, ?_, ?_⟩
  · intro w'
    obtain ⟨evs, h1, h2⟩ := DependantContainers_Stop_events env deps w'
    exact ⟨evs, h1, by rw [h2]; exact hids2⟩
  · intro w'
    obtain ⟨evs, h1, h2⟩ := DependantContainers_Start_events env deps w'
    exact ⟨evs, h1, fun p hp => hids3 p (h2.subset hp)⟩


/-- Claim C11 as stated fails.  The label `api:service_started:false,api` of `/client`
contains an entry that names `api` with a restart field that parses to false, yet
`GetDependingContainers` for `/api` includes `/client` (through the second entry, which
the loop reaches by `continue`) and `/client` is stopped. -/
theorem GetDependingContainers_restart_false_counterexample :
    decide ("api:service_started:false" ∈
      Split (dependsOnLabel (clientSummary "api:service_started:false,api")) ',') = true ∧
    entryNames (dependencyName apiJSON) "api:service_started:false" = true ∧
    entryRestartFalse "api:service_started:false" = true ∧
    (GetDependingContainers (clientEnv "api:service_started:false,api") fleetApp apiJSON
      emptyWorld).1 = .ok [clientDependant "api:service_started:false,api" .DEPENDENCY_HEALTHY] ∧
    stopsAndStarts (DependantContainers.Stop (clientEnv "api:service_started:false,api")
      [clientDependant "api:service_started:false,api" .DEPENDENCY_HEALTHY] emptyWorld).2.trace
      = [("stop", "c5")] := by
  decide

/-- Claim C11, amended, on the fleet, with the label of the specification:
`api:service_completed_successfully:false` excludes `/client` from the dependents of
`/api`. -/
theorem GetDependingContainers_restart_false_witness :
    (clientEnv "api:service_completed_successfully:false").containerList emptyWorld.trace
      [("label", LABEL_DEPENDS_ON), ("status", "running")]
      = .ok [clientSummary "api:service_completed_successfully:false"] ∧
    (GetDependingContainers (clientEnv "api:service_completed_successfully:false") fleetApp
      apiJSON emptyWorld).1 = .ok [] ∧
    (∀ value ∈ Split (dependsOnLabel (clientSummary
        "api:service_completed_successfully:false")) ',',
      entryNames (dependencyName apiJSON) value = true → entryRestartFalse value = true) ∧
    ((∀ d ∈ ([] : List DependantContainer),
        d.Data ≠ clientSummary "api:service_completed_successfully:false" ∧
        d.Data.ID ≠ (clientSummary "api:service_completed_successfully:false").ID) ∧
      (∀ w', ∃ evs, (DependantContainers.Stop
          (clientEnv "api:service_completed_successfully:false") [] w').2.trace
          = w'.trace ++ evs ∧
        ∀ p ∈ stopsAndStarts evs,
          p.2 ≠ (clientSummary "api:service_completed_successfully:false").ID) ∧
      (∀ w', ∃ evs, (DependantContainers.Start
          (clientEnv "api:service_completed_successfully:false") [] w').2.trace
          = w'.trace ++ evs ∧
        ∀ p ∈ stopsAndStarts evs,
          p.2 ≠ (clientSummary "api:service_completed_successfully:false").ID)) :=
  ⟨rfl, by decide, by decide,
    GetDependingContainers_restart_false
      (clientEnv "api:service_completed_successfully:false") fleetApp apiJSON emptyWorld
      [clientSummary "api:service_completed_successfully:false"] []
      (clientSummary "api:service_completed_successfully:false")
      rfl (by decide) (by decide) (by decide) (by decide)⟩

/-- The dependency name of a container whose name has a first character. -/
theorem dependencyName_cons (d : ContainerJSON) (c : Char) (name : List Char)
    (h : d.Name.data = c :: name) : dependencyName d = String.mk name := by
  simp [dependencyName, h]

/-- A non-empty name has a first character. -/
theorem name_data_ne_nil (d : ContainerJSON) (hname : d.Name ≠ "") : d.Name.data ≠ [] := by
  intro h
  apply hname
  have : d.Name = String.mk d.Name.data := rfl
  rw [this, h]

/-- The inner loop of the resolver on a non-empty entry list, for a container that has a name. -/
theorem findDependency_cons (env : Env) (d : ContainerJSON) (value : String)
    (rest : List String) (c : Char) (name : List Char) (hd : d.Name.data = c :: name) :
    findDependency env d (value :: rest) =
      if (Split value ':').headD "" ≠ String.mk name then findDependency env d rest
      else
        match (Split value ':').get? 2 with
        | none => .done (some (conditionOf env (Split value ':')))
        | some field =>
          match ParseBool field with
          | some false => findDependency env d rest
          | _ => .done (some (conditionOf env (Split value ':'))) := by
  rw [findDependency]
  simp only [hd]

/-- Entries that do not select the container are passed over. -/
theorem findDependency_skip (env : Env) (d : ContainerJSON) (hname : d.Name ≠ "") :
    ∀ (pre entries : List String),
    (∀ v ∈ pre, entryNames (dependencyName d) v = true → entryRestartFalse v = true) →
    findDependency env d (pre ++ entries) = findDependency env d entries
  | [], entries, _ => rfl
  | v :: pre, entries, hpre => by
    have ih := findDependency_skip env d hname pre entries
      (fun x hx => hpre x (List.mem_cons_of_mem _ hx))
    have hv := hpre v (List.mem_cons_self _ _)
    rw [List.cons_append]
    cases hd : d.Name.data with
    | nil => exact absurd hd (name_data_ne_nil d hname)
    | cons c name =>
      rw [findDependency_cons env d v _ c name hd]
      have hdn := dependencyName_cons d c name hd
      split
      · exact ih
      · rename_i hdep
        simp only [ne_eq, Decidable.not_not] at hdep
        have hn : entryNames (dependencyName d) v = true := by
          unfold entryNames; rw [hdn]; exact decide_eq_true hdep
        have hr := hv hn
        unfold entryRestartFalse at hr
        split
        · rename_i hnone
          rw [hnone] at hr
          exact absurd hr Bool.false_ne_true
        · rename_i field hfield
          rw [hfield] at hr
          simp only [decide_eq_true_eq] at hr
          rw [hr]
          exact ih

/-- Claim C12, amended.  For the first entry `dependency[:condition[:restart]]` of a label
that names the container being updated and selects the dependent (its restart field does
not parse to false), the resolver yields a condition `cond`, which the dependent carries:
healthy when the condition field is omitted; started when the field, lower-cased by
`strings.ToLower`, is `service_started`; completed when the lower-cased field is
`service_completed_successfully`; healthy for any other token. -/
theorem findDependency_condition (env : Env) (dependsOn : ContainerJSON)
    (pre : List String) (value : String) (rest : List String)
    (hname : dependsOn.Name ≠ "")
    (hpre : ∀ v ∈ pre, entryNames (dependencyName dependsOn) v = true →
      entryRestartFalse v = true)
    (hdep : entryNames (dependencyName dependsOn) value = true)
    (hsel : entryRestartFalse value = false) :
    ∃ cond, findDependency env dependsOn (pre ++ value :: rest) = .done (some cond) ∧
      ((Split value ':').get? 1 = none → cond = .DEPENDENCY_HEALTHY) ∧
      (∀ field, (Split value ':').get? 1 = some field →
        (env.toLower field = "service_started" → cond = .DEPENDENCY_STARTED) ∧
        (env.toLower field = "service_completed_successfully" →
          cond = .DEPENDENCY_COMPLETED) ∧
        (env.toLower field ≠ "service_started" →
          env.toLower field ≠ "service_completed_successfully" →
          cond = .DEPENDENCY_HEALTHY)) ∧
      (∀ (s : ContainerSummary) (stopTimeout : Int), s.Names ≠ [] →
        ∃ d, NewDependant s stopTimeout dependsOn cond = .done d ∧
          d.DependencyType = cond ∧ d.Data = s) := by
  refine ⟨conditionOf env (Split value ':'), ?_, ?_, ?_, ?_⟩
  · rw [findDependency_skip env dependsOn hname pre _ hpre]
    cases hd : dependsOn.Name.data with
    | nil => exact absurd hd (name_data_ne_nil dependsOn hname)
    | cons c name =>
      rw [findDependency_cons env dependsOn value _ c name hd]
      have hdn := dependencyName_cons dependsOn c name hd
      unfold entryNames at hdep
      rw [hdn] at hdep
      have hdep' := of_decide_eq_true hdep
      rw [if_neg (by simpa using hdep')]
      unfold entryRestartFalse at hsel
      split
      · rfl
      · rename_i field hfield
        rw [hfield] at hsel
        have hpb : ParseBool field ≠ some false := of_decide_eq_false hsel
        split
        · rename_i heq; exact absurd heq hpb
        · rfl
  · intro h
    simp only [conditionOf, h]
  · intro field h
    refine ⟨?_, ?_, ?_⟩
    · intro h1; simp only [conditionOf, h, h1, if_true]
    · intro h1
      have : env.toLower field ≠ "service_started" := by rw [h1]; decide
      simp only [conditionOf, h, h1, if_true, this, if_false]
      simp
    · intro h1 h2
      simp only [conditionOf, h, h1, h2, if_false]
  · intro s stopTimeout hs
    cases hn : s.Names with
    | nil => exact absurd hn hs
    | cons n ns =>
      exact ⟨{ Data := s, Name := n,
               StopTimeout := labelInt s.Labels LABEL_STOP_TIMEOUT stopTimeout,
               DependsOn := dependsOn, DependencyType := conditionOf env (Split value ':') },
        by simp only [NewDependant, hn], rfl, rfl⟩

/-- Claim C12 as stated fails.  The condition field `SERVICE_STARTED` is another token
than `service_started`, yet the entry `api:SERVICE_STARTED` gives the condition started,
not healthy: the field is lower-cased before the comparison. -/
theorem findDependency_condition_counterexample :
    entryNames (dependencyName apiJSON) "api:SERVICE_STARTED" = true ∧
    (Split "api:SERVICE_STARTED" ':').get? 1 = some "SERVICE_STARTED" ∧
    decide ("SERVICE_STARTED" = "service_started") = false ∧
    findDependency fleetEnv apiJSON ["api:SERVICE_STARTED"]
      = .done (some .DEPENDENCY_STARTED) ∧
    (GetDependingContainers (clientEnv "api:SERVICE_STARTED") fleetApp apiJSON emptyWorld).1
      = .ok [clientDependant "api:SERVICE_STARTED" .DEPENDENCY_STARTED] := by
  decide

/-- Claim C12, amended, on the fleet, with the entries of the specification: `api` gives
healthy, `api:service_started` gives started and `api:bogus:true` gives healthy. -/
theorem findDependency_condition_witness :
    apiJSON.Name ≠ "" ∧
    entryNames (dependencyName apiJSON) "api:bogus:true" = true ∧
    entryRestartFalse "api:bogus:true" = false ∧
    findDependency fleetEnv apiJSON ["api"] = .done (some .DEPENDENCY_HEALTHY) ∧
    findDependency fleetEnv apiJSON ["api:service_started"]
      = .done (some .DEPENDENCY_STARTED) ∧
    findDependency fleetEnv apiJSON ["api:bogus:true"] = .done (some .DEPENDENCY_HEALTHY) ∧
    ∃ cond, findDependency fleetEnv apiJSON ([] ++ "api:bogus:true" :: [])
        = .done (some cond) ∧
      ((Split "api:bogus:true" ':').get? 1 = none → cond = .DEPENDENCY_HEALTHY) ∧
      (∀ field, (Split "api:bogus:true" ':').get? 1 = some field →
        (fleetEnv.toLower field = "service_started" → cond = .DEPENDENCY_STARTED) ∧
        (fleetEnv.toLower field = "service_completed_successfully" →
          cond = .DEPENDENCY_COMPLETED) ∧
        (fleetEnv.toLower field ≠ "service_started" →
          fleetEnv.toLower field ≠ "service_completed_successfully" →
          cond = .DEPENDENCY_HEALTHY)) ∧
      (∀ (s : ContainerSummary) (stopTimeout : Int), s.Names ≠ [] →
        ∃ d, NewDependant s stopTimeout apiJSON cond = .done d ∧
          d.DependencyType = cond ∧ d.Data = s) :=
  ⟨by decide, by decide, by decide, by decide, by decide, by decide,
    findDependency_condition fleetEnv apiJSON [] "api:bogus:true" [] (by decide)
      (by simp) (by decide) (by decide)⟩

/-! ## Start of a dependent: the completed and the healthy condition -/

/-- A list of characters is a prefix of itself. -/
theorem isPrefixOf_self_chars : ∀ l : List Char, l.isPrefixOf l = true
  | [] => rfl
  | c :: cs => by simp [List.isPrefixOf, isPrefixOf_self_chars cs]

/-- A text contains itself. -/
theorem containsChars_self (b : List Char) : containsChars b b = true := by
  cases b with
  | nil => rfl
  | cons c cs => simp [containsChars, isPrefixOf_self_chars]

/-- A text contains each of its suffixes. -/
theorem containsChars_append : ∀ (a b : List Char), containsChars (a ++ b) b = true
  | [], b => containsChars_self b
  | c :: a, b => by
    simp [containsChars, containsChars_append a b]

/-- The concatenation of two strings contains the second. -/
theorem Contains_append (a b : String) : Contains (a ++ b) b = true := by
  unfold Contains
  rw [String.data_append]
  exact containsChars_append a.data b.data

/-- Claim C13, amended.  For a dependent with the completed condition: when the wait on
the depended-on container returns without error and with exit code `code`, exactly one
`ContainerStart` is issued for the dependent; if that start succeeds, the recorded
warning mentions `code` when `code` is not zero and no warning is recorded when it is
zero; if that start fails, the warning is the failure of the start.  When the wait times
out, fails in transport or carries an error, no start is issued and a warning is
recorded. -/
theorem DependantContainer_Start_completed (env : Env) (c : DependantContainer) (w : World)
    (hc : c.DependencyType = .DEPENDENCY_COMPLETED) :
    (∀ code, env.containerWait w.trace c.DependsOn.ID = .response none code →
      (c.Start env w).2.trace = w.trace ++
        [.ContainerWait c.DependsOn.ID (.response none code),
         .ContainerStart c.Data.ID (env.containerStart
           (w.trace ++ [.ContainerWait c.DependsOn.ID (.response none code)]) c.Data.ID)] ∧
      (env.containerStart (w.trace ++ [.ContainerWait c.DependsOn.ID (.response none code)])
          c.Data.ID = none →
        (code ≠ 0 → ∃ warning, (c.Start env w).1 = .err warning ∧
          Contains warning.text (toString code) = true) ∧
        (code = 0 → (c.Start env w).1 = .ok ())) ∧
      (∀ e, env.containerStart
          (w.trace ++ [.ContainerWait c.DependsOn.ID (.response none code)]) c.Data.ID = some e →
        (c.Start env w).1 = .err (.wrap ("failed to start container " ++ c.Name ++
          " depending on " ++ c.DependsOn.Name) e))) ∧
    (∀ outcome, env.containerWait w.trace c.DependsOn.ID = outcome →
      (outcome = .timeout ∨ (∃ e, outcome = .transport e) ∨
        (∃ message code, outcome = .response (some message) code)) →
      (c.Start env w).2.trace = w.trace ++ [.ContainerWait c.DependsOn.ID outcome] ∧
      ∃ warning, (c.Start env w).1 = .err warning) := by
  constructor
  · intro code hwait
    refine ⟨?_, ?_, ?_⟩
    · cases hs : env.containerStart
          (w.trace ++ [.ContainerWait c.DependsOn.ID (.response none code)]) c.Data.ID with
      | none =>
        by_cases hcode : code = 0
        · subst hcode
          simp [DependantContainer.Start, hc, hwait, DependantContainer.issueStart, World.log,
            hs]
        · simp [DependantContainer.Start, hc, hwait, DependantContainer.issueStart, World.log,
            hs, hcode]
      | some e =>
        simp [DependantContainer.Start, hc, hwait, DependantContainer.issueStart, World.log, hs]
    · intro hstart
      constructor
      · intro hcode
        refine ⟨.other ("container " ++ c.DependsOn.Name ++ " exit code not clean: " ++
          toString code), ?_, ?_⟩
        · simp [DependantContainer.Start, hc, hwait, DependantContainer.issueStart, World.log,
            hstart, hcode]
        · exact Contains_append _ _
      · intro hcode
        subst hcode
        simp [DependantContainer.Start, hc, hwait, DependantContainer.issueStart, World.log,
          hstart]
    · intro e hstart
      simp [DependantContainer.Start, hc, hwait, DependantContainer.issueStart, World.log,
        hstart]
  · intro outcome hwait hcase
    rcases hcase with rfl | ⟨e, rfl⟩ | ⟨message, code, rfl⟩
    · refine ⟨by simp [DependantContainer.Start, hc, hwait, World.log], ?_⟩
      simp only [DependantContainer.Start, hc, hwait]
      exact ⟨_, rfl⟩
    · refine ⟨by simp [DependantContainer.Start, hc, hwait, World.log], ?_⟩
      simp only [DependantContainer.Start, hc, hwait]
      exact ⟨_, rfl⟩
    · refine ⟨by simp [DependantContainer.Start, hc, hwait, World.log], ?_⟩
      simp only [DependantContainer.Start, hc, hwait]
      exact ⟨_, rfl⟩

/-- Claim C13 as stated fails.  The wait on `/web` returns in time with the exit code 1
(resp. 0) and the start of `/worker` fails: the dependent is not started, and the only
warning recorded is the failure of the start, which does not mention the exit code 1
(resp. is recorded although the exit code is 0). -/
theorem DependantContainer_Start_completed_counterexample :
    (completedWorker.Start (startFailEnv 1) emptyWorld).1 =
      .err (.wrap "failed to start container /worker depending on /web"
        (.other "cannot start container")) ∧
    Contains (Error.wrap "failed to start container /worker depending on /web"
      (.other "cannot start container")).text (toString (1 : Int)) = false ∧
    (completedWorker.Start (startFailEnv 0) emptyWorld).1 =
      .err (.wrap "failed to start container /worker depending on /web"
        (.other "cannot start container")) := by
  decide

/-- Claim C13, amended, on the fleet, the scenario of the specification: `/web` exits
with the code 1 within the deadline, `/worker` is started and the warning mentions the
code. -/
theorem DependantContainer_Start_completed_witness :
    completedWorker.DependencyType = .DEPENDENCY_COMPLETED ∧
    (completedWorker.Start (exitCodeEnv 1) emptyWorld).1 =
      .err (.other "container /web exit code not clean: 1") ∧
    (completedWorker.Start (exitCodeEnv 1) emptyWorld).2.trace =
      [.ContainerWait "c1" (.response none 1), .ContainerStart "c2" none] ∧
    ((∀ code, (exitCodeEnv 1).containerWait emptyWorld.trace completedWorker.DependsOn.ID
        = .response none code →
      (completedWorker.Start (exitCodeEnv 1) emptyWorld).2.trace = emptyWorld.trace ++
        [.ContainerWait completedWorker.DependsOn.ID (.response none code),
         .ContainerStart completedWorker.Data.ID ((exitCodeEnv 1).containerStart
           (emptyWorld.trace ++
             [.ContainerWait completedWorker.DependsOn.ID (.response none code)])
           completedWorker.Data.ID)] ∧
      ((exitCodeEnv 1).containerStart (emptyWorld.trace ++
          [.ContainerWait completedWorker.DependsOn.ID (.response none code)])
          completedWorker.Data.ID = none →
        (code ≠ 0 → ∃ warning,
          (completedWorker.Start (exitCodeEnv 1) emptyWorld).1 = .err warning ∧
          Contains warning.text (toString code) = true) ∧
        (code = 0 → (completedWorker.Start (exitCodeEnv 1) emptyWorld).1 = .ok ())) ∧
      (∀ e, (exitCodeEnv 1).containerStart (emptyWorld.trace ++
          [.ContainerWait completedWorker.DependsOn.ID (.response none code)])
          completedWorker.Data.ID = some e →
        (completedWorker.Start (exitCodeEnv 1) emptyWorld).1 =
          .err (.wrap ("failed to start container " ++ completedWorker.Name ++
            " depending on " ++ completedWorker.DependsOn.Name) e))) ∧
    (∀ outcome, (exitCodeEnv 1).containerWait emptyWorld.trace completedWorker.DependsOn.ID
        = outcome →
      (outcome = .timeout ∨ (∃ e, outcome = .transport e) ∨
        (∃ message code, outcome = .response (some message) code)) →
      (completedWorker.Start (exitCodeEnv 1) emptyWorld).2.trace =
        emptyWorld.trace ++ [.ContainerWait completedWorker.DependsOn.ID outcome] ∧
      ∃ warning, (completedWorker.Start (exitCodeEnv 1) emptyWorld).1 = .err warning)) :=
  ⟨rfl, by decide, by decide,
    DependantContainer_Start_completed (exitCodeEnv 1) completedWorker emptyWorld rfl⟩

/-- While every poll reports a status that is neither `none`, `healthy` nor `unhealthy`,
the polling loop inspects once per tick and ends with the timeout warning, without a
start. -/
theorem pollHealthy_undecided (env : Env) (c : DependantContainer)
    (hpoll : ∀ trace, ∃ container health,
      env.containerInspect trace c.DependsOn.ID = .ok container ∧
      container.State.Health = some health ∧ health.Status ≠ "none" ∧
      health.Status ≠ "healthy" ∧ health.Status ≠ "unhealthy") :
    ∀ (ticks : Nat) (w : World), c.pollHealthy env ticks w =
      (.err (.other ("timed out starting container " ++ c.Name ++ " due to " ++
        c.DependsOn.Name ++ " not starting or becoming healthy in a reasonable amount of time")),
       { w with
         trace := w.trace ++ List.replicate ticks (.ContainerInspect c.DependsOn.ID none) })
  | 0, w => by simp [DependantContainer.pollHealthy]
  | ticks + 1, w => by
    obtain ⟨container, health, hi, hh, h1, h2, h3⟩ := hpoll w.trace
    rw [DependantContainer.pollHealthy]
    simp only [hi, hh, h1, h2, h3, or_self, if_false, errOf]
    rw [pollHealthy_undecided env c hpoll ticks]
    simp [World.log, List.replicate_succ]

/-- Claim C14.  For a dependent with the healthy condition, `Start` polls the
depended-on container on each tick served before the 5-minute timer (at most 30).  A poll
whose inspection reports the health status `none` or `healthy` issues one start for the
dependent and, if that start succeeds, the outcome is success; the status `unhealthy`
issues no start and returns a warning; any other status continues with the next tick; with
no tick left the timeout warning is returned and nothing is issued, so a run whose polls
are all undecided consists of inspections only and ends with the timeout warning. -/
theorem DependantContainer_Start_healthy (env : Env) (c : DependantContainer) (w : World)
    (hc : c.DependencyType = .DEPENDENCY_HEALTHY) :
    c.Start env w = c.pollHealthy env (min (env.healthTicks w.trace) 30) w ∧
    (∀ w0 : World, c.pollHealthy env 0 w0 =
      (.err (.other ("timed out starting container " ++ c.Name ++ " due to " ++
        c.DependsOn.Name ++
        " not starting or becoming healthy in a reasonable amount of time")), w0)) ∧
    (∀ (ticks : Nat) (w0 : World) (container : ContainerJSON) (health : Health),
      env.containerInspect w0.trace c.DependsOn.ID = .ok container →
      container.State.Health = some health →
      ((health.Status = "none" ∨ health.Status = "healthy") →
        (c.pollHealthy env (ticks + 1) w0).2.trace = w0.trace ++
          [.ContainerInspect c.DependsOn.ID none,
           .ContainerStart c.Data.ID (env.containerStart
             (w0.trace ++ [.ContainerInspect c.DependsOn.ID none]) c.Data.ID)] ∧
        (env.containerStart (w0.trace ++ [.ContainerInspect c.DependsOn.ID none]) c.Data.ID
            = none →
          (c.pollHealthy env (ticks + 1) w0).1 = .ok ()) ∧
        (∀ e, env.containerStart (w0.trace ++ [.ContainerInspect c.DependsOn.ID none])
            c.Data.ID = some e →
          (c.pollHealthy env (ticks + 1) w0).1 =
            .err (.wrap ("failed to start container " ++ c.Name) e))) ∧
      (health.Status = "unhealthy" →
        c.pollHealthy env (ticks + 1) w0 =
          (.err (.other ("failed to start container " ++ c.Name ++ " because " ++
            container.Name ++ " became unhealthy")),
           w0.log (.ContainerInspect c.DependsOn.ID none))) ∧
      (health.Status ≠ "none" → health.Status ≠ "healthy" → health.Status ≠ "unhealthy" →
        c.pollHealthy env (ticks + 1) w0 =
          c.pollHealthy env ticks (w0.log (.ContainerInspect c.DependsOn.ID none)))) ∧
    ((∀ trace, ∃ container health,
        env.containerInspect trace c.DependsOn.ID = .ok container ∧
        container.State.Health = some health ∧ health.Status ≠ "none" ∧
        health.Status ≠ "healthy" ∧ health.Status ≠ "unhealthy") →
      c.Start env w =
        (.err (.other ("timed out starting container " ++ c.Name ++ " due to " ++
          c.DependsOn.Name ++
          " not starting or becoming healthy in a reasonable amount of time")),
         { w with
           trace := w.trace ++ List.replicate (min (env.healthTicks w.trace) 30)
                      (.ContainerInspect c.DependsOn.ID none) })) := by
  have hstart : c.Start env w = c.pollHealthy env (min (env.healthTicks w.trace) 30) w := by
    simp only [DependantContainer.Start, hc]
  refine ⟨hstart, ?_, ?_, ?_⟩
  · intro w0
    simp [DependantContainer.pollHealthy]
  · intro ticks w0 container health hi hh
    refine ⟨?_, ?_, ?_⟩
    · intro hs
      cases hst : env.containerStart (w0.trace ++ [.ContainerInspect c.DependsOn.ID none])
          c.Data.ID with
      | none =>
        simp [DependantContainer.pollHealthy, hi, hh, hs, errOf, DependantContainer.issueStart,
          World.log, hst]
      | some e =>
        simp [DependantContainer.pollHealthy, hi, hh, hs, errOf, DependantContainer.issueStart,
          World.log, hst]
    · intro hs
      have h1 : health.Status ≠ "none" := by rw [hs]; decide
      have h2 : health.Status ≠ "healthy" := by rw [hs]; decide
      simp [DependantContainer.pollHealthy, hi, hh, hs, errOf, h1, h2]
    · intro h1 h2 h3
      rw [DependantContainer.pollHealthy]
      simp [hi, hh, h1, h2, h3, errOf]
  · intro hpoll
    rw [hstart, pollHealthy_undecided env c hpoll]

/-- Claim C14 on the fleet: `/web` reported healthy lets `/worker` start, reported
unhealthy it is not started, and reported `starting` throughout, the thirty polls end with
the timeout warning. -/
theorem DependantContainer_Start_healthy_witness :
    healthyWorker.DependencyType = .DEPENDENCY_HEALTHY ∧
    healthyWorker.Start (healthEnv "healthy") emptyWorld =
      (.ok (), { emptyWorld with
                 trace := [.ContainerInspect "c1" none, .ContainerStart "c2" none] }) ∧
    healthyWorker.Start (healthEnv "unhealthy") emptyWorld =
      (.err (.other "failed to start container /worker because /web became unhealthy"),
       { emptyWorld with trace := [.ContainerInspect "c1" none] }) ∧
    healthyWorker.Start (healthEnv "starting") emptyWorld =
      (.err (.other ("timed out starting container /worker due to /web not starting or " ++
          "becoming healthy in a reasonable amount of time")),
       { emptyWorld with trace := List.replicate 30 (.ContainerInspect "c1" none) }) :=
  ⟨rfl, by decide, by decide,
    (DependantContainer_Start_healthy (healthEnv "starting") healthyWorker emptyWorld rfl).2.2.2
      (fun _ => ⟨_, _, rfl, rfl, by decide, by decide, by decide⟩)⟩

/-! ## The start of a recreated container -/

/-- Claim C15.  `Container.Start` calls `ContainerStart` at most three times.  If the first
call succeeds it returns nil after that call; if it fails it sleeps one second and calls
again; if the second fails it sleeps one second and calls a third time; after the third
call there is no sleep.  It returns an error exactly when all three calls fail, and that
error wraps the third failure. -/
theorem Container_Start_attempts (env : Env) (c : Container) (w : World) :
    (env.containerStart w.trace c.ID = none →
      c.Start env w = (none, w.log (.ContainerStart c.ID none))) ∧
    (∀ e1, env.containerStart w.trace c.ID = some e1 →
      (env.containerStart (w.trace ++ [.ContainerStart c.ID (some e1), .Sleep 1]) c.ID = none →
        c.Start env w =
          (none, { w with
                   trace := w.trace ++ [.ContainerStart c.ID (some e1), .Sleep 1,
                     .ContainerStart c.ID none] })) ∧
      (∀ e2, env.containerStart (w.trace ++ [.ContainerStart c.ID (some e1), .Sleep 1]) c.ID
          = some e2 →
        (env.containerStart (w.trace ++ [.ContainerStart c.ID (some e1), .Sleep 1,
            .ContainerStart c.ID (some e2), .Sleep 1]) c.ID = none →
          c.Start env w =
            (none, { w with
                     trace := w.trace ++ [.ContainerStart c.ID (some e1), .Sleep 1,
                       .ContainerStart c.ID (some e2), .Sleep 1,
                       .ContainerStart c.ID none] })) ∧
        (∀ e3, env.containerStart (w.trace ++ [.ContainerStart c.ID (some e1), .Sleep 1,
            .ContainerStart c.ID (some e2), .Sleep 1]) c.ID = some e3 →
          c.Start env w =
            (some (.wrap ("failed to start container " ++ c.Name) e3),
             { w with
               trace := w.trace ++ [.ContainerStart c.ID (some e1), .Sleep 1,
                 .ContainerStart c.ID (some e2), .Sleep 1,
                 .ContainerStart c.ID (some e3)] })))) ∧
    ((c.Start env w).1 ≠ none ↔
      ∃ e1 e2 e3, env.containerStart w.trace c.ID = some e1 ∧
        env.containerStart (w.trace ++ [.ContainerStart c.ID (some e1), .Sleep 1]) c.ID
          = some e2 ∧
        env.containerStart (w.trace ++ [.ContainerStart c.ID (some e1), .Sleep 1,
          .ContainerStart c.ID (some e2), .Sleep 1]) c.ID = some e3) ∧
    (stopsAndStarts ((c.Start env w).2.trace.drop w.trace.length)).length ≤ 3 := by
  have ha : env.containerStart w.trace c.ID = none →
      c.Start env w = (none, w.log (.ContainerStart c.ID none)) := by
    intro h1
    simp [Container.Start, Container.startLoop, h1]
  have hb : ∀ e1, env.containerStart w.trace c.ID = some e1 →
      env.containerStart (w.trace ++ [.ContainerStart c.ID (some e1), .Sleep 1]) c.ID = none →
      c.Start env w =
        (none, { w with
                 trace := w.trace ++ [.ContainerStart c.ID (some e1), .Sleep 1,
                   .ContainerStart c.ID none] }) := by
    intro e1 h1 h2
    simp [Container.Start, Container.startLoop, h1, World.log, h2]
  have hc : ∀ e1 e2, env.containerStart w.trace c.ID = some e1 →
      env.containerStart (w.trace ++ [.ContainerStart c.ID (some e1), .Sleep 1]) c.ID
        = some e2 →
      env.containerStart (w.trace ++ [.ContainerStart c.ID (some e1), .Sleep 1,
        .ContainerStart c.ID (some e2), .Sleep 1]) c.ID = none →
      c.Start env w =
        (none, { w with
                 trace := w.trace ++ [.ContainerStart c.ID (some e1), .Sleep 1,
                   .ContainerStart c.ID (some e2), .Sleep 1,
                   .ContainerStart c.ID none] }) := by
    intro e1 e2 h1 h2 h3
    simp [Container.Start, Container.startLoop, h1, World.log, h2, h3]
  have hd : ∀ e1 e2 e3, env.containerStart w.trace c.ID = some e1 →
      env.containerStart (w.trace ++ [.ContainerStart c.ID (some e1), .Sleep 1]) c.ID
        = some e2 →
      env.containerStart (w.trace ++ [.ContainerStart c.ID (some e1), .Sleep 1,
        .ContainerStart c.ID (some e2), .Sleep 1]) c.ID = some e3 →
      c.Start env w =
        (some (.wrap ("failed to start container " ++ c.Name) e3),
         { w with
           trace := w.trace ++ [.ContainerStart c.ID (some e1), .Sleep 1,
             .ContainerStart c.ID (some e2), .Sleep 1,
             .ContainerStart c.ID (some e3)] }) := by
    intro e1 e2 e3 h1 h2 h3
    simp [Container.Start, Container.startLoop, h1, World.log, h2, h3]
  refine ⟨ha, fun e1 h1 => ⟨hb e1 h1, fun e2 h2 => ⟨hc e1 e2 h1 h2, fun e3 => hd e1 e2 e3 h1 h2⟩⟩, ?_, ?_⟩
  · cases h1 : env.containerStart w.trace c.ID with
    | none => simp [ha h1]
    | some e1 =>
      cases h2 : env.containerStart (w.trace ++ [.ContainerStart c.ID (some e1), .Sleep 1])
          c.ID with
      | none => simp [hb e1 h1 h2, h2]
      | some e2 =>
        cases h3 : env.containerStart (w.trace ++ [.ContainerStart c.ID (some e1), .Sleep 1,
            .ContainerStart c.ID (some e2), .Sleep 1]) c.ID with
        | none => simp [hc e1 e2 h1 h2 h3, h2, h3]
        | some e3 => simp [hd e1 e2 e3 h1 h2 h3, h2, h3]
  · cases h1 : env.containerStart w.trace c.ID with
    | none => simp [ha h1, World.log, stopsAndStarts]
    | some e1 =>
      cases h2 : env.containerStart (w.trace ++ [.ContainerStart c.ID (some e1), .Sleep 1])
          c.ID with
      | none => simp [hb e1 h1 h2, stopsAndStarts]
      | some e2 =>
        cases h3 : env.containerStart (w.trace ++ [.ContainerStart c.ID (some e1), .Sleep 1,
            .ContainerStart c.ID (some e2), .Sleep 1]) c.ID with
        | none => simp [hc e1 e2 h1 h2 h3, stopsAndStarts]
        | some e3 => simp [hd e1 e2 e3 h1 h2 h3, stopsAndStarts]

/-- Claim C15 on the fleet: with two failing starts the third succeeds and nil is
returned; with three the error of the third is wrapped and nothing follows it. -/
theorem Container_Start_attempts_witness :
    webContainer.Start (flakyEnv 2) emptyWorld =
      (none, { emptyWorld with
               trace := [.ContainerStart "c1" (some (.other "shim task failed, attempt 1")),
                 .Sleep 1,
                 .ContainerStart "c1" (some (.other "shim task failed, attempt 2")),
                 .Sleep 1,
                 .ContainerStart "c1" none] }) ∧
    webContainer.Start (flakyEnv 3) emptyWorld =
      (some (.wrap "failed to start container /web" (.other "shim task failed, attempt 3")),
       { emptyWorld with
         trace := [.ContainerStart "c1" (some (.other "shim task failed, attempt 1")),
           .Sleep 1,
           .ContainerStart "c1" (some (.other "shim task failed, attempt 2")),
           .Sleep 1,
           .ContainerStart "c1" (some (.other "shim task failed, attempt 3"))] }) :=
  ⟨(((Container_Start_attempts (flakyEnv 2) webContainer emptyWorld).2.1
      (.other "shim task failed, attempt 1") (by decide)).2
      (.other "shim task failed, attempt 2") (by decide)).1 (by decide),
   (((Container_Start_attempts (flakyEnv 3) webContainer emptyWorld).2.1
      (.other "shim task failed, attempt 1") (by decide)).2
      (.other "shim task failed, attempt 2") (by decide)).2
      (.other "shim task failed, attempt 3") (by decide)⟩

/-! ## Failures during the scan -/

/-- A prefix of the listing that is scanned without error hands its candidates and its
world to the scan of the rest. -/
theorem scanLoop_scanned (env : Env) (app : App) (rest : List ContainerSummary) :
    ∀ (pre : List ContainerSummary) (acc : List Container) (w : World)
      (acc1 : List Container) (w1 : World),
      scanLoop env app pre acc w = (.ok acc1, w1) →
      scanLoop env app (pre ++ rest) acc w = scanLoop env app rest acc1 w1
  | [], acc, w, acc1, w1, h => by
    simp only [scanLoop, Prod.mk.injEq, Res.ok.injEq] at h
    obtain ⟨rfl, rfl⟩ := h
    rfl
  | s :: pre, acc, w, acc1, w1, h => by
    rw [List.cons_append, scanLoop]
    rw [scanLoop] at h
    split at h
    · rename_i acc2 w2 _
      exact scanLoop_scanned env app rest pre acc2 w2 acc1 w1 h
    · cases h
    · cases h

/-- Claim C16.  `FetchUpdates` returns an error (and no candidates) when the listing
fails, and when the iteration of some listed container fails after the containers before
it were scanned; an iteration fails when the inspection fails, when `container.New` fails
with an error that is not `ErrRepositoryNotTagged`, and when `IsRemotePullable` fails.
When `container.New` fails with `ErrRepositoryNotTagged`, as it does for a reference with
a digest and no tag, the iteration leaves the candidates as they are, without error, and
the scan goes on with the remaining containers. -/
theorem FetchUpdates_failures (env : Env) (app : App) (w : World) :
    (∀ e, env.containerList w.trace [] = .error e →
      FetchUpdates env app w =
        (.err (.wrap "listing containers failed" e), w.log (.ContainerList [] (some e)))) ∧
    (∀ pre s rest acc w1, env.containerList w.trace [] = .ok (pre ++ s :: rest) →
      scanLoop env app pre [] (w.log (.ContainerList [] none)) = (.ok acc, w1) →
      (∀ e w2, scanContainer env app s acc w1 = (.err e, w2) →
        FetchUpdates env app w = (.err e, w2)) ∧
      (∀ acc2 w2, scanContainer env app s acc w1 = (.ok acc2, w2) →
        FetchUpdates env app w = scanLoop env app rest acc2 w2)) ∧
    (∀ (s : ContainerSummary) (acc : List Container) (w1 : World),
      (∀ e, env.containerInspect w1.trace s.ID = .error e →
        scanContainer env app s acc w1 =
          (.err (.wrap ("inspecting container " ++ s.ID ++ " failed") e),
           w1.log (.ContainerInspect s.ID (some e)))) ∧
      (∀ ci, env.containerInspect w1.trace s.ID = .ok ci →
        (∀ e w2, New env ci app.Updater.StopTimeout app.Scanner.ImageAge
            (w1.log (.ContainerInspect s.ID none)) = (.error e, w2) →
          (e.Is .ErrRepositoryNotTagged = false →
            scanContainer env app s acc w1 =
              (.err (.wrap ("initializing container " ++ ci.Name ++ " failed") e), w2)) ∧
          (e.Is .ErrRepositoryNotTagged = true →
            scanContainer env app s acc w1 = (.ok acc, w2))) ∧
        (∀ container w2 w3 e w4, New env ci app.Updater.StopTimeout app.Scanner.ImageAge
            (w1.log (.ContainerInspect s.ID none)) = (.ok container, w2) →
          container.ShouldScan app.Scanner.ScanAll app.Scanner.ScanStopped = true →
          container.IsOutdated env w2 = (.ok true, w3) →
          IsRemotePullable env container w3 = (.err e, w4) →
          scanContainer env app s acc w1 = (.err e, w4)))) ∧
    (∀ (ci : ContainerJSON) (named : Named) (d : String) (stopTimeout minImageAge : Int)
      (w0 : World), env.parseNormalizedNamed ci.Config.Image = .ok named →
      named.Tag = none → named.Digest = some d →
      New env ci stopTimeout minImageAge w0 = (.error .ErrRepositoryNotTagged, w0)) := by
  refine ⟨?_, ?_, ?_, ?_⟩
  · intro e h
    simp [FetchUpdates, h, errOf]
  · intro pre s rest acc w1 hlist hpre
    have hfetch : FetchUpdates env app w =
        scanLoop env app (s :: rest) acc w1 := by
      simp only [FetchUpdates, hlist, errOf]
      exact scanLoop_scanned env app (s :: rest) pre [] _ acc w1 hpre
    constructor
    · intro e w2 hs
      rw [hfetch, scanLoop, hs]
    · intro acc2 w2 hs
      rw [hfetch, scanLoop, hs]
  · intro s acc w1
    constructor
    · intro e h
      simp [scanContainer, h, errOf]
    · intro ci h
      constructor
      · intro e w2 hnew
        constructor
        · intro his
          simp [scanContainer, h, errOf, hnew, his]
        · intro his
          simp [scanContainer, h, errOf, hnew, his]
      · intro container w2 w3 e w4 hnew hscan hout hpull
        simp [scanContainer, h, errOf, hnew, hscan, hout, hpull]
  · intro ci named d stopTimeout minImageAge w0 hparse htag hdig
    simp [New, hparse, TagNameOnly, asNamedTagged, htag, hdig]

/-- Claim C16 on the fleet: `/web` pinned by digest is left out and the scan still finds
`/db`; an unreachable registry makes the scan return its error. -/
theorem FetchUpdates_failures_witness :
    New pinnedEnv pinnedJSON 10 7 emptyWorld = (.error .ErrRepositoryNotTagged, emptyWorld) ∧
    (FetchUpdates pinnedEnv fleetApp emptyWorld).1 = .ok [dbContainer] ∧
    (FetchUpdates registryFailEnv fleetApp emptyWorld).1 =
      .err (.other "registry unreachable") :=
  ⟨(FetchUpdates_failures pinnedEnv fleetApp emptyWorld).2.2.2 pinnedJSON
      { Domain := "docker.io", Path := "library/nginx", Tag := none,
        Digest := some "sha256:d1" } "sha256:d1" 10 7 emptyWorld rfl rfl rfl,
   by decide, by decide⟩

/-- The failures of `IsRemotePullable`: each failing call of the row store or of the
registry makes it return an error. -/
theorem IsRemotePullable_failures (env : Env) (container : Container) (w : World) :
    (∀ e, (GetRemoteImageFromName env container.RepositoryFamiliarized w).1 = .error e →
      e.Is .ErrNoRows = false →
      (IsRemotePullable env container w).1 =
        .err (.wrap ("fetching remote image data (" ++ container.RepositoryFamiliarized ++
          ") from local database failed") e)) ∧
    (∀ remoteData created e, env.dbFault w.trace = none →
      w.rows.find? (fun r => r.name = container.RepositoryFamiliarized) = none →
      env.registry (w.trace ++ [.dbGet container.RepositoryFamiliarized (some .ErrNoRows)])
        container.Repository = .ok remoteData →
      remoteData.Created = some created →
      env.dbFault (w.trace ++ [.dbGet container.RepositoryFamiliarized (some .ErrNoRows),
        .registryFetch container.Repository none]) = some e →
      (IsRemotePullable env container w).1 =
        .err (.wrap ("writing remote image data (" ++ container.RepositoryFamiliarized ++
          ") to local database failed") e)) ∧
    (∀ dbImage, (GetRemoteImageFromName env container.RepositoryFamiliarized w).1 = .ok dbImage →
      ¬ DaysPassed (env.clock w.tick) dbImage.Created < container.MinImageAge →
      ¬ DaysPassed (env.clock (w.tick + 1)) dbImage.LastCheck < container.MinImageAge →
      (∀ e, env.registry (w.trace ++ [.dbGet container.RepositoryFamiliarized none])
          container.Repository = .error e →
        (IsRemotePullable env container w).1 = .err e) ∧
      (∀ remoteData created, env.registry
          (w.trace ++ [.dbGet container.RepositoryFamiliarized none])
          container.Repository = .ok remoteData →
        remoteData.Created = some created →
        (∀ e, env.dbFault (w.trace ++ [.dbGet container.RepositoryFamiliarized none,
            .registryFetch container.Repository none]) = some e →
          (IsRemotePullable env container w).1 =
            .err (.wrap ("writing remote image data (" ++ container.RepositoryFamiliarized ++
              ") to local database failed") e)) ∧
        (∀ e, env.dbFault (w.trace ++ [.dbGet container.RepositoryFamiliarized none,
            .registryFetch container.Repository none]) = none →
          ¬ DaysPassed (env.clock (w.tick + 2)) created < container.MinImageAge →
          env.dbFault (w.trace ++ [.dbGet container.RepositoryFamiliarized none,
            .registryFetch container.Repository none,
            .dbUpdate dbImage.RowId (env.timeFormat created) remoteData.Digest none])
            = some e →
          (IsRemotePullable env container w).1 =
            .err (.wrap ("updating remote image data (" ++
              container.RepositoryFamiliarized ++ ") in local database failed") e)))) := by
  refine ⟨?_, ?_, ?_⟩
  · intro e hget his
    have hpair : GetRemoteImageFromName env container.RepositoryFamiliarized w =
        (.error e, (GetRemoteImageFromName env container.RepositoryFamiliarized w).2) := by
      rw [← hget]
    unfold IsRemotePullable
    simp only
    rw [hpair]
    simp only [his]
    simp
  · intro remoteData created e hf hrow hreg hcr hsave
    simp [IsRemotePullable, GetRemoteImageFromName, hf, selectByName_none _ _ hrow, errOf,
      Error.Is, GetImageDataFromRegistry, World.log, hreg, hcr, SaveRemoteImage, timeNow, hsave]
  · intro dbImage hrow h1 h2
    have hget := GetRemoteImageFromName_ok env container.RepositoryFamiliarized w dbImage hrow
    refine ⟨?_, ?_⟩
    · intro e hreg
      simp [IsRemotePullable, hget, timeNow, World.log, h1, h2, GetImageDataFromRegistry, hreg]
    · intro remoteData created hreg hcr
      refine ⟨?_, ?_⟩
      · intro e hupd
        simp [IsRemotePullable, hget, timeNow, World.log, h1, h2, GetImageDataFromRegistry,
          hreg, hcr, errOf, UpdateRemoteImage, hupd]
      · intro e hupd h3 hchk
        simp [IsRemotePullable, hget, timeNow, World.log, h1, h2, GetImageDataFromRegistry,
          hreg, hcr, errOf, UpdateRemoteImage, hupd, h3, UpdateRemoteImageCheck, hchk]

/-- Claim C17, amended.  When the check of one listed container fails during the scan,
after the containers before it were scanned, the run ends there: its history is the
history of the scan up to the failure followed by the single notification
`Webhooks.Error "Unable to fetch updates"`, so no later container is checked, no
container is updated and no image error is reported.  The check of a container fails
with the error of `IsRemotePullable`, and `IsRemotePullable` fails whenever a call of the
row store or of the registry fails: the read of the cache with an error other than
`ErrNoRows`; on the first lookup the registry fetch and the save of the row; on a
recheck, once the two gates are passed, the registry fetch, the update of the row and
the update of the time of the last check. -/
theorem Run_freshness_failure (env : Env) (app : App) (w : World) :
    (∀ pre s rest acc w1 e w2, env.containerList w.trace [] = .ok (pre ++ s :: rest) →
      scanLoop env app pre [] (w.log (.ContainerList [] none)) = (.ok acc, w1) →
      scanContainer env app s acc w1 = (.err e, w2) →
      Run env app w = (.done (), w2.log (.HookError "Unable to fetch updates" e))) ∧
    (∀ (s : ContainerSummary) (acc : List Container) (w1 : World) ci container w2 w3 e w4,
      env.containerInspect w1.trace s.ID = .ok ci →
      New env ci app.Updater.StopTimeout app.Scanner.ImageAge
        (w1.log (.ContainerInspect s.ID none)) = (.ok container, w2) →
      container.ShouldScan app.Scanner.ScanAll app.Scanner.ScanStopped = true →
      container.IsOutdated env w2 = (.ok true, w3) →
      IsRemotePullable env container w3 = (.err e, w4) →
      scanContainer env app s acc w1 = (.err e, w4)) ∧
    (∀ (container : Container) (w3 : World) e, env.dbFault w3.trace = some e →
      e.Is .ErrNoRows = false →
      IsRemotePullable env container w3 =
        (.err (.wrap ("fetching remote image data (" ++ container.RepositoryFamiliarized ++
          ") from local database failed") e),
         w3.log (.dbGet container.RepositoryFamiliarized (some e)))) ∧
    (∀ (container : Container) (w3 : World) e, env.dbFault w3.trace = none →
      w3.rows.find? (fun r => r.name = container.RepositoryFamiliarized) = none →
      env.registry (w3.trace ++ [.dbGet container.RepositoryFamiliarized (some .ErrNoRows)])
        container.Repository = .error e →
      IsRemotePullable env container w3 =
        (.err e,
         { w3 with
           trace := w3.trace ++ [.dbGet container.RepositoryFamiliarized (some .ErrNoRows),
             .registryFetch container.Repository (some e)] })) ∧
    (∀ (container : Container) (w3 : World),
      (∀ e, (GetRemoteImageFromName env container.RepositoryFamiliarized w3).1 = .error e →
        e.Is .ErrNoRows = false →
        (IsRemotePullable env container w3).1 =
          .err (.wrap ("fetching remote image data (" ++ container.RepositoryFamiliarized ++
            ") from local database failed") e)) ∧
      (∀ remoteData created e, env.dbFault w3.trace = none →
        w3.rows.find? (fun r => r.name = container.RepositoryFamiliarized) = none →
        env.registry (w3.trace ++ [.dbGet container.RepositoryFamiliarized (some .ErrNoRows)])
          container.Repository = .ok remoteData →
        remoteData.Created = some created →
        env.dbFault (w3.trace ++ [.dbGet container.RepositoryFamiliarized (some .ErrNoRows),
          .registryFetch container.Repository none]) = some e →
        (IsRemotePullable env container w3).1 =
          .err (.wrap ("writing remote image data (" ++ container.RepositoryFamiliarized ++
            ") to local database failed") e)) ∧
      (∀ dbImage, (GetRemoteImageFromName env container.RepositoryFamiliarized w3).1 = .ok dbImage →
        ¬ DaysPassed (env.clock w3.tick) dbImage.Created < container.MinImageAge →
        ¬ DaysPassed (env.clock (w3.tick + 1)) dbImage.LastCheck < container.MinImageAge →
        (∀ e, env.registry (w3.trace ++ [.dbGet container.RepositoryFamiliarized none])
            container.Repository = .error e →
          (IsRemotePullable env container w3).1 = .err e) ∧
        (∀ remoteData created, env.registry
            (w3.trace ++ [.dbGet container.RepositoryFamiliarized none])
            container.Repository = .ok remoteData →
          remoteData.Created = some created →
          (∀ e, env.dbFault (w3.trace ++ [.dbGet container.RepositoryFamiliarized none,
              .registryFetch container.Repository none]) = some e →
            (IsRemotePullable env container w3).1 =
              .err (.wrap ("writing remote image data (" ++ container.RepositoryFamiliarized ++
                ") to local database failed") e)) ∧
          (∀ e, env.dbFault (w3.trace ++ [.dbGet container.RepositoryFamiliarized none,
              .registryFetch container.Repository none]) = none →
            ¬ DaysPassed (env.clock (w3.tick + 2)) created < container.MinImageAge →
            env.dbFault (w3.trace ++ [.dbGet container.RepositoryFamiliarized none,
              .registryFetch container.Repository none,
              .dbUpdate dbImage.RowId (env.timeFormat created) remoteData.Digest none])
              = some e →
            (IsRemotePullable env container w3).1 =
              .err (.wrap ("updating remote image data (" ++
                container.RepositoryFamiliarized ++ ") in local database failed") e))))) := by
  refine ⟨?_, ?_, ?_, ?_, fun container w3 => IsRemotePullable_failures env container w3⟩
  · intro pre s rest acc w1 e w2 hlist hpre hs
    have hfetch : FetchUpdates env app w = (.err e, w2) := by
      simp only [FetchUpdates, hlist, errOf]
      rw [scanLoop_scanned env app (s :: rest) pre [] _ acc w1 hpre, scanLoop, hs]
    simp only [Run, hfetch]
  · intro s acc w1 ci container w2 w3 e w4 h hnew hscan hout hpull
    simp [scanContainer, h, errOf, hnew, hscan, hout, hpull]
  · intro container w3 e hf his
    simp [IsRemotePullable, GetRemoteImageFromName, hf, his, errOf]
  · intro container w3 e hf hrow hreg
    simp [IsRemotePullable, GetRemoteImageFromName, hf, selectByName_none _ _ hrow, errOf,
      Error.Is, GetImageDataFromRegistry, World.log, hreg]

/-- Claim C17 as stated fails.  The registry cannot be reached for the image of `/web`:
the run ends with the general error notification; `/db`, which the scan would have found
outdated, is neither inspected nor updated, and no image error is reported. -/
theorem Run_freshness_failure_counterexample :
    (Run registryFailEnv fleetApp emptyWorld).2.trace =
      [.ContainerList [] none, .ContainerInspect "c1" none, .ImageInspect "sha256:img1" none,
       .dbGet "nginx:latest" (some .ErrNoRows),
       .registryFetch nginxRef (some (.other "registry unreachable")),
       .HookError "Unable to fetch updates" (.other "registry unreachable")] ∧
    (scanLoop registryFailEnv fleetApp [dbSummary] [] emptyWorld).1 = .ok [dbContainer] := by
  decide

/-- Claim C17, amended, on the fleet with the registry out of reach for the image of
`/web`, the first container of the listing; and on the fleet whose row store fails when
the row of the first lookup is saved: the check of `/web` returns the error of the save
and the run ends with the general error notification. -/
theorem Run_freshness_failure_witness :
    registryFailEnv.containerList emptyWorld.trace [] =
      .ok ([] ++ webSummary :: [workerSummary, dbSummary]) ∧
    scanContainer registryFailEnv fleetApp webSummary []
        (emptyWorld.log (.ContainerList [] none)) =
      (.err (.other "registry unreachable"),
       { tick := 1, rows := [],
         trace := [.ContainerList [] none, .ContainerInspect "c1" none,
           .ImageInspect "sha256:img1" none, .dbGet "nginx:latest" (some .ErrNoRows),
           .registryFetch nginxRef (some (.other "registry unreachable"))] }) ∧
    Run registryFailEnv fleetApp emptyWorld =
      (.done (),
       { tick := 1, rows := [],
         trace := [.ContainerList [] none, .ContainerInspect "c1" none,
           .ImageInspect "sha256:img1" none, .dbGet "nginx:latest" (some .ErrNoRows),
           .registryFetch nginxRef (some (.other "registry unreachable")),
           .HookError "Unable to fetch updates" (.other "registry unreachable")] }) ∧
    (IsRemotePullable saveFailEnv webContainer emptyWorld).1 =
      .err (.wrap "writing remote image data (nginx:latest) to local database failed"
        (.other "database is locked")) ∧
    (Run saveFailEnv fleetApp emptyWorld).2.trace.getLast? =
      some (.HookError "Unable to fetch updates"
        (.wrap "writing remote image data (nginx:latest) to local database failed"
          (.other "database is locked"))) :=
  ⟨rfl, by decide,
   (Run_freshness_failure registryFailEnv fleetApp emptyWorld).1 [] webSummary
     [workerSummary, dbSummary] [] (emptyWorld.log (.ContainerList [] none))
     (.other "registry unreachable")
     { tick := 1, rows := [],
       trace := [.ContainerList [] none, .ContainerInspect "c1" none,
         .ImageInspect "sha256:img1" none, .dbGet "nginx:latest" (some .ErrNoRows),
         .registryFetch nginxRef (some (.other "registry unreachable"))] }
     rfl rfl (by decide),
   ((Run_freshness_failure saveFailEnv fleetApp emptyWorld).2.2.2.2 webContainer
     emptyWorld).2.1 _ (day 10) (.other "database is locked") rfl rfl rfl rfl rfl,
   by decide⟩

/-! ## Removal of the images that are no more in use -/

/-- The calls of `ImageRemove` of a concatenation of histories. -/
theorem removeCalls_append (xs ys : List Event) :
    removeCalls (xs ++ ys) = removeCalls xs ++ removeCalls ys := by
  induction xs with
  | nil => rfl
  | cons x xs ih => cases x <;> simp [removeCalls, ih]

/-- The removal failures notified in a concatenation of histories. -/
theorem removalFailures_append (xs ys : List Event) :
    removalFailures (xs ++ ys) = removalFailures xs ++ removalFailures ys := by
  induction xs with
  | nil => rfl
  | cons x xs ih => cases x <;> simp [removalFailures, ih]

/-- The loop of `RemoveUnusedImages`: it calls `ImageRemove`, with force, for the images
that no listed container uses, in order; it counts the calls that succeed, notifies the
calls that fail and does nothing else. -/
theorem removeLoop_calls (env : Env) (containers : List ContainerSummary) :
    ∀ (images : List ImageData) (count : Nat) (w : World),
      ∃ evs, (removeLoop env containers images count w).2.trace = w.trace ++ evs ∧
        (removeCalls evs).map (fun call => (call.1, call.2.1)) =
          (images.filter (fun image => !containers.any
            (fun container => IdEncoded container.ImageID = IdEncoded image.ID))).map
            (fun image => (image.ID, true)) ∧
        (removeLoop env containers images count w).1 =
          count + ((removeCalls evs).filter (fun call => call.2.2.isNone)).length ∧
        (removalFailures evs).map (fun failure => (failure.1.ID, some failure.2)) =
          ((removeCalls evs).filter (fun call => call.2.2.isSome)).map
            (fun call => (call.1, call.2.2)) ∧
        evs.all Event.isRemoval = true
  | [], count, w => ⟨[], by simp [removeLoop, removeCalls, removalFailures]⟩
  | image :: rest, count, w => by
    rw [removeLoop]
    by_cases hused : (!containers.any
        (fun container => IdEncoded container.ImageID = IdEncoded image.ID)) = true
    · simp only [hused, if_true]
      cases hres : env.imageRemove w.trace image.ID true with
      | none =>
        obtain ⟨evs, h1, h2, h3, h4, h5⟩ := removeLoop_calls env containers rest (count + 1)
          (w.log (.ImageRemove image.ID true none))
        refine ⟨.ImageRemove image.ID true none :: evs, ?_, ?_, ?_, ?_, ?_⟩
        · rw [h1]; simp [World.log]
        · simp [removeCalls, List.filter_cons, hused, h2]
        · simp only [h3]; simp [removeCalls, List.filter_cons]; omega
        · simp [removeCalls, removalFailures, List.filter_cons, h4]
        · simp [Event.isRemoval, h5]
      | some err =>
        obtain ⟨evs, h1, h2, h3, h4, h5⟩ := removeLoop_calls env containers rest count
          ((w.log (.ImageRemove image.ID true (some err))).log
            (.HookImageRemovalFailed image err))
        refine ⟨.ImageRemove image.ID true (some err) :: .HookImageRemovalFailed image err ::
          evs, ?_, ?_, ?_, ?_, ?_⟩
        · rw [h1]; simp [World.log]
        · simp [removeCalls, List.filter_cons, hused, h2]
        · simp only [h3]; simp [removeCalls, List.filter_cons]
        · simp [removeCalls, removalFailures, List.filter_cons, h4]
        · simp [Event.isRemoval, h5]
    · simp only [hused]
      obtain ⟨evs, h1, h2, h3, h4, h5⟩ := removeLoop_calls env containers rest count w
      exact ⟨evs, h1, by simp [List.filter_cons, hused, h2], h3, h4, h5⟩

/-- The first field of a split is the text before the first separator. -/
theorem splitChars_head (sep : Char) :
    ∀ (l cur : List Char), (splitChars sep l cur).headD "" =
      String.mk (cur.reverse ++ l.takeWhile (fun c => c ≠ sep))
  | [], cur => by simp [splitChars]
  | c :: cs, cur => by
    by_cases hc : c = sep
    · simp [splitChars, hc]
    · rw [splitChars]
      simp only [hc, if_false]
      rw [splitChars_head sep cs (c :: cur)]
      simp [List.takeWhile, hc]

/-- A text without a separator is read whole by `takeWhile`. -/
theorem takeWhile_of_count_zero (sep : Char) :
    ∀ l : List Char, l.count sep = 0 → l.takeWhile (fun c => c ≠ sep) = l
  | [], _ => rfl
  | c :: cs, h => by
    by_cases hc : c = sep
    · subst hc; simp at h
    · have hcs : cs.count sep = 0 := by
        rw [List.count_cons] at h
        omega
      have ih := takeWhile_of_count_zero sep cs hcs
      rw [List.takeWhile_cons, ih]
      simp [hc]

/-- On characters with at most one colon, the second field of the split is the text
after the colon. -/
theorem encoded_strip_chars (fallback : String) :
    ∀ (l cur : List Char), l.count ':' ≤ 1 →
      (if containsChars l [':'] then (splitChars ':' l cur).getD 1 "" else fallback) =
        (match l.dropWhile (fun c => c ≠ ':') with
         | [] => fallback
         | _ :: rest => String.mk rest)
  | [], cur, _ => by simp [containsChars]
  | c :: cs, cur, h => by
    by_cases hc : c = ':'
    · subst hc
      have hcs : cs.count ':' = 0 := by
        rw [List.count_cons] at h
        simp at h
        exact h
      have hhead := splitChars_head ':' cs []
      rw [takeWhile_of_count_zero ':' cs hcs] at hhead
      simp only [List.reverse_nil, List.nil_append] at hhead
      cases hsp : splitChars ':' cs [] with
      | nil => 
        rw [hsp] at hhead
        simp [containsChars, splitChars, List.isPrefixOf, hsp, List.dropWhile]
        simpa using hhead
      | cons x xs =>
        rw [hsp] at hhead
        simp [containsChars, splitChars, List.isPrefixOf, hsp, List.dropWhile]
        simpa using hhead
    · have hcs : cs.count ':' ≤ 1 := by
        rw [List.count_cons] at h
        omega
      have ih := encoded_strip_chars fallback cs (c :: cur) hcs
      have hne : (':' == c) = false := by
        simp; exact fun h => hc h.symm
      simp only [containsChars, List.isPrefixOf, hne, Bool.false_and, Bool.false_or, splitChars,
        hc, if_false]
      rw [ih]
      simp [List.dropWhile, hc]

/-- On an id with at most one colon, `IdEncoded` strips the `algorithm:` prefix. -/
theorem IdEncoded_strip (id : String) (h : id.data.count ':' ≤ 1) :
    IdEncoded id = stripAlgorithm id := by
  unfold IdEncoded stripAlgorithm Contains Split
  exact encoded_strip_chars id id.data [] h

/-- Claim C18.  When the listing of the containers succeeds, `RemoveUnusedImages` calls
`ImageRemove`, with force, for exactly the given images whose `IdEncoded` id is the
`IdEncoded` image id of no listed container, in the order given, whatever the outcome of
the earlier removals; each failed removal is notified by `ImageRemovalFailed`; nothing else
is done; the count returned is the number of removals that succeeded.  On an id with at
most one colon, `IdEncoded` is the id with its `algorithm:` prefix stripped. -/
theorem RemoveUnusedImages_calls (env : Env) (images : List ImageData) (w : World)
    (containers : List ContainerSummary)
    (hlist : env.containerList w.trace [] = .ok containers) :
    (∃ evs, (RemoveUnusedImages env images w).2.trace =
        w.trace ++ .ContainerList [] none :: evs ∧
      (removeCalls evs).map (fun call => (call.1, call.2.1)) =
        (images.filter (fun image => !containers.any
          (fun container => IdEncoded container.ImageID = IdEncoded image.ID))).map
          (fun image => (image.ID, true)) ∧
      (RemoveUnusedImages env images w).1 =
        ((removeCalls evs).filter (fun call => call.2.2.isNone)).length ∧
      (removalFailures evs).map (fun failure => (failure.1.ID, some failure.2)) =
        ((removeCalls evs).filter (fun call => call.2.2.isSome)).map
          (fun call => (call.1, call.2.2)) ∧
      evs.all Event.isRemoval = true) ∧
    (∀ id : String, id.data.count ':' ≤ 1 → IdEncoded id = stripAlgorithm id) := by
  refine ⟨?_, IdEncoded_strip⟩
  obtain ⟨evs, h1, h2, h3, h4, h5⟩ :=
    removeLoop_calls env containers images 0 (w.log (.ContainerList [] none))
  refine ⟨evs, ?_, ?_, ?_, h4, h5⟩
  · simp only [RemoveUnusedImages, hlist, errOf, h1]
    simp [World.log]
  · exact h2
  · simp only [RemoveUnusedImages, hlist, errOf, h3]
    simp

/-- Claim C18 on the fleet: of three images, the one in use is kept, the removal of the
first fails and is notified, the removal of the last succeeds, and the count is 1. -/
theorem RemoveUnusedImages_calls_witness :
    removeFailEnv.containerList emptyWorld.trace [] =
      .ok [webSummary, workerSummary, dbSummary] ∧
    RemoveUnusedImages removeFailEnv [lockedImage, nginxImage, orphanImage] emptyWorld =
      (1, { emptyWorld with
            trace := [.ContainerList [] none,
              .ImageRemove "sha256:img8" true (some (.other "image is being used")),
              .HookImageRemovalFailed lockedImage (.other "image is being used"),
              .ImageRemove "sha256:img9" true none] }) ∧
    IdEncoded "sha256:img9" = stripAlgorithm "sha256:img9" ∧
    ∃ evs, (RemoveUnusedImages removeFailEnv [lockedImage, nginxImage, orphanImage]
          emptyWorld).2.trace = emptyWorld.trace ++ .ContainerList [] none :: evs ∧
      (removeCalls evs).map (fun call => (call.1, call.2.1)) =
        ([lockedImage, nginxImage, orphanImage].filter
          (fun image => !(List.any [webSummary, workerSummary, dbSummary]
            (fun container => IdEncoded container.ImageID = IdEncoded image.ID)))).map
          (fun image => (image.ID, true)) ∧
      (RemoveUnusedImages removeFailEnv [lockedImage, nginxImage, orphanImage] emptyWorld).1 =
        ((removeCalls evs).filter (fun call => call.2.2.isNone)).length ∧
      (removalFailures evs).map (fun failure => (failure.1.ID, some failure.2)) =
        ((removeCalls evs).filter (fun call => call.2.2.isSome)).map
          (fun call => (call.1, call.2.2)) ∧
      evs.all Event.isRemoval = true :=
  ⟨rfl, by decide,
   (RemoveUnusedImages_calls removeFailEnv [lockedImage, nginxImage, orphanImage] emptyWorld
     [webSummary, workerSummary, dbSummary] rfl).2 "sha256:img9" (by decide),
   (RemoveUnusedImages_calls removeFailEnv [lockedImage, nginxImage, orphanImage] emptyWorld
     [webSummary, workerSummary, dbSummary] rfl).1⟩


/-! ## Accounting of the update loop -/

/-- The notifications `ContainerUpdated` of a concatenation of histories. -/
theorem updatedNotices_append : ∀ (a b : List Event),
    updatedNotices (a ++ b) = updatedNotices a ++ updatedNotices b
  | [], b => rfl
  | e :: a, b => by
    have ih := updatedNotices_append a b
    cases e <;> simp [updatedNotices, ih]

/-- The notifications `ContainerError` of a concatenation of histories. -/
theorem failedNotices_append : ∀ (a b : List Event),
    failedNotices (a ++ b) = failedNotices a ++ failedNotices b
  | [], b => rfl
  | e :: a, b => by
    have ih := failedNotices_append a b
    cases e <;> simp [failedNotices, ih]

/-- An unchanged history carries no notification. -/
theorem Notices.unchanged (w : World) : Notices w w [] [] := ⟨[], by simp, rfl, rfl⟩

/-- The notifications of two successive extensions of a history. -/
theorem Notices.append {a b c : World} {u1 u2 : List (Container × Container × List String)}
    {f1 f2 : List Container} (h1 : Notices a b u1 f1) (h2 : Notices b c u2 f2) :
    Notices a c (u1 ++ u2) (f1 ++ f2) := by
  obtain ⟨e1, h11, h12, h13⟩ := h1
  obtain ⟨e2, h21, h22, h23⟩ := h2
  exact ⟨e1 ++ e2, by simp [h21, h11], by rw [updatedNotices_append, h12, h22],
    by rw [failedNotices_append, h13, h23]⟩

/-- The notifications of one logged event. -/
theorem Notices.logged (w : World) (e : Event) :
    Notices w (w.log e) (updatedNotices [e]) (failedNotices [e]) :=
  ⟨[e], rfl, rfl, rfl⟩

/-- Logging an event that is no notification adds none. -/
theorem Notices.silent {a b : World} (h : Notices a b [] []) (e : Event)
    (hu : updatedNotices [e] = []) (hf : failedNotices [e] = []) :
    Notices a (b.log e) [] [] := by
  have h2 := h.append (Notices.logged b e)
  rw [hu, hf] at h2
  exact h2

/-- Stopping the dependents notifies nothing about the candidate. -/
theorem DependantContainers_Stop_notices (env : Env) :
    ∀ (deps : List DependantContainer) (w : World),
      Notices w (DependantContainers.Stop env deps w).2 [] []
  | [], w => Notices.unchanged w
  | d :: rest, w => by
    have ih := DependantContainers_Stop_notices env rest
      (w.log (.ContainerStop d.Data.ID d.StopTimeout
        (env.containerStop w.trace d.Data.ID d.StopTimeout)))
    have h := ((Notices.unchanged w).silent (.ContainerStop d.Data.ID d.StopTimeout
        (env.containerStop w.trace d.Data.ID d.StopTimeout)) rfl rfl).append ih
    simp only [DependantContainers.Stop, DependantContainer.Stop]
    cases hres : env.containerStop w.trace d.Data.ID d.StopTimeout <;>
      simp only [hres] at h ⊢ <;> simpa using h

/-- The reconnection loop notifies nothing about the candidate. -/
theorem connectNetworks_notices (env : Env) (newId : String)
    (single : List (String × EndpointSettings)) :
    ∀ (l : List (String × EndpointSettings)) (ws : List String) (w : World),
      Notices w (connectNetworks env newId single l ws w).2 [] []
  | [], ws, w => Notices.unchanged w
  | (netName, netSettings) :: rest, ws, w => by
    rw [connectNetworks]
    split
    · exact connectNetworks_notices env newId single rest ws w
    · cases hres : env.networkConnect w.trace netName newId netSettings with
      | none =>
        exact ((Notices.unchanged w).silent (.NetworkConnect netName newId netSettings none)
          rfl rfl).append (connectNetworks_notices env newId single rest _ _)
      | some err =>
        exact ((Notices.unchanged w).silent (.NetworkConnect netName newId netSettings (some err))
          rfl rfl).append (connectNetworks_notices env newId single rest _ _)

/-- The construction of a container record notifies nothing. -/
theorem New_notices (env : Env) (data : ContainerJSON) (a b : Int) (w : World) :
    Notices w (New env data a b w).2 [] [] := by
  unfold New
  split
  · exact Notices.unchanged w
  · split
    · exact Notices.unchanged w
    · simp only
      split
      · exact (Notices.unchanged w).silent _ rfl rfl
      · split <;> exact (Notices.unchanged w).silent _ rfl rfl

/-- The attempts to start a container notify nothing. -/
theorem startLoop_notices (env : Env) (c : Container) :
    ∀ (remaining : Nat) (w : World), Notices w (c.startLoop env remaining w).2 [] []
  | 0, w => Notices.unchanged w
  | remaining + 1, w => by
    rw [Container.startLoop]
    cases hres : env.containerStart w.trace c.ID with
    | none => exact (Notices.unchanged w).silent (.ContainerStart c.ID none) rfl rfl
    | some err =>
      by_cases hrem : remaining = 0
      · simp only [hrem, if_true]
        exact (Notices.unchanged w).silent (.ContainerStart c.ID (some err)) rfl rfl
      · simp only [hrem, if_false]
        exact (((Notices.unchanged w).silent (.ContainerStart c.ID (some err)) rfl rfl).silent
          (.Sleep 1) rfl rfl).append (startLoop_notices env c remaining _)

/-- The stop of a container notifies nothing. -/
theorem Container_Stop_notices (env : Env) (c : Container) (w : World) :
    Notices w (c.Stop env w).2 [] [] := by
  unfold Container.Stop
  simp only
  split <;> exact (Notices.unchanged w).silent _ (by rfl) (by rfl)

/-- The resolution of the dependents notifies nothing. -/
theorem GetDependingContainers_notices (env : Env) (app : App) (d : ContainerJSON)
    (w : World) : Notices w (GetDependingContainers env app d w).2 [] [] := by
  rw [GetDependingContainers_world]
  exact (Notices.unchanged w).silent _ (by rfl) (by rfl)

/-- The stop block notifies the error of the candidate exactly when it leaves by `continue`. -/
theorem stopBlock_notices (env : Env) (app : App) (c : Container) (ws : List String)
    (w : World) :
    ∃ f, Notices w (stopBlock env app c ws w).2 [] f ∧
      ((stopBlock env app c ws w).1 = .skip → f = [c]) ∧
      ((stopBlock env app c ws w).1 ≠ .skip → f = []) := by
  have hg := GetDependingContainers_notices env app c.Raw w
  unfold stopBlock
  split
  · split
    · rename_i heq
      rw [heq] at hg
      exact ⟨[], hg, by simp, by simp⟩
    · rename_i heq
      rw [heq] at hg
      exact ⟨[c], by simpa using hg.append (Notices.logged _ (.HookContainerError c
        "Unable to fetch depending containers" _)), by simp, by simp⟩
    · rename_i deps w1 heq
      rw [heq] at hg
      have hd := hg.append (DependantContainers_Stop_notices env deps w1)
      have hs := hd.append (Container_Stop_notices env c (DependantContainers.Stop env deps w1).2)
      simp only
      split
      · rename_i err w3 hstop
        rw [hstop] at hs
        exact ⟨[c], by simpa using hs.append (Notices.logged _ (.HookContainerError c
          "Unable to stop container" err)), by simp, by simp⟩
      · rename_i w3 hstop
        rw [hstop] at hs
        exact ⟨[], by simpa using hs, by simp, by simp⟩
  · exact ⟨[], Notices.unchanged w, by simp, by simp⟩

/-- The removal and the creation notify the error of the candidate exactly when one of them
fails; they never panic. -/
theorem recreate_notices (env : Env) (app : App) (c : Container)
    (single : List (String × EndpointSettings)) (ws : List String) (w : World) :
    ∃ f, Notices w (recreate env app c single ws w).2 [] f ∧
      ((recreate env app c single ws w).1 = .skip → f = [c]) ∧
      ((recreate env app c single ws w).1 ≠ .skip → f = []) ∧
      ∀ msg, (recreate env app c single ws w).1 ≠ .panic msg := by
  cases hrem : env.containerRemove w.trace c.ID true app.Updater.RemoveVolumes with
  | some err =>
    refine ⟨[c], ?_, ?_, ?_, ?_⟩ <;> simp only [recreate, hrem]
    · exact ((Notices.unchanged w).silent (.ContainerRemove c.ID true
        app.Updater.RemoveVolumes (some err)) rfl rfl).append (Notices.logged _
        (.HookContainerError c "Unable to remove container" err))
    · simp
    · simp
    · simp
  | none =>
    cases hcr : env.containerCreate
        (w.log (.ContainerRemove c.ID true app.Updater.RemoveVolumes none)).trace
        c.Raw.Config c.Raw.HostConfig single c.Raw.Name with
    | error err =>
      refine ⟨[c], ?_, ?_, ?_, ?_⟩ <;> simp only [recreate, hrem, hcr, errOf]
      · exact (((Notices.unchanged w).silent (.ContainerRemove c.ID true
          app.Updater.RemoveVolumes none) rfl rfl).silent (.ContainerCreate c.Raw.Config
          c.Raw.HostConfig single c.Raw.Name (some err)) rfl rfl).append (Notices.logged _
          (.HookContainerError c "Unable to create container" err))
      · simp
      · simp
      · simp
    | ok response =>
      refine ⟨[], ?_, ?_, ?_, ?_⟩ <;> simp only [recreate, hrem, hcr, errOf]
      · exact ((Notices.unchanged w).silent (.ContainerRemove c.ID true
          app.Updater.RemoveVolumes none) rfl rfl).silent (.ContainerCreate c.Raw.Config
          c.Raw.HostConfig single c.Raw.Name none) rfl rfl
      · simp
      · simp
      · simp

/-- The reconnection of the networks notifies nothing. -/
theorem reconnect_notices (env : Env) (c : Container)
    (single : List (String × EndpointSettings)) (newId : String) (ws : List String)
    (w : World) : Notices w (reconnect env c single newId ws w).2 [] [] := by
  unfold reconnect
  split
  · exact connectNetworks_notices env newId single _ ws w
  · exact Notices.unchanged w

/-- The last part of the recreate sequence, with no dependent to start: either it fails,
keeps the loop variables and notifies the error, or it succeeds, counts the update, adds
the old image and notifies the update with the warnings it was given; it succeeds only
when the new container was inspected and initialised and, if the candidate was running,
started. -/
theorem restart_notices (env : Env) (app : App) (c : Container) (sr : Bool) (newId : String)
    (ws : List String) (batch : Batch) (w : World) :
    ∃ u f, Notices w (restart env app c sr [] newId ws batch w).2 u f ∧
      (((restart env app c sr [] newId ws batch w).1 = .done batch ∧ u = [] ∧ f = [c]) ∨
       (∃ newContainer, (restart env app c sr [] newId ws batch w).1 =
          .done { successCount := batch.successCount + 1,
                  imgToRemove := batch.imgToRemove.Add c.Image } ∧
          u = [(c, newContainer, ws)] ∧ f = [] ∧
          ∃ newData w2, env.containerInspect w.trace newId = .ok newData ∧
            New env newData app.Updater.StopTimeout app.Scanner.ImageAge
              (w.log (.ContainerInspect newId none)) = (.ok newContainer, w2) ∧
            (sr = true → ∃ w3, newContainer.Start env w2 = (none, w3)))) := by
  cases hins : env.containerInspect w.trace newId with
  | error err =>
    have hi : Notices w (w.log (.ContainerInspect newId (some err))) [] [] :=
      (Notices.unchanged w).silent _ (by rfl) (by rfl)
    have hres : restart env app c sr [] newId ws batch w = (.done batch,
        (w.log (.ContainerInspect newId (some err))).log
          (.HookContainerError c "Unable to inspect container" err)) := by
      simp only [restart, hins, errOf]
    rw [hres]
    exact ⟨[], [c], by simpa using hi.append (Notices.logged _
      (.HookContainerError c "Unable to inspect container" err)), Or.inl ⟨rfl, rfl, rfl⟩⟩
  | ok newData =>
    have hi : Notices w (w.log (.ContainerInspect newId none)) [] [] :=
      (Notices.unchanged w).silent _ (by rfl) (by rfl)
    have hn := hi.append (New_notices env newData app.Updater.StopTimeout app.Scanner.ImageAge _)
    cases hnew : New env newData app.Updater.StopTimeout app.Scanner.ImageAge
        (w.log (.ContainerInspect newId none)) with
    | mk r w2 =>
      rw [hnew] at hn
      cases r with
      | error err =>
        have hres : restart env app c sr [] newId ws batch w = (.done batch,
            w2.log (.HookContainerError c "Unable to initialize container" err)) := by
          simp only [restart, hins, errOf, hnew]
        rw [hres]
        exact ⟨[], [c], by simpa using hn.append (Notices.logged _
          (.HookContainerError c "Unable to initialize container" err)), Or.inl ⟨rfl, rfl, rfl⟩⟩
      | ok newContainer =>
        cases sr with
        | false =>
          have hres : restart env app c false [] newId ws batch w =
              finishUpdate c newContainer ws batch w2 := by
            simp [restart, hins, errOf, hnew]
          rw [hres]
          exact ⟨[(c, newContainer, ws)], [], by simpa [finishUpdate] using hn.append (Notices.logged _
            (.HookContainerUpdated c newContainer ws)),
            Or.inr ⟨newContainer, rfl, rfl, rfl, newData, w2, rfl, hnew, by simp⟩⟩
        | true =>
          have hst := hn.append (startLoop_notices env newContainer 3 w2)
          cases hstart : newContainer.Start env w2 with
          | mk r3 w3 =>
            have hstart2 := hstart
            rw [Container.Start] at hstart2
            rw [hstart2] at hst
            cases r3 with
            | some err =>
              have hres : restart env app c true [] newId ws batch w = (.done batch,
                  w3.log (.HookContainerError c "Unable to start container" err)) := by
                simp [restart, hins, errOf, hnew, hstart]
              rw [hres]
              exact ⟨[], [c], by simpa using hst.append (Notices.logged _
                (.HookContainerError c "Unable to start container" err)),
                Or.inl ⟨rfl, rfl, rfl⟩⟩
            | none =>
              have hres : restart env app c true [] newId ws batch w =
                  finishUpdate c newContainer ws batch w3 := by
                simp [restart, hins, errOf, hnew, hstart, DependantContainers.Start]
              rw [hres]
              exact ⟨[(c, newContainer, ws)], [], by simpa [finishUpdate] using hst.append (Notices.logged _
                (.HookContainerUpdated c newContainer ws)),
                Or.inr ⟨newContainer, rfl, rfl, rfl, newData, w2, rfl, hnew,
                  fun _ => ⟨w3, hstart⟩⟩⟩

/-- The recreate sequence of one candidate: it panics without a notification, or fails with
one error notification and the loop variables untouched, or succeeds with one update
notification that carries the warnings accumulated by the stop block, the creation and the
reconnection. -/
theorem updateContainer_notices (env : Env) (app : App) (c : Container) (batch : Batch)
    (w : World) :
    ∃ u f, Notices w (updateContainer env app c batch w).2 u f ∧
      (((∃ msg, (updateContainer env app c batch w).1 = .panic msg) ∧ u = [] ∧ f = []) ∨
       ((updateContainer env app c batch w).1 = .done batch ∧ u = [] ∧ f = [c]) ∨
       (∃ newContainer ws, (updateContainer env app c batch w).1 =
            .done { successCount := batch.successCount + 1,
                    imgToRemove := batch.imgToRemove.Add c.Image } ∧
          u = [(c, newContainer, ws)] ∧ f = [] ∧
          ∃ ws1 w1 newId ws2 w2, stopBlock env app c [] w = (.next ws1, w1) ∧
            recreate env app c (singleNetwork env c w1) ws1 w1 = (.next (newId, ws2), w2) ∧
            ws = (reconnect env c (singleNetwork env c w1) newId ws2 w2).1 ∧
            ∃ newData w4,
              env.containerInspect
                (reconnect env c (singleNetwork env c w1) newId ws2 w2).2.trace newId
                = .ok newData ∧
              New env newData app.Updater.StopTimeout app.Scanner.ImageAge
                ((reconnect env c (singleNetwork env c w1) newId ws2 w2).2.log
                  (.ContainerInspect newId none)) = (.ok newContainer, w4) ∧
              (c.IsRunning = true → ∃ w5, newContainer.Start env w4 = (none, w5)))) := by
  obtain ⟨f1, hn1, hs1, hns1⟩ := stopBlock_notices env app c [] w
  cases hsb : stopBlock env app c [] w with
  | mk r1 w1 =>
    rw [hsb] at hn1 hs1 hns1
    cases r1 with
    | panic msg =>
      have hf : f1 = [] := hns1 (by simp)
      subst hf
      refine ⟨[], [], ?_, Or.inl ⟨⟨msg, ?_⟩, rfl, rfl⟩⟩ <;> simp only [updateContainer, hsb]
      exact hn1
    | skip =>
      have hf : f1 = [c] := hs1 rfl
      subst hf
      refine ⟨[], [c], ?_, Or.inr (Or.inl ⟨?_, rfl, rfl⟩)⟩ <;>
        simp only [updateContainer, hsb]
      exact hn1
    | next ws1 =>
      have hf : f1 = [] := hns1 (by simp)
      subst hf
      obtain ⟨f2, hn2, hs2, hns2, hnp2⟩ :=
        recreate_notices env app c (singleNetwork env c w1) ws1 w1
      cases hrc : recreate env app c (singleNetwork env c w1) ws1 w1 with
      | mk r2 w2 =>
        rw [hrc] at hn2 hs2 hns2 hnp2
        cases r2 with
        | panic msg => exact absurd rfl (hnp2 msg)
        | skip =>
          have hf : f2 = [c] := hs2 rfl
          subst hf
          refine ⟨[], [c], ?_, Or.inr (Or.inl ⟨?_, rfl, rfl⟩)⟩ <;>
            simp only [updateContainer, hsb, hrc]
          exact hn1.append hn2
        | next created =>
          obtain ⟨newId, ws2⟩ := created
          have hf : f2 = [] := hns2 (by simp)
          subst hf
          have hn3 := reconnect_notices env c (singleNetwork env c w1) newId ws2 w2
          cases hre : reconnect env c (singleNetwork env c w1) newId ws2 w2 with
          | mk ws3 w3 =>
            rw [hre] at hn3
            obtain ⟨u, f, hn4, hcase⟩ :=
              restart_notices env app c c.IsRunning newId ws3 batch w3
            have hall := ((hn1.append hn2).append hn3).append hn4
            simp only [List.nil_append] at hall
            have hupd : updateContainer env app c batch w =
                restart env app c c.IsRunning [] newId ws3 batch w3 := by
              simp only [updateContainer, hsb, hrc, hre]
            rw [hupd]
            refine ⟨u, f, hall, ?_⟩
            rcases hcase with ⟨h1, h2, h3⟩ | ⟨newContainer, h1, h2, h3, newData, w4, h4, h5, h6⟩
            · exact Or.inr (Or.inl ⟨h1, h2, h3⟩)
            · exact Or.inr (Or.inr ⟨newContainer, ws3, h1, h2, h3, ws1, w1, newId, ws2, w2,
                rfl, hrc, by rw [hre], newData, w4, by rw [hre]; exact h4,
                by rw [hre]; exact h5, h6⟩)

/-- The update loop: the candidates notified as updated and those notified as failed are
sublists of the candidates, and at the end of the loop the count and the image set
account for the updated ones. -/
theorem updateContainers_notices (env : Env) (app : App) :
    ∀ (containers : List Container) (batch : Batch) (w : World),
      ∃ u f, Notices w (updateContainers env app containers batch w).2 u f ∧
        List.Sublist (u.map (fun n => n.1)) containers ∧ List.Sublist f containers ∧
        ∀ b, (updateContainers env app containers batch w).1 = .done b →
          b.successCount = batch.successCount + u.length ∧
          u.length + f.length = containers.length ∧
          b.imgToRemove = u.foldl (fun s n => s.Add n.1.Image) batch.imgToRemove
  | [], batch, w => ⟨[], [], Notices.unchanged w, by simp, by simp, by
      intro b hb
      simp only [updateContainers, Step.done.injEq] at hb
      subst hb
      simp⟩
  | c :: rest, batch, w => by
    obtain ⟨u1, f1, hn1, hcase⟩ := updateContainer_notices env app c batch w
    cases huc : updateContainer env app c batch w with
    | mk r1 w1 =>
      rw [huc] at hn1 hcase
      rcases hcase with ⟨⟨msg, hr⟩, hu, hf⟩ | ⟨hr, hu, hf⟩ | ⟨newContainer, ws, hr, hu, hf, _⟩
      · simp only at hr
        subst hr hu hf
        refine ⟨[], [], ?_, by simp, by simp, ?_⟩ <;> simp only [updateContainers, huc]
        · exact hn1
        · intro b hb
          cases hb
      · simp only at hr
        subst hr hu hf
        obtain ⟨u2, f2, hn2, hsub1, hsub2, hacc⟩ := updateContainers_notices env app rest batch w1
        have hloop : updateContainers env app (c :: rest) batch w =
            updateContainers env app rest batch w1 := by
          simp only [updateContainers, huc]
        rw [hloop]
        refine ⟨u2, c :: f2, by simpa using hn1.append hn2, hsub1.cons c, hsub2.cons₂ c, ?_⟩
        intro b hb
        obtain ⟨h1, h2, h3⟩ := hacc b hb
        refine ⟨h1, ?_, h3⟩
        simp only [List.length_cons]
        omega
      · simp only at hr
        subst hr hu hf
        obtain ⟨u2, f2, hn2, hsub1, hsub2, hacc⟩ := updateContainers_notices env app rest
          { successCount := batch.successCount + 1,
            imgToRemove := batch.imgToRemove.Add c.Image } w1
        have hloop : updateContainers env app (c :: rest) batch w =
            updateContainers env app rest
              { successCount := batch.successCount + 1,
                imgToRemove := batch.imgToRemove.Add c.Image } w1 := by
          simp only [updateContainers, huc]
        rw [hloop]
        refine ⟨(c, newContainer, ws) :: u2, f2, by simpa using hn1.append hn2,
          by simpa using hsub1.cons₂ c, hsub2.cons c, ?_⟩
        intro b hb
        obtain ⟨h1, h2, h3⟩ := hacc b hb
        refine ⟨?_, ?_, ?_⟩
        · simp only [List.length_cons] at h1 ⊢
          omega
        · simp only [List.length_cons]
          omega
        · simpa using h3

/-- A key is looked up in vain exactly when it is no key of the list. -/
theorem lookup_eq_none_keys {α β : Type} [BEq α] [LawfulBEq α] (k : α) :
    ∀ l : List (α × β), l.lookup k = none ↔ k ∉ l.map Prod.fst
  | [] => by simp
  | (a, b) :: l => by
    by_cases h : k = a
    · subst h
      simp [List.lookup]
    · have hb : (k == a) = false := by simpa using h
      simp [List.lookup, hb, h, lookup_eq_none_keys k l]

/-- The method `ImageSet.Add` appends the image unless its id is a key of the set. -/
theorem ImageSet_Add_items (s : ImageSet) (img : ImageData) :
    (img.ID ∈ s.Items.map Prod.fst ∧ (s.Add img).Items = s.Items) ∨
    (img.ID ∉ s.Items.map Prod.fst ∧ (s.Add img).Items = s.Items ++ [(img.ID, img)]) := by
  unfold ImageSet.Add
  cases hl : s.Items.lookup img.ID with
  | none => exact Or.inr ⟨(lookup_eq_none_keys img.ID s.Items).mp hl, rfl⟩
  | some v =>
    refine Or.inl ⟨?_, rfl⟩
    by_contra hne
    rw [(lookup_eq_none_keys img.ID s.Items).mpr hne] at hl
    cases hl

/-- The set obtained by adding the old images of the updated candidates, one after the other. -/
theorem fold_Add_items :
    ∀ (u : List (Container × Container × List String)) (s : ImageSet),
      (∀ id, id ∈ (u.foldl (fun s n => s.Add n.1.Image) s).Items.map Prod.fst ↔
        id ∈ s.Items.map Prod.fst ∨ ∃ n ∈ u, n.1.Image.ID = id) ∧
      (∀ entry ∈ (u.foldl (fun s n => s.Add n.1.Image) s).Items,
        entry ∈ s.Items ∨ ∃ n ∈ u, entry = (n.1.Image.ID, n.1.Image))
  | [], s => by simp
  | n :: u, s => by
    obtain ⟨ih1, ih2⟩ := fold_Add_items u (s.Add n.1.Image)
    simp only [List.foldl_cons]
    constructor
    · intro id
      rw [ih1 id]
      rcases ImageSet_Add_items s n.1.Image with ⟨hmem, heq⟩ | ⟨_, heq⟩
      · rw [heq]
        constructor
        · rintro (h | ⟨m, hm, rfl⟩)
          · exact Or.inl h
          · exact Or.inr ⟨m, List.mem_cons_of_mem _ hm, rfl⟩
        · rintro (h | ⟨m, hm, rfl⟩)
          · exact Or.inl h
          · rcases List.mem_cons.mp hm with rfl | hm
            · exact Or.inl hmem
            · exact Or.inr ⟨m, hm, rfl⟩
      · rw [heq]
        constructor
        · rintro (h | ⟨m, hm, rfl⟩)
          · simp only [List.map_append, List.mem_append, List.map_cons, List.map_nil,
              List.mem_singleton] at h
            rcases h with h | h
            · exact Or.inl h
            · exact Or.inr ⟨n, List.mem_cons_self _ _, h.symm⟩
          · exact Or.inr ⟨m, List.mem_cons_of_mem _ hm, rfl⟩
        · rintro (h | ⟨m, hm, rfl⟩)
          · exact Or.inl (by simp [h])
          · rcases List.mem_cons.mp hm with rfl | hm
            · exact Or.inl (by simp)
            · exact Or.inr ⟨m, hm, rfl⟩
    · intro entry hentry
      rcases ih2 entry hentry with h | ⟨m, hm, rfl⟩
      · rcases ImageSet_Add_items s n.1.Image with ⟨_, heq⟩ | ⟨_, heq⟩
        · rw [heq] at h
          exact Or.inl h
        · rw [heq] at h
          rcases List.mem_append.mp h with h | h
          · exact Or.inl h
          · simp only [List.mem_singleton] at h
            exact Or.inr ⟨n, List.mem_cons_self _ _, h⟩
      · exact Or.inr ⟨m, List.mem_cons_of_mem _ hm, rfl⟩

/-- The update loop ends without a panic when the runtime reports a name for every
candidate and for every container it lists. -/
theorem updateContainers_total (env : Env) (app : App)
    (hnames : ∀ trace listed,
      env.containerList trace [("label", LABEL_DEPENDS_ON), ("status", "running")]
        = .ok listed → ∀ s ∈ listed, s.Names ≠ []) :
    ∀ (containers : List Container) (batch : Batch) (w : World),
      (∀ c ∈ containers, c.Raw.Name ≠ "") →
      ∃ b, (updateContainers env app containers batch w).1 = .done b
  | [], batch, w, _ => ⟨batch, rfl⟩
  | c :: rest, batch, w, hname => by
    obtain ⟨b1, hb1⟩ := updateContainer_total env app c batch w
      (fun _ => ⟨hname c (List.mem_cons_self _ _), hnames w.trace⟩)
    cases huc : updateContainer env app c batch w with
    | mk r1 w1 =>
      rw [huc] at hb1
      simp only at hb1
      subst hb1
      simp only [updateContainers, huc]
      exact updateContainers_total env app hnames rest b1 w1
        (fun x hx => hname x (List.mem_cons_of_mem _ hx))

/-- The stop block lets the recreate sequence go on exactly when the candidate is not
running, or when its dependents were listed and its own stop succeeded. -/
theorem stopBlock_next_iff (env : Env) (app : App) (c : Container) (ws0 ws1 : List String)
    (w w1 : World) :
    stopBlock env app c ws0 w = (.next ws1, w1) ↔
      (c.IsRunning = false ∧ ws1 = ws0 ∧ w1 = w) ∨
      (c.IsRunning = true ∧ ∃ deps wa,
        GetDependingContainers env app c.Raw w = (.ok deps, wa) ∧
        ws1 = ws0 ++ (DependantContainers.Stop env deps wa).1 ∧
        env.containerStop (DependantContainers.Stop env deps wa).2.trace c.ID c.StopTimeout
          = none ∧
        w1 = (DependantContainers.Stop env deps wa).2.log
          (.ContainerStop c.ID c.StopTimeout none)) := by
  cases hrun : c.IsRunning with
  | false =>
    simp only [stopBlock, hrun, Bool.false_eq_true, if_false, Prod.mk.injEq, Flow.next.injEq,
      true_and, false_and, or_false]
    constructor
    · rintro ⟨rfl, rfl⟩
      exact ⟨rfl, rfl⟩
    · rintro ⟨rfl, rfl⟩
      exact ⟨rfl, rfl⟩
  | true =>
    simp only [stopBlock, hrun, if_true, Bool.true_eq_false, false_and, true_and, false_or]
    cases hdep : GetDependingContainers env app c.Raw w with
    | mk r wa =>
      cases r with
      | panic msg => simp
      | err err => simp
      | ok deps =>
        cases hstop : env.containerStop (DependantContainers.Stop env deps wa).2.trace c.ID
            c.StopTimeout with
        | some err => simp [Container.Stop, hstop]
        | none =>
          simp only [Container.Stop, hstop, Prod.mk.injEq, Flow.next.injEq, Res.ok.injEq]
          constructor
          · rintro ⟨rfl, rfl⟩
            exact ⟨deps, wa, ⟨rfl, rfl⟩, rfl, hstop, rfl⟩
          · rintro ⟨deps1, wa1, ⟨rfl, rfl⟩, rfl, _, rfl⟩
            exact ⟨rfl, rfl⟩

/-- The removal and the creation let the recreate sequence go on exactly when the runtime
removed the old container and created the new one. -/
theorem recreate_next_iff (env : Env) (app : App) (c : Container)
    (single : List (String × EndpointSettings)) (ws1 ws2 : List String) (newId : String)
    (w1 w2 : World) :
    recreate env app c single ws1 w1 = (.next (newId, ws2), w2) ↔
      env.containerRemove w1.trace c.ID true app.Updater.RemoveVolumes = none ∧
      ∃ response,
        env.containerCreate
          (w1.log (.ContainerRemove c.ID true app.Updater.RemoveVolumes none)).trace
          c.Raw.Config c.Raw.HostConfig single c.Raw.Name = .ok response ∧
        newId = response.ID ∧ ws2 = ws1 ++ response.Warnings ∧
        w2 = (w1.log (.ContainerRemove c.ID true app.Updater.RemoveVolumes none)).log
          (.ContainerCreate c.Raw.Config c.Raw.HostConfig single c.Raw.Name none) := by
  cases hrm : env.containerRemove w1.trace c.ID true app.Updater.RemoveVolumes with
  | some err => simp [recreate, hrm]
  | none =>
    cases hcr : env.containerCreate
        (w1.log (.ContainerRemove c.ID true app.Updater.RemoveVolumes none)).trace
        c.Raw.Config c.Raw.HostConfig single c.Raw.Name with
    | error err => simp [recreate, hrm, hcr]
    | ok response =>
      simp only [recreate, hrm, hcr, errOf, Prod.mk.injEq, Flow.next.injEq, true_and,
        Except.ok.injEq]
      constructor
      · rintro ⟨⟨rfl, rfl⟩, rfl⟩
        exact ⟨response, rfl, rfl, rfl, rfl⟩
      · rintro ⟨response1, rfl, rfl, rfl, rfl⟩
        exact ⟨⟨rfl, rfl⟩, rfl⟩

/-- Three failing calls of `ContainerStart` make `Container.Start` return the third
failure, wrapped. -/
theorem Start_all_failed (env : Env) (c : Container) (w : World) (e1 e2 e3 : Error)
    (h1 : env.containerStart w.trace c.ID = some e1)
    (h2 : env.containerStart (w.trace ++ [.ContainerStart c.ID (some e1), .Sleep 1]) c.ID
      = some e2)
    (h3 : env.containerStart (w.trace ++ [.ContainerStart c.ID (some e1), .Sleep 1,
      .ContainerStart c.ID (some e2), .Sleep 1]) c.ID = some e3) :
    c.Start env w = (some (.wrap ("failed to start container " ++ c.Name) e3),
      { w with
        trace := w.trace ++ [.ContainerStart c.ID (some e1), .Sleep 1,
          .ContainerStart c.ID (some e2), .Sleep 1, .ContainerStart c.ID (some e3)] }) := by
  simp [Container.Start, Container.startLoop, World.log, h1, h2, h3]

/-- The fatal steps of the recreate sequence of one candidate, from the answers of the
runtime: each failure ends the iteration with the loop variables untouched and one error
notification; when every step went through the iteration counts the update, adds the old
image and notifies the update with the warnings accumulated. -/
theorem updateContainer_steps (env : Env) (app : App) (c : Container) (batch : Batch)
    (w : World) :
    (c.IsRunning = true → ∀ err wa,
      GetDependingContainers env app c.Raw w = (.err err, wa) →
      updateContainer env app c batch w = (.done batch,
        wa.log (.HookContainerError c "Unable to fetch depending containers" err))) ∧
    (c.IsRunning = true → ∀ deps wa err,
      GetDependingContainers env app c.Raw w = (.ok deps, wa) →
      env.containerStop (DependantContainers.Stop env deps wa).2.trace c.ID c.StopTimeout
        = some err →
      updateContainer env app c batch w = (.done batch,
        ((DependantContainers.Stop env deps wa).2.log
          (.ContainerStop c.ID c.StopTimeout (some err))).log
          (.HookContainerError c "Unable to stop container"
            (.wrap ("failed to stop container " ++ c.Name) err)))) ∧
    (∀ ws1 w1, stopBlock env app c [] w = (.next ws1, w1) →
      (∀ err, env.containerRemove w1.trace c.ID true app.Updater.RemoveVolumes = some err →
        updateContainer env app c batch w = (.done batch,
          (w1.log (.ContainerRemove c.ID true app.Updater.RemoveVolumes (some err))).log
            (.HookContainerError c "Unable to remove container" err))) ∧
      (env.containerRemove w1.trace c.ID true app.Updater.RemoveVolumes = none →
        ∀ err, env.containerCreate
            (w1.log (.ContainerRemove c.ID true app.Updater.RemoveVolumes none)).trace
            c.Raw.Config c.Raw.HostConfig (singleNetwork env c w1) c.Raw.Name = .error err →
        updateContainer env app c batch w = (.done batch,
          ((w1.log (.ContainerRemove c.ID true app.Updater.RemoveVolumes none)).log
            (.ContainerCreate c.Raw.Config c.Raw.HostConfig (singleNetwork env c w1)
              c.Raw.Name (some err))).log
            (.HookContainerError c "Unable to create container" err))) ∧
      ∀ newId ws2 w2 ws3 w3,
        recreate env app c (singleNetwork env c w1) ws1 w1 = (.next (newId, ws2), w2) →
        reconnect env c (singleNetwork env c w1) newId ws2 w2 = (ws3, w3) →
        (∀ err, env.containerInspect w3.trace newId = .error err →
          updateContainer env app c batch w = (.done batch,
            (w3.log (.ContainerInspect newId (some err))).log
              (.HookContainerError c "Unable to inspect container" err))) ∧
        ∀ newData, env.containerInspect w3.trace newId = .ok newData →
          (∀ err w4, New env newData app.Updater.StopTimeout app.Scanner.ImageAge
              (w3.log (.ContainerInspect newId none)) = (.error err, w4) →
            updateContainer env app c batch w = (.done batch,
              w4.log (.HookContainerError c "Unable to initialize container" err))) ∧
          ∀ newContainer w4, New env newData app.Updater.StopTimeout app.Scanner.ImageAge
              (w3.log (.ContainerInspect newId none)) = (.ok newContainer, w4) →
            (c.IsRunning = true → ∀ err w5, newContainer.Start env w4 = (some err, w5) →
              updateContainer env app c batch w = (.done batch,
                w5.log (.HookContainerError c "Unable to start container" err))) ∧
            (c.IsRunning = true → ∀ e1 e2 e3,
              env.containerStart w4.trace newContainer.ID = some e1 →
              env.containerStart
                (w4.trace ++ [.ContainerStart newContainer.ID (some e1), .Sleep 1])
                newContainer.ID = some e2 →
              env.containerStart
                (w4.trace ++ [.ContainerStart newContainer.ID (some e1), .Sleep 1,
                  .ContainerStart newContainer.ID (some e2), .Sleep 1])
                newContainer.ID = some e3 →
              updateContainer env app c batch w = (.done batch,
                { w4 with
                  trace := w4.trace ++ [.ContainerStart newContainer.ID (some e1), .Sleep 1,
                    .ContainerStart newContainer.ID (some e2), .Sleep 1,
                    .ContainerStart newContainer.ID (some e3),
                    .HookContainerError c "Unable to start container"
                      (.wrap ("failed to start container " ++ newContainer.Name) e3)] })) ∧
            (c.IsRunning = true → ∀ w5, newContainer.Start env w4 = (none, w5) →
              updateContainer env app c batch w =
                (.done { successCount := batch.successCount + 1,
                         imgToRemove := batch.imgToRemove.Add c.Image },
                  w5.log (.HookContainerUpdated c newContainer ws3))) ∧
            (c.IsRunning = false →
              updateContainer env app c batch w =
                (.done { successCount := batch.successCount + 1,
                         imgToRemove := batch.imgToRemove.Add c.Image },
                  w4.log (.HookContainerUpdated c newContainer ws3)))) := by
  refine ⟨?_, ?_, ?_⟩
  · intro hrun err wa hdep
    simp [updateContainer, stopBlock, hrun, hdep]
  · intro hrun deps wa err hdep hstop
    simp [updateContainer, stopBlock, hrun, hdep, Container.Stop, hstop]
  · intro ws1 w1 hsb
    refine ⟨?_, ?_, ?_⟩
    · intro err hrm
      simp [updateContainer, hsb, recreate, hrm]
    · intro hrm err hcr
      simp [updateContainer, hsb, recreate, hrm, hcr, errOf]
    · intro newId ws2 w2 ws3 w3 hrc hre
      have hupd : updateContainer env app c batch w =
          restart env app c c.IsRunning [] newId ws3 batch w3 := by
        simp only [updateContainer, hsb, hrc, hre]
      rw [hupd]
      refine ⟨?_, ?_⟩
      · intro err hins
        simp [restart, hins, errOf]
      · intro newData hins
        refine ⟨?_, ?_⟩
        · intro err w4 hnew
          simp [restart, hins, errOf, hnew]
        · intro newContainer w4 hnew
          have hfail : c.IsRunning = true → ∀ err w5,
              newContainer.Start env w4 = (some err, w5) →
              restart env app c c.IsRunning [] newId ws3 batch w3 = (.done batch,
                w5.log (.HookContainerError c "Unable to start container" err)) := by
            intro hrun err w5 hstart
            simp [restart, hins, errOf, hnew, hrun, hstart]
          refine ⟨hfail, ?_, ?_, ?_⟩
          · intro hrun e1 e2 e3 h1 h2 h3
            rw [hfail hrun _ _ (Start_all_failed env newContainer w4 e1 e2 e3 h1 h2 h3)]
            simp [World.log]
          · intro hrun w5 hstart
            simp [restart, hins, errOf, hnew, hrun, hstart, DependantContainers.Start,
              finishUpdate]
          · intro hrun
            simp [restart, hins, errOf, hnew, hrun, finishUpdate]

/-- Claim C19.  For the update loop of `Run`, started with a count of zero and an empty
image set: the candidates with a `ContainerUpdated` notification and those with a
`ContainerError` notification are sublists of the candidates; at the end of the loop the
success count is the number of the former, every candidate is in one of the two lists, and
the image set holds exactly the old images of the former, keyed by image id; what `Run`
hands to the reclaimer, when the configuration asks for the removal and the set is not
empty, is that set in the order of the `range`: the old images of the updated candidates
and nothing else.  For each candidate the recreate sequence either fails at a fatal step
(one error notification, loop variables untouched) or runs to its end (count plus one, old
image added, exactly one `ContainerUpdated` notification carrying the warnings accumulated
by the stop block, the creation and the reconnection), and it runs to its end only when
the stop block and the removal and creation went through, the new container was inspected
and initialised and, if the candidate was running, started.  The loop ends without a panic
when the runtime reports a name for every candidate and every listed container.  From the
answers of the runtime: a failed listing of the dependents, a failed stop, a failed
removal, a failed creation, a failed inspect of the new container, a failed initialisation
and a failed start (three failing calls of `ContainerStart`) each end the iteration with
the count and the image set untouched and one error notification; when all of them went
through, the iteration counts the candidate and adds its old image.  The stop block and
the removal and creation go through exactly when the runtime answered without error. -/
theorem updateContainers_accounting (env : Env) (app : App) (containers : List Container)
    (w : World) :
    (∃ updated failed,
      Notices w (updateContainers env app containers
        { successCount := 0, imgToRemove := NewImageSet } w).2 updated failed ∧
      List.Sublist (updated.map (fun n => n.1)) containers ∧
      List.Sublist failed containers ∧
      ∀ b, (updateContainers env app containers
          { successCount := 0, imgToRemove := NewImageSet } w).1 = .done b →
        b.successCount = updated.length ∧
        updated.length + failed.length = containers.length ∧
        (∀ id, id ∈ b.imgToRemove.Items.map Prod.fst ↔ ∃ n ∈ updated, n.1.Image.ID = id) ∧
        (∀ entry ∈ b.imgToRemove.Items,
          ∃ n ∈ updated, entry = (n.1.Image.ID, n.1.Image)) ∧
        ∀ w0, pullImages env app containers w0 = (true, w) →
          ∃ images, images.Perm (b.imgToRemove.Items.map Prod.snd) ∧
            (∀ img ∈ images, ∃ n ∈ updated, img = n.1.Image) ∧
            (∀ n ∈ updated, ∃ img ∈ images, img.ID = n.1.Image.ID) ∧
            runBatch env app containers w0 =
              (.done (),
                if (app.Updater.RemoveImages &&
                    decide (b.imgToRemove.Items.length > 0)) = true then
                  (RemoveUnusedImages env images (updateContainers env app containers
                    { successCount := 0, imgToRemove := NewImageSet } w).2).2
                else (updateContainers env app containers
                  { successCount := 0, imgToRemove := NewImageSet } w).2)) ∧
    (∀ (c : Container) (batch : Batch) (w0 : World),
      ∃ u f, Notices w0 (updateContainer env app c batch w0).2 u f ∧
        (((∃ msg, (updateContainer env app c batch w0).1 = .panic msg) ∧ u = [] ∧ f = []) ∨
         ((updateContainer env app c batch w0).1 = .done batch ∧ u = [] ∧ f = [c]) ∨
         (∃ newContainer ws, (updateContainer env app c batch w0).1 =
              .done { successCount := batch.successCount + 1,
                      imgToRemove := batch.imgToRemove.Add c.Image } ∧
            u = [(c, newContainer, ws)] ∧ f = [] ∧
            ∃ ws1 w1 newId ws2 w2, stopBlock env app c [] w0 = (.next ws1, w1) ∧
              recreate env app c (singleNetwork env c w1) ws1 w1 = (.next (newId, ws2), w2) ∧
              ws = (reconnect env c (singleNetwork env c w1) newId ws2 w2).1 ∧
              ∃ newData w4,
                env.containerInspect
                  (reconnect env c (singleNetwork env c w1) newId ws2 w2).2.trace newId
                  = .ok newData ∧
                New env newData app.Updater.StopTimeout app.Scanner.ImageAge
                  ((reconnect env c (singleNetwork env c w1) newId ws2 w2).2.log
                    (.ContainerInspect newId none)) = (.ok newContainer, w4) ∧
                (c.IsRunning = true → ∃ w5, newContainer.Start env w4 = (none, w5))))) ∧
    ((∀ trace listed,
        env.containerList trace [("label", LABEL_DEPENDS_ON), ("status", "running")]
          = .ok listed → ∀ s ∈ listed, s.Names ≠ []) →
      (∀ c ∈ containers, c.Raw.Name ≠ "") →
      ∃ b, (updateContainers env app containers
        { successCount := 0, imgToRemove := NewImageSet } w).1 = .done b) ∧
    (∀ w0, pullImages env app containers w0 = (true, w) →
      runBatch env app containers w0 = reclaim env app (updateContainers env app containers
        { successCount := 0, imgToRemove := NewImageSet } w)) ∧
    (∀ (c : Container) (batch : Batch) (w0 : World),
      (c.IsRunning = true → ∀ err wa,
        GetDependingContainers env app c.Raw w0 = (.err err, wa) →
        updateContainer env app c batch w0 = (.done batch,
          wa.log (.HookContainerError c "Unable to fetch depending containers" err))) ∧
      (c.IsRunning = true → ∀ deps wa err,
        GetDependingContainers env app c.Raw w0 = (.ok deps, wa) →
        env.containerStop (DependantContainers.Stop env deps wa).2.trace c.ID c.StopTimeout
          = some err →
        updateContainer env app c batch w0 = (.done batch,
          ((DependantContainers.Stop env deps wa).2.log
            (.ContainerStop c.ID c.StopTimeout (some err))).log
            (.HookContainerError c "Unable to stop container"
              (.wrap ("failed to stop container " ++ c.Name) err)))) ∧
      (∀ ws1 w1, stopBlock env app c [] w0 = (.next ws1, w1) →
        (∀ err, env.containerRemove w1.trace c.ID true app.Updater.RemoveVolumes = some err →
          updateContainer env app c batch w0 = (.done batch,
            (w1.log (.ContainerRemove c.ID true app.Updater.RemoveVolumes (some err))).log
              (.HookContainerError c "Unable to remove container" err))) ∧
        (env.containerRemove w1.trace c.ID true app.Updater.RemoveVolumes = none →
          ∀ err, env.containerCreate
              (w1.log (.ContainerRemove c.ID true app.Updater.RemoveVolumes none)).trace
              c.Raw.Config c.Raw.HostConfig (singleNetwork env c w1) c.Raw.Name = .error err →
          updateContainer env app c batch w0 = (.done batch,
            ((w1.log (.ContainerRemove c.ID true app.Updater.RemoveVolumes none)).log
              (.ContainerCreate c.Raw.Config c.Raw.HostConfig (singleNetwork env c w1)
                c.Raw.Name (some err))).log
              (.HookContainerError c "Unable to create container" err))) ∧
        ∀ newId ws2 w2 ws3 w3,
          recreate env app c (singleNetwork env c w1) ws1 w1 = (.next (newId, ws2), w2) →
          reconnect env c (singleNetwork env c w1) newId ws2 w2 = (ws3, w3) →
          (∀ err, env.containerInspect w3.trace newId = .error err →
            updateContainer env app c batch w0 = (.done batch,
              (w3.log (.ContainerInspect newId (some err))).log
                (.HookContainerError c "Unable to inspect container" err))) ∧
          ∀ newData, env.containerInspect w3.trace newId = .ok newData →
            (∀ err w4, New env newData app.Updater.StopTimeout app.Scanner.ImageAge
                (w3.log (.ContainerInspect newId none)) = (.error err, w4) →
              updateContainer env app c batch w0 = (.done batch,
                w4.log (.HookContainerError c "Unable to initialize container" err))) ∧
            ∀ newContainer w4, New env newData app.Updater.StopTimeout app.Scanner.ImageAge
                (w3.log (.ContainerInspect newId none)) = (.ok newContainer, w4) →
              (c.IsRunning = true → ∀ err w5, newContainer.Start env w4 = (some err, w5) →
                updateContainer env app c batch w0 = (.done batch,
                  w5.log (.HookContainerError c "Unable to start container" err))) ∧
              (c.IsRunning = true → ∀ e1 e2 e3,
                env.containerStart w4.trace newContainer.ID = some e1 →
                env.containerStart
                  (w4.trace ++ [.ContainerStart newContainer.ID (some e1), .Sleep 1])
                  newContainer.ID = some e2 →
                env.containerStart
                  (w4.trace ++ [.ContainerStart newContainer.ID (some e1), .Sleep 1,
                    .ContainerStart newContainer.ID (some e2), .Sleep 1])
                  newContainer.ID = some e3 →
                updateContainer env app c batch w0 = (.done batch,
                  { w4 with
                    trace := w4.trace ++ [.ContainerStart newContainer.ID (some e1), .Sleep 1,
                      .ContainerStart newContainer.ID (some e2), .Sleep 1,
                      .ContainerStart newContainer.ID (some e3),
                      .HookContainerError c "Unable to start container"
                        (.wrap ("failed to start container " ++ newContainer.Name) e3)] })) ∧
              (c.IsRunning = true → ∀ w5, newContainer.Start env w4 = (none, w5) →
                updateContainer env app c batch w0 =
                  (.done { successCount := batch.successCount + 1,
                           imgToRemove := batch.imgToRemove.Add c.Image },
                    w5.log (.HookContainerUpdated c newContainer ws3))) ∧
              (c.IsRunning = false →
                updateContainer env app c batch w0 =
                  (.done { successCount := batch.successCount + 1,
                           imgToRemove := batch.imgToRemove.Add c.Image },
                    w4.log (.HookContainerUpdated c newContainer ws3))))) ∧
    (∀ (c : Container) (ws0 ws1 : List String) (w0 w1 : World),
      stopBlock env app c ws0 w0 = (.next ws1, w1) ↔
        (c.IsRunning = false ∧ ws1 = ws0 ∧ w1 = w0) ∨
        (c.IsRunning = true ∧ ∃ deps wa,
          GetDependingContainers env app c.Raw w0 = (.ok deps, wa) ∧
          ws1 = ws0 ++ (DependantContainers.Stop env deps wa).1 ∧
          env.containerStop (DependantContainers.Stop env deps wa).2.trace c.ID c.StopTimeout
            = none ∧
          w1 = (DependantContainers.Stop env deps wa).2.log
            (.ContainerStop c.ID c.StopTimeout none))) ∧
    (∀ (c : Container) (single : List (String × EndpointSettings)) (ws1 ws2 : List String)
        (newId : String) (w1 w2 : World),
      recreate env app c single ws1 w1 = (.next (newId, ws2), w2) ↔
        env.containerRemove w1.trace c.ID true app.Updater.RemoveVolumes = none ∧
        ∃ response,
          env.containerCreate
            (w1.log (.ContainerRemove c.ID true app.Updater.RemoveVolumes none)).trace
            c.Raw.Config c.Raw.HostConfig single c.Raw.Name = .ok response ∧
          newId = response.ID ∧ ws2 = ws1 ++ response.Warnings ∧
          w2 = (w1.log (.ContainerRemove c.ID true app.Updater.RemoveVolumes none)).log
            (.ContainerCreate c.Raw.Config c.Raw.HostConfig single c.Raw.Name none)) := by
  refine ⟨?_, updateContainer_notices env app, ?_, ?_,
    fun c batch w0 => updateContainer_steps env app c batch w0,
    fun c ws0 ws1 w0 w1 => stopBlock_next_iff env app c ws0 ws1 w0 w1,
    fun c single ws1 ws2 newId w1 w2 => recreate_next_iff env app c single ws1 ws2 newId w1 w2⟩
  · obtain ⟨u, f, hn, hs1, hs2, hacc⟩ := updateContainers_notices env app containers
      { successCount := 0, imgToRemove := NewImageSet } w
    refine ⟨u, f, hn, hs1, hs2, ?_⟩
    intro b hb
    obtain ⟨h1, h2, h3⟩ := hacc b hb
    obtain ⟨k1, k2⟩ := fold_Add_items u NewImageSet
    have hkeys : ∀ id, id ∈ b.imgToRemove.Items.map Prod.fst ↔ ∃ n ∈ u, n.1.Image.ID = id := by
      intro id
      rw [h3, k1 id]
      simp [NewImageSet]
    have hentries : ∀ entry ∈ b.imgToRemove.Items,
        ∃ n ∈ u, entry = (n.1.Image.ID, n.1.Image) := by
      intro entry hentry
      rw [h3] at hentry
      rcases k2 entry hentry with h | h
      · simp [NewImageSet] at h
      · exact h
    refine ⟨by simpa using h1, h2, hkeys, hentries, ?_⟩
    intro w0 hpull
    have hperm := rangeOrder_perm
      (env.rangeSeed (updateContainers env app containers
        { successCount := 0, imgToRemove := NewImageSet } w).2.trace)
      (b.imgToRemove.Items.map Prod.snd)
    refine ⟨_, hperm, ?_, ?_, ?_⟩
    · intro img himg
      obtain ⟨entry, hentry, rfl⟩ := List.mem_map.mp (hperm.mem_iff.mp himg)
      obtain ⟨n, hn, rfl⟩ := hentries entry hentry
      exact ⟨n, hn, rfl⟩
    · intro n hn
      obtain ⟨entry, hentry, hkey⟩ := List.mem_map.mp ((hkeys n.1.Image.ID).mpr ⟨n, hn, rfl⟩)
      obtain ⟨m, _, rfl⟩ := hentries entry hentry
      exact ⟨m.1.Image, hperm.mem_iff.mpr (List.mem_map.mpr ⟨_, hentry, rfl⟩), hkey⟩
    · have hpair : updateContainers env app containers
          { successCount := 0, imgToRemove := NewImageSet } w =
          (.done b, (updateContainers env app containers
            { successCount := 0, imgToRemove := NewImageSet } w).2) := Prod.ext hb rfl
      simp only [runBatch, hpull]
      rw [hpair]
      simp only [reclaim]
      split <;> rfl
  · intro hnames hname
    exact updateContainers_total env app hnames containers _ w hname
  · intro w0 hpull
    simp only [runBatch, hpull]

/-- Claim C19 on the fleet: when `/web` cannot be stopped only `/db` is counted and only
its old image is kept; when no network accepts an endpoint both are updated and the
notification of `/web` carries the warning; when no container can be started, the three
failing starts of the new `/web` leave the count and the image set untouched, and at the
end of the loop nothing is counted and no image is kept. -/
theorem updateContainers_accounting_witness :
    (updateContainers stopFailEnv fleetApp [webContainer, dbContainer] noUpdates
        emptyWorld).1 =
      .done { successCount := 1, imgToRemove := { Items := [("sha256:img3", postgresImage)] } } ∧
    (updatedNotices (updateContainers stopFailEnv fleetApp [webContainer, dbContainer]
        noUpdates emptyWorld).2.trace).map (fun n => (n.1, n.2.1.ID, n.2.2)) =
      [(dbContainer, "new/db", [])] ∧
    failedNotices (updateContainers stopFailEnv fleetApp [webContainer, dbContainer]
        noUpdates emptyWorld).2.trace = [webContainer] ∧
    (updatedNotices (updateContainers connectFailEnv fleetApp [webContainer, dbContainer]
        noUpdates emptyWorld).2.trace).map (fun n => (n.1, n.2.1.ID, n.2.2)) =
      [(webContainer, "new/web", ["connecting to network back failed: network unreachable"]),
       (dbContainer, "new/db", [])] ∧
    (updateContainers (startFailEnv 0) fleetApp [webContainer, dbContainer] noUpdates
        emptyWorld).1 = .done { successCount := 0, imgToRemove := { Items := [] } } ∧
    failedNotices (updateContainers (startFailEnv 0) fleetApp [webContainer, dbContainer]
        noUpdates emptyWorld).2.trace = [webContainer, dbContainer] ∧
    (updateContainer (startFailEnv 0) fleetApp webContainer noUpdates emptyWorld).1 =
      .done noUpdates ∧
    ∃ b, (updateContainers stopFailEnv fleetApp [webContainer, dbContainer]
      { successCount := 0, imgToRemove := NewImageSet } emptyWorld).1 = .done b :=
  ⟨by decide, by decide, by decide, by decide, by decide, by decide,
   congrArg Prod.fst
     (((((((updateContainers_accounting (startFailEnv 0) fleetApp [webContainer, dbContainer]
       emptyWorld).2.2.2.2.1 webContainer noUpdates emptyWorld).2.2 _ _ rfl).2.2
       _ _ _ _ _ rfl rfl).2 _ rfl).2 _ _ rfl).2.1 rfl
       (.other "cannot start container") (.other "cannot start container")
       (.other "cannot start container") rfl rfl rfl),
   (updateContainers_accounting stopFailEnv fleetApp [webContainer, dbContainer]
      emptyWorld).2.2.1
     (fun trace listed h s hs => by
       have hl : listed = [workerSummary] := by
         simp [stopFailEnv, fleetEnv] at h
         exact h.symm
       subst hl
       simp only [List.mem_singleton] at hs
       subst hs
       decide)
     (fun c hc => by
       simp only [List.mem_cons, List.mem_singleton, List.not_mem_nil, or_false] at hc
       rcases hc with rfl | rfl <;> decide)⟩


/-! ## The repository digest of a local image -/

/-- The search of `GetRepoDigest` returns `digest.FromString` of the digest portion of the
first entry whose name is the familiar name, and `ErrMissingRepoDigest` when there is
none. -/
theorem findRepoDigest_portion (env : Env) (familiarName : String) :
    ∀ entries : List String,
      (∀ portion, firstDigestPortion familiarName entries = some portion →
        findRepoDigest env familiarName entries = .ok (env.digestFromString portion)) ∧
      (firstDigestPortion familiarName entries = none →
        findRepoDigest env familiarName entries = .error .ErrMissingRepoDigest)
  | [] => by simp [firstDigestPortion, findRepoDigest]
  | str :: rest => by
    obtain ⟨ih1, ih2⟩ := findRepoDigest_portion env familiarName rest
    cases hs : Split str '@' with
    | nil =>
      have hp : digestPortion familiarName str = none := by simp [digestPortion, hs]
      simp only [firstDigestPortion, List.findSome?_cons, hp, findRepoDigest, hs]
      exact ⟨ih1, ih2⟩
    | cons first tl =>
      cases tl with
      | nil =>
        have hp : digestPortion familiarName str = none := by simp [digestPortion, hs]
        simp only [firstDigestPortion, List.findSome?_cons, hp, findRepoDigest, hs]
        exact ⟨ih1, ih2⟩
      | cons second tail =>
        by_cases hf : first = familiarName
        · have hp : digestPortion familiarName str = some second := by
            simp [digestPortion, hs, hf]
          simp only [firstDigestPortion, List.findSome?_cons, hp, findRepoDigest, hs, hf,
            if_true]
          simp
        · have hp : digestPortion familiarName str = none := by
            simp [digestPortion, hs, hf]
          simp only [firstDigestPortion, List.findSome?_cons, hp, findRepoDigest, hs, hf,
            if_false]
          exact ⟨ih1, ih2⟩

/-- Claim C20, where the code departs from it.  When an entry `name@digest` of
`RepoDigests` has the familiar name of the repository, `image.NewData` (the creation time
being readable) yields a record whose `RepoDigest` is `digest.FromString` applied to the
digest portion of the first such entry, that is the digest of that text and not the digest
it spells; when no entry matches, `NewData` fails with `ErrMissingRepoDigest`.  On the
fleet the entry `nginx@sha256:d1` gives a `RepoDigest` other than `sha256:d1`. -/
theorem NewData_RepoDigest_hashed (env : Env) (image : ImageInspect)
    (repository : NamedTagged) :
    (∀ portion, firstDigestPortion (FamiliarName repository) image.RepoDigests = some portion →
      ∀ created, env.timeParse image.Created = some created →
        NewData env image repository =
          .ok { Raw := image, ID := image.ID, Created := created, Repository := repository,
                RepoDigest := env.digestFromString portion }) ∧
    (firstDigestPortion (FamiliarName repository) image.RepoDigests = none →
      NewData env image repository = .error .ErrMissingRepoDigest) ∧
    firstDigestPortion (FamiliarName nginxRef) nginxInspect.RepoDigests = some "sha256:d1" ∧
    NewData fleetEnv nginxInspect nginxRef = .ok nginxImage ∧
    nginxImage.RepoDigest = fleetEnv.digestFromString "sha256:d1" ∧
    nginxImage.RepoDigest ≠ "sha256:d1" := by
  obtain ⟨h1, h2⟩ := findRepoDigest_portion env (FamiliarName repository) image.RepoDigests
  refine ⟨?_, ?_, by decide, rfl, by decide, by decide⟩
  · intro portion hp created hc
    simp [NewData, GetRepoDigest, h1 portion hp, hc]
  · intro hn
    simp [NewData, GetRepoDigest, h2 hn]


/-! ## Round trip through the row store -/

/-- After the replacement of the records of `(name, domain)` by a new record of that name,
the records of that name are the new one alone, provided no other record has this name
under another domain. -/
theorem filter_append_new (rows : List StoredRow) (row : StoredRow) (name domain : String)
    (hname : row.name = name)
    (hdomain : ∀ r ∈ rows, r.name = name → r.domain = domain) :
    ((rows.filter (fun r => ¬ (r.name = name ∧ r.domain = domain))) ++ [row]).filter
      (fun r => r.name = name) = [row] := by
  rw [List.filter_append]
  have hnil : (rows.filter (fun r => ¬ (r.name = name ∧ r.domain = domain))).filter
      (fun r => r.name = name) = [] := by
    rw [List.filter_eq_nil_iff]
    intro r hr
    rw [List.mem_filter] at hr
    obtain ⟨hmem, hkeep⟩ := hr
    intro hn
    simp only [decide_eq_true_eq] at hn hkeep
    exact hkeep ⟨hn, hdomain r hmem hn⟩
  rw [hnil]
  simp [hname]

/-- The read after a successful save, on a table in which every record of the name has
the domain saved. -/
theorem SaveRemoteImage_then_read (env : Env) (name domain : String) (created : Time)
    (digest : String) (w w1 : World) (id : Int)
    (hsave : SaveRemoteImage env name domain created digest w = (.ok id, w1))
    (hcreated : env.timeParse (env.timeFormat created) = some created)
    (hnow : env.timeParse (env.timeFormat (env.clock w.tick)) = some (env.clock w.tick))
    (hdigest : env.digestParse digest = some digest)
    (hread : env.dbFault w1.trace = none)
    (hdomain : ∀ r ∈ w.rows, r.name = name → r.domain = domain) :
    GetRemoteImageFromName env name w1 =
      (.ok { RowId := id, Name := name, Domain := domain, Created := created,
             Digest := digest, LastCheck := env.clock w.tick },
       w1.log (.dbGet name none)) := by
  unfold SaveRemoteImage timeNow at hsave
  simp only at hsave
  split at hsave
  · simp at hsave
  · simp only [Prod.mk.injEq, Except.ok.injEq] at hsave
    obtain ⟨hid, hw⟩ := hsave
    have hrows : w1.rows = (w.rows.filter (fun r => ¬ (r.name = name ∧ r.domain = domain))) ++
        [{ id := id, name := name, domain := domain, created := env.timeFormat created,
           digest := digest, last_check := env.timeFormat (env.clock w.tick) }] := by
      rw [← hw, ← hid]
    unfold GetRemoteImageFromName selectByName
    simp only [hread, hrows]
    rw [filter_append_new w.rows _ name domain rfl hdomain]
    simp only [firstByDomain, hcreated, hdigest, hnow, errOf]

/-- Claim C21.  On the first lookup of a name, that is when the table holds no row of that
name (the read by name has just answered `sql.ErrNoRows`), for every domain, created time
and well-formed digest: after `SaveRemoteImage(name, domain, created, digest)` succeeds,
`GetRemoteImageFromName(name)` returns the row just written, whose `Created` is the
instant `created` and whose `Digest` is `digest`.  The text that `Format` writes for
`created` and for the instant of the save is read back by `Parse` as the same instant (the
round trip of RFC 3339 with nanoseconds), and the store answers the read. -/
theorem SaveRemoteImage_round_trip (env : Env) (name domain : String) (created : Time)
    (digest : String) (w w1 : World) (id : Int)
    (hfirst : w.rows.find? (fun r => r.name = name) = none)
    (hsave : SaveRemoteImage env name domain created digest w = (.ok id, w1))
    (hcreated : env.timeParse (env.timeFormat created) = some created)
    (hnow : env.timeParse (env.timeFormat (env.clock w.tick)) = some (env.clock w.tick))
    (hdigest : env.digestParse digest = some digest)
    (hread : env.dbFault w1.trace = none) :
    ∃ row, GetRemoteImageFromName env name w1 = (.ok row, w1.log (.dbGet name none)) ∧
      row.Created = created ∧ row.Digest = digest ∧ row.RowId = id ∧ row.Name = name ∧
      row.Domain = domain ∧ row.LastCheck = env.clock w.tick :=
  ⟨_, SaveRemoteImage_then_read env name domain created digest w w1 id hsave hcreated hnow
      hdigest hread
      (fun r hr hn => absurd hn (by simpa using List.find?_eq_none.mp hfirst r hr)),
    rfl, rfl, rfl, rfl, rfl, rfl⟩

/-- Claim C21 on the fleet: the first lookup of `nginx:latest` writes a row for the build
of day 10 with the digest `sha256:d2`, and the read by name returns that build and that
digest. -/
theorem SaveRemoteImage_round_trip_witness :
    emptyWorld.rows.find? (fun r => r.name = "nginx:latest") = none ∧
    SaveRemoteImage fleetEnv "nginx:latest" "docker.io" (day 10) "sha256:d2" emptyWorld =
      (.ok 1, (SaveRemoteImage fleetEnv "nginx:latest" "docker.io" (day 10) "sha256:d2"
        emptyWorld).2) ∧
    (GetRemoteImageFromName fleetEnv "nginx:latest"
      (SaveRemoteImage fleetEnv "nginx:latest" "docker.io" (day 10) "sha256:d2"
        emptyWorld).2).1 =
      .ok { RowId := 1, Name := "nginx:latest", Domain := "docker.io", Created := day 10,
            Digest := "sha256:d2", LastCheck := day 40 } ∧
    ∃ row, GetRemoteImageFromName fleetEnv "nginx:latest"
        (SaveRemoteImage fleetEnv "nginx:latest" "docker.io" (day 10) "sha256:d2"
          emptyWorld).2 =
        (.ok row, (SaveRemoteImage fleetEnv "nginx:latest" "docker.io" (day 10) "sha256:d2"
          emptyWorld).2.log (.dbGet "nginx:latest" none)) ∧
      row.Created = day 10 ∧ row.Digest = "sha256:d2" ∧ row.RowId = 1 ∧
      row.Name = "nginx:latest" ∧ row.Domain = "docker.io" ∧
      row.LastCheck = fleetEnv.clock emptyWorld.tick :=
  ⟨rfl, rfl, rfl,
   SaveRemoteImage_round_trip fleetEnv "nginx:latest" "docker.io" (day 10) "sha256:d2"
     emptyWorld _ 1 rfl rfl (by decide) (by decide) (by decide) rfl⟩

/-! ## Settings overridden by labels -/

/-- The override of a setting by a label, case by case. -/
theorem labelInt_cases (labels : List (String × String)) (label : String) (dflt : Int) :
    (∀ val ival, labels.lookup label = some val → ParseInt val = some ival →
      labelInt labels label dflt = ival) ∧
    (∀ val, labels.lookup label = some val → ParseInt val = none →
      labelInt labels label dflt = dflt) ∧
    (labels.lookup label = none → labelInt labels label dflt = dflt) := by
  refine ⟨?_, ?_, ?_⟩
  · intro val ival h1 h2
    simp [labelInt, h1, h2]
  · intro val h1 h2
    simp [labelInt, h1, h2]
  · intro h1
    simp [labelInt, h1]

/-- The two settings of a record built by `container.New`. -/
theorem New_fields (env : Env) (data : ContainerJSON) (a b : Int) (w w1 : World)
    (c : Container) (h : New env data a b w = (.ok c, w1)) :
    c.StopTimeout = labelInt data.Config.Labels LABEL_STOP_TIMEOUT a ∧
    c.MinImageAge = labelInt data.Config.Labels LABEL_IMAGE_AGE b := by
  unfold New at h
  split at h
  · simp at h
  · split at h
    · simp at h
    · simp only at h
      split at h
      · simp at h
      · split at h
        · simp at h
        · simp only [Prod.mk.injEq, Except.ok.injEq] at h
          obtain ⟨rfl, _⟩ := h
          exact ⟨rfl, rfl⟩

/-- Claim C22.  In the record that `container.New` returns, `StopTimeout` is the integer
value of the label `yacu.stop_timeout` when the label is present and `ParseInt` reads it,
and the default `stopTimeout` when the label is absent or is not read; `MinImageAge`
follows the same rule with the label `yacu.image_age` and the default `minImageAge`, so
each setting depends on its own label and default only.  `NewDependant`, which returns
whenever the summary has a name, resolves `StopTimeout` by the same rule from the labels of
the summary. -/
theorem New_label_settings (env : Env) (data : ContainerJSON) (stopTimeout minImageAge : Int)
    (w : World) :
    (∀ c w1, New env data stopTimeout minImageAge w = (.ok c, w1) →
      ((∀ val ival, data.Config.Labels.lookup LABEL_STOP_TIMEOUT = some val →
          ParseInt val = some ival → c.StopTimeout = ival) ∧
       (∀ val, data.Config.Labels.lookup LABEL_STOP_TIMEOUT = some val →
          ParseInt val = none → c.StopTimeout = stopTimeout) ∧
       (data.Config.Labels.lookup LABEL_STOP_TIMEOUT = none → c.StopTimeout = stopTimeout)) ∧
      ((∀ val ival, data.Config.Labels.lookup LABEL_IMAGE_AGE = some val →
          ParseInt val = some ival → c.MinImageAge = ival) ∧
       (∀ val, data.Config.Labels.lookup LABEL_IMAGE_AGE = some val →
          ParseInt val = none → c.MinImageAge = minImageAge) ∧
       (data.Config.Labels.lookup LABEL_IMAGE_AGE = none → c.MinImageAge = minImageAge))) ∧
    (∀ (summary : ContainerSummary) (dependsOn : ContainerJSON) (dependencyType : DependencyType)
        (d : DependantContainer),
      NewDependant summary stopTimeout dependsOn dependencyType = .done d →
      (∀ val ival, summary.Labels.lookup LABEL_STOP_TIMEOUT = some val →
          ParseInt val = some ival → d.StopTimeout = ival) ∧
      (∀ val, summary.Labels.lookup LABEL_STOP_TIMEOUT = some val →
          ParseInt val = none → d.StopTimeout = stopTimeout) ∧
      (summary.Labels.lookup LABEL_STOP_TIMEOUT = none → d.StopTimeout = stopTimeout)) ∧
    (∀ (summary : ContainerSummary) (dependsOn : ContainerJSON)
        (dependencyType : DependencyType), summary.Names ≠ [] →
      ∃ d, NewDependant summary stopTimeout dependsOn dependencyType = .done d) := by
  refine ⟨?_, ?_, ?_⟩
  · intro c w1 hnew
    obtain ⟨hs, ha⟩ := New_fields env data stopTimeout minImageAge w w1 c hnew
    rw [hs, ha]
    exact ⟨labelInt_cases _ _ _, labelInt_cases _ _ _⟩
  · intro summary dependsOn dependencyType d hd
    unfold NewDependant at hd
    split at hd
    · cases hd
    · simp only [Step.done.injEq] at hd
      subst hd
      exact labelInt_cases _ _ _
  · intro summary dependsOn dependencyType hnames
    unfold NewDependant
    split
    · rename_i h
      exact absurd h hnames
    · exact ⟨_, rfl⟩

/-- Claim C22 on the fleet: `/web` with the labels `yacu.stop_timeout=30` and
`yacu.image_age=soon` gets the stop timeout 30 and the default image age 7; `/worker` with
`yacu.stop_timeout=-1` gets the stop timeout -1. -/
theorem New_label_settings_witness :
    New fleetEnv tunedJSON 10 7 emptyWorld =
      (.ok tunedContainer, emptyWorld.log (.ImageInspect "sha256:img1" none)) ∧
    tunedContainer.StopTimeout = 30 ∧
    tunedContainer.MinImageAge = 7 ∧
    NewDependant tunedSummary 10 webJSON .DEPENDENCY_STARTED = .done tunedDependant ∧
    tunedDependant.StopTimeout = -1 :=
  ⟨rfl,
   (((New_label_settings fleetEnv tunedJSON 10 7 emptyWorld).1 tunedContainer
      (emptyWorld.log (.ImageInspect "sha256:img1" none)) rfl).1).1 "30" 30 rfl rfl,
   (((New_label_settings fleetEnv tunedJSON 10 7 emptyWorld).1 tunedContainer
      (emptyWorld.log (.ImageInspect "sha256:img1" none)) rfl).2).2.1 "soon" rfl rfl,
   rfl,
   ((New_label_settings fleetEnv tunedJSON 10 7 emptyWorld).2.1 tunedSummary webJSON
      .DEPENDENCY_STARTED tunedDependant rfl).1 "-1" (-1) rfl rfl⟩

/-! ## Stop of the dependents -/

/-- Claim C23.  `DependantContainers.Stop` calls `ContainerStop` once for every dependent
of the list, in order, with the id and the `StopTimeout` of that dependent, whatever the
outcomes of the earlier calls, and makes no other call; the warnings it returns are, in
the order of the list, one text `failed to stop container NAME: ERROR` for each call that
failed, so none when every stop succeeds. -/
theorem DependantContainers_Stop_all (env : Env) :
    ∀ (deps : List DependantContainer) (w : World),
      ∃ outcomes : List (Option Error),
        outcomes.length = deps.length ∧
        (DependantContainers.Stop env deps w).2.trace = w.trace ++
          List.zipWith (fun d outcome => Event.ContainerStop d.Data.ID d.StopTimeout outcome)
            deps outcomes ∧
        (DependantContainers.Stop env deps w).1 =
          (List.zipWith (fun d outcome => outcome.map (fun err =>
            "failed to stop container " ++ d.Name ++ ": " ++ Error.text err))
            deps outcomes).filterMap id
  | [], w => ⟨[], rfl, by simp [DependantContainers.Stop], by simp [DependantContainers.Stop]⟩
  | d :: rest, w => by
    cases hres : env.containerStop w.trace d.Data.ID d.StopTimeout with
    | none =>
      obtain ⟨outcomes, hlen, htrace, hwarn⟩ := DependantContainers_Stop_all env rest
        (w.log (.ContainerStop d.Data.ID d.StopTimeout none))
      refine ⟨none :: outcomes, by simp [hlen], ?_, ?_⟩
      · simp only [DependantContainers.Stop, DependantContainer.Stop, hres, htrace]
        simp [World.log]
      · simp only [DependantContainers.Stop, DependantContainer.Stop, hres, hwarn]
        simp
    | some err =>
      obtain ⟨outcomes, hlen, htrace, hwarn⟩ := DependantContainers_Stop_all env rest
        (w.log (.ContainerStop d.Data.ID d.StopTimeout (some err)))
      refine ⟨some err :: outcomes, by simp [hlen], ?_, ?_⟩
      · simp only [DependantContainers.Stop, DependantContainer.Stop, hres, htrace]
        simp [World.log]
      · simp only [DependantContainers.Stop, DependantContainer.Stop, hres, hwarn]
        simp [Error.text]

/-- Claim C23 on the fleet: of three dependents the first and the third cannot be
stopped; the second is stopped all the same, with its own timeout, and two warnings are
returned. -/
theorem DependantContainers_Stop_all_witness :
    DependantContainers.Stop workerStopFailEnv
        [tunedDependant, clientDependant "web" .DEPENDENCY_STARTED, workerDependant]
        emptyWorld =
      (["failed to stop container /worker: cannot stop container",
        "failed to stop container /worker: cannot stop container"],
       { emptyWorld with
         trace := [.ContainerStop "c2" (-1) (some (.other "cannot stop container")),
           .ContainerStop "c5" 10 none,
           .ContainerStop "c2" 10 (some (.other "cannot stop container"))] }) ∧
    ∃ outcomes : List (Option Error),
      outcomes.length =
        [tunedDependant, clientDependant "web" .DEPENDENCY_STARTED, workerDependant].length ∧
      (DependantContainers.Stop workerStopFailEnv
          [tunedDependant, clientDependant "web" .DEPENDENCY_STARTED, workerDependant]
          emptyWorld).2.trace = emptyWorld.trace ++
        List.zipWith (fun d outcome => Event.ContainerStop d.Data.ID d.StopTimeout outcome)
          [tunedDependant, clientDependant "web" .DEPENDENCY_STARTED, workerDependant]
          outcomes ∧
      (DependantContainers.Stop workerStopFailEnv
          [tunedDependant, clientDependant "web" .DEPENDENCY_STARTED, workerDependant]
          emptyWorld).1 =
        (List.zipWith (fun d outcome => outcome.map (fun err =>
          "failed to stop container " ++ d.Name ++ ": " ++ Error.text err))
          [tunedDependant, clientDependant "web" .DEPENDENCY_STARTED, workerDependant]
          outcomes).filterMap id :=
  ⟨by decide,
   DependantContainers_Stop_all workerStopFailEnv
     [tunedDependant, clientDependant "web" .DEPENDENCY_STARTED, workerDependant] emptyWorld⟩

/-! ## Notification fan-out -/

/-- The loop of a dispatch method calls the sinks whose gate is enabled, once each, in the
order of registration. -/
theorem dispatchLoop_calls (gate : webhook → Bool) (call : String → SinkCall) :
    ∀ (hooks : List webhook) (calls : List SinkCall),
      dispatchLoop gate call hooks calls =
        calls ++ (hooks.filter gate).map (fun hook => call hook.funcs)
  | [], calls => by simp [dispatchLoop]
  | hook :: rest, calls => by
    rw [dispatchLoop]
    by_cases hg : gate hook = true
    · simp [hg, dispatchLoop_calls gate call rest]
    · simp [hg, dispatchLoop_calls gate call rest]

/-- Claim C24.  For every list of registered sinks, each dispatch method adds to the calls
made so far exactly one call of the matching sink method for each registered entry whose
gate is enabled, in the order of registration, and nothing for the others: the gate
`errors` governs `Error`, `ImageError`, `ImageRemovalFailed` and `ContainerError`, the gate
`image_success` governs `ImageUpdated`, the gate `container_success` governs
`ContainerUpdated`.  `Append` registers a sink after those already registered. -/
theorem Webhooks_dispatch (w : Webhooks) (calls : List SinkCall) :
    (∀ context err, w.Error context err calls = calls ++
      (w.webhooks.filter (fun hook => hook.errors)).map
        (fun hook => SinkCall.Error hook.funcs context err)) ∧
    (∀ image context err, w.ImageError image context err calls = calls ++
      (w.webhooks.filter (fun hook => hook.errors)).map
        (fun hook => SinkCall.ImageError hook.funcs image context err)) ∧
    (∀ image err, w.ImageRemovalFailed image err calls = calls ++
      (w.webhooks.filter (fun hook => hook.errors)).map
        (fun hook => SinkCall.ImageRemovalFailed hook.funcs image err)) ∧
    (∀ container context err, w.ContainerError container context err calls = calls ++
      (w.webhooks.filter (fun hook => hook.errors)).map
        (fun hook => SinkCall.ContainerError hook.funcs container context err)) ∧
    (∀ prevImage newImage, w.ImageUpdated prevImage newImage calls = calls ++
      (w.webhooks.filter (fun hook => hook.image_success)).map
        (fun hook => SinkCall.ImageUpdated hook.funcs prevImage newImage)) ∧
    (∀ prevContainer newContainer warnings,
      w.ContainerUpdated prevContainer newContainer warnings calls = calls ++
        (w.webhooks.filter (fun hook => hook.container_success)).map
          (fun hook => SinkCall.ContainerUpdated hook.funcs prevContainer newContainer
            warnings)) ∧
    (∀ hook errors imageSuccess containerSuccess,
      w.Append hook { ImageSuccess := some imageSuccess,
                      ContainerSuccess := some containerSuccess, Errors := some errors } =
        .done { webhooks := w.webhooks ++
          [{ funcs := hook, errors := errors, image_success := imageSuccess,
             container_success := containerSuccess }] }) := by
  refine ⟨?_, ?_, ?_, ?_, ?_, ?_, ?_⟩
  · intro context err
    exact dispatchLoop_calls _ _ _ _
  · intro image context err
    exact dispatchLoop_calls _ _ _ _
  · intro image err
    exact dispatchLoop_calls _ _ _ _
  · intro container context err
    exact dispatchLoop_calls _ _ _ _
  · intro prevImage newImage
    exact dispatchLoop_calls _ _ _ _
  · intro prevContainer newContainer warnings
    exact dispatchLoop_calls _ _ _ _
  · intro hook errors imageSuccess containerSuccess
    rfl

/-- Claim C24 on three sinks registered in the order `discord`, `audit`, `pager`: an error
goes to `discord` and `pager`, an updated image to `audit`, an updated container to
`discord`. -/
theorem Webhooks_dispatch_witness :
    NewWebhookHandler.Append "discord" discordKind =
      .done { webhooks := fleetHooks.webhooks.take 1 } ∧
    Webhooks.Append { webhooks := fleetHooks.webhooks.take 1 } "audit" auditKind =
      .done { webhooks := fleetHooks.webhooks.take 2 } ∧
    Webhooks.Append { webhooks := fleetHooks.webhooks.take 2 } "pager" pagerKind =
      .done fleetHooks ∧
    fleetHooks.Error "Unable to fetch updates" (.other "registry unreachable") [] =
      [.Error "discord" "Unable to fetch updates" (.other "registry unreachable"),
       .Error "pager" "Unable to fetch updates" (.other "registry unreachable")] ∧
    fleetHooks.ImageUpdated nginxImage nginxImage [] =
      [.ImageUpdated "audit" nginxImage nginxImage] ∧
    fleetHooks.ContainerUpdated webContainer newWebContainer [] [] =
      [.ContainerUpdated "discord" webContainer newWebContainer []] ∧
    fleetHooks.ContainerError webContainer "Unable to stop container"
        (.other "cannot stop container") [] = [] ++
      (fleetHooks.webhooks.filter (fun hook => hook.errors)).map
        (fun hook => SinkCall.ContainerError hook.funcs webContainer
          "Unable to stop container" (.other "cannot stop container")) :=
  ⟨by decide, by decide, by decide, by decide, by decide, by decide,
   (Webhooks_dispatch fleetHooks []).2.2.2.1 webContainer "Unable to stop container"
     (.other "cannot stop container")⟩

/-! ## The set of images -/

/-- The lookup of a key in a map to which one entry was appended. -/
theorem lookup_append_entry (k a : String) (b : ImageData) :
    ∀ l : List (String × ImageData), (l ++ [(a, b)]).lookup k =
      match l.lookup k with
      | some v => some v
      | none => if k = a then some b else none
  | [] => by
    by_cases h : k = a
    · subst h; simp [List.lookup]
    · have hb : (k == a) = false := by simpa using h
      simp [List.lookup, hb, h]
  | (x, y) :: l => by
    by_cases h : k = x
    · subst h; simp [List.lookup]
    · have hb : (k == x) = false := by simpa using h
      simp only [List.cons_append, List.lookup, hb]
      exact lookup_append_entry k a b l

/-- The method `Contains` answers whether the id is a key of the map. -/
theorem Contains_iff_key (s : ImageSet) (img : ImageData) :
    s.Contains img = true ↔ img.ID ∈ s.Items.map Prod.fst := by
  unfold ImageSet.Contains
  cases h : s.Items.lookup img.ID with
  | none =>
    have hn := (lookup_eq_none_keys img.ID s.Items).mp h
    constructor
    · intro hf
      simp at hf
    · intro hm
      exact absurd hm hn
  | some v =>
    constructor
    · intro _
      by_contra hne
      rw [(lookup_eq_none_keys img.ID s.Items).mpr hne] at h
      cases h
    · intro _
      rfl

/-- The set after a sequence of `Add`: its keys stay distinct, they are the keys before and
the ids added, and each key keeps the record it had or the first record added for it. -/
theorem foldl_Add_items :
    ∀ (imgs : List ImageData) (s : ImageSet),
      ((s.Items.map Prod.fst).Nodup →
        ((imgs.foldl ImageSet.Add s).Items.map Prod.fst).Nodup) ∧
      (∀ id, id ∈ (imgs.foldl ImageSet.Add s).Items.map Prod.fst ↔
        id ∈ s.Items.map Prod.fst ∨ id ∈ imgs.map (fun img => img.ID)) ∧
      (∀ id, (imgs.foldl ImageSet.Add s).Items.lookup id =
        match s.Items.lookup id with
        | some v => some v
        | none => imgs.find? (fun img => img.ID = id))
  | [], s => by
    refine ⟨fun h => h, by simp, ?_⟩
    intro id
    cases h : s.Items.lookup id <;> simp [h]
  | img :: imgs, s => by
    obtain ⟨ih1, ih2, ih3⟩ := foldl_Add_items imgs (s.Add img)
    simp only [List.foldl_cons]
    rcases ImageSet_Add_items s img with ⟨hmem, heq⟩ | ⟨hnot, heq⟩
    · rw [heq] at ih1 ih2 ih3
      refine ⟨ih1, ?_, ?_⟩
      · intro id
        rw [ih2 id]
        constructor
        · rintro (h | h)
          · exact Or.inl h
          · exact Or.inr (by simp [h])
        · rintro (h | h)
          · exact Or.inl h
          · simp only [List.map_cons, List.mem_cons] at h
            rcases h with rfl | h
            · exact Or.inl hmem
            · exact Or.inr h
      · intro id
        rw [ih3 id]
        cases hl : s.Items.lookup id with
        | some v => rfl
        | none =>
          have hne : img.ID ≠ id := by
            intro he
            rw [← he] at hl
            exact (lookup_eq_none_keys img.ID s.Items).mp hl hmem
          simp [List.find?, hne]
    · rw [heq] at ih1 ih2 ih3
      refine ⟨?_, ?_, ?_⟩
      · intro hnd
        apply ih1
        rw [List.map_append, List.nodup_append]
        refine ⟨hnd, by simp, ?_⟩
        intro a ha hb
        simp only [List.map_cons, List.map_nil, List.mem_singleton] at hb
        subst hb
        exact hnot ha
      · intro id
        rw [ih2 id]
        simp only [List.map_append, List.mem_append, List.map_cons, List.map_nil,
          List.mem_cons, List.not_mem_nil, or_false]
        constructor
        · rintro ((h | h) | h)
          · exact Or.inl h
          · exact Or.inr (Or.inl h)
          · exact Or.inr (Or.inr h)
        · rintro (h | h | h)
          · exact Or.inl (Or.inl h)
          · exact Or.inl (Or.inr h)
          · exact Or.inr h
      · intro id
        rw [ih3 id, lookup_append_entry]
        cases hl : s.Items.lookup id with
        | some v => rfl
        | none =>
          by_cases he : id = img.ID
          · subst he; simp [List.find?]
          · have he2 : ¬ img.ID = id := fun h => he h.symm
            simp [List.find?, he, he2]

/-- Deleting every key of a map leaves no entry. -/
theorem clearLoop_nil :
    ∀ (keys : List String) (items : List (String × ImageData)),
      (∀ entry ∈ items, entry.1 ∈ keys) → clearLoop keys items = []
  | [], items, h => by
    cases items with
    | nil => rfl
    | cons e es => exact absurd (h e (List.mem_cons_self _ _)) (by simp)
  | k :: rest, items, h => by
    rw [clearLoop]
    apply clearLoop_nil rest
    intro entry hentry
    rw [List.mem_filter] at hentry
    obtain ⟨hmem, hne⟩ := hentry
    rcases List.mem_cons.mp (h entry hmem) with heq | hin
    · simp [heq] at hne
    · exact hin

/-- Claim C25.  After any sequence of `Add` on a new set, `Size` is the number of distinct
image ids added, `Contains` holds exactly for the images with one of these ids, and the
record stored for an id is the first one added with it.  `Add` of an image whose id is
present leaves the set, and so its size, unchanged.  `Remove` makes `Contains` false for
the id removed and keeps it for the other ids.  `Clear` makes `Size` 0. -/
theorem ImageSet_dedup (imgs : List ImageData) :
    (imgs.foldl ImageSet.Add NewImageSet).Size =
      (imgs.map (fun img => img.ID)).toFinset.card ∧
    (∀ img : ImageData, (imgs.foldl ImageSet.Add NewImageSet).Contains img = true ↔
      img.ID ∈ imgs.map (fun i => i.ID)) ∧
    (∀ id, (imgs.foldl ImageSet.Add NewImageSet).Items.lookup id =
      imgs.find? (fun img => img.ID = id)) ∧
    (∀ (s : ImageSet) (img : ImageData), s.Contains img = true →
      s.Add img = s ∧ (s.Add img).Size = s.Size) ∧
    (∀ (s : ImageSet) (img : ImageData), (s.Remove img).Contains img = false) ∧
    (∀ (s : ImageSet) (img other : ImageData), other.ID ≠ img.ID →
      (s.Remove img).Contains other = s.Contains other) ∧
    (∀ s : ImageSet, s.Clear.Size = 0) := by
  obtain ⟨h1, h2, h3⟩ := foldl_Add_items imgs NewImageSet
  refine ⟨?_, ?_, ?_, ?_, ?_, ?_, ?_⟩
  · have hnd := h1 (by simp [NewImageSet])
    have hset : ((imgs.foldl ImageSet.Add NewImageSet).Items.map Prod.fst).toFinset =
        (imgs.map (fun img => img.ID)).toFinset := by
      ext id
      simp only [List.mem_toFinset]
      rw [h2 id]
      simp [NewImageSet]
    rw [← hset, List.toFinset_card_of_nodup hnd]
    simp [ImageSet.Size]
  · intro img
    rw [Contains_iff_key, h2 img.ID]
    simp [NewImageSet]
  · intro id
    rw [h3 id]
    simp [NewImageSet]
  · intro s img hc
    have hmem := (Contains_iff_key s img).mp hc
    rcases ImageSet_Add_items s img with ⟨_, heq⟩ | ⟨hnot, _⟩
    · have : s.Add img = s := by
        cases hs : s.Add img with
        | mk items =>
          rw [hs] at heq
          simp only at heq
          cases s
          simp only at heq
          rw [heq]
      rw [this]
      exact ⟨rfl, rfl⟩
    · exact absurd hmem hnot
  · intro s img
    cases hc : (s.Remove img).Contains img with
    | false => rfl
    | true =>
      have hmem := (Contains_iff_key _ _).mp hc
      simp [ImageSet.Remove] at hmem
  · intro s img other hne
    have hiff : (s.Remove img).Contains other = true ↔ s.Contains other = true := by
      rw [Contains_iff_key, Contains_iff_key]
      simp only [ImageSet.Remove, List.mem_map, List.mem_filter]
      constructor
      · rintro ⟨e, ⟨he, _⟩, hk⟩
        exact ⟨e, he, hk⟩
      · rintro ⟨e, he, hk⟩
        refine ⟨e, ⟨he, ?_⟩, hk⟩
        rw [hk]
        simpa using hne
    cases h1 : (s.Remove img).Contains other <;> cases h2 : s.Contains other <;> simp_all
  · intro s
    simp only [ImageSet.Clear, ImageSet.Size]
    rw [clearLoop_nil]
    · rfl
    · intro entry hentry
      exact List.mem_map_of_mem _ hentry

/-- Claim C25 on the images of the fleet: two builds of `nginx` with the same id and one
image of `postgres` make a set of size 2 that keeps the first build. -/
theorem ImageSet_dedup_witness :
    ([nginxImage, postgresImage, rebuiltNginx].foldl ImageSet.Add NewImageSet).Items =
      [("sha256:img1", nginxImage), ("sha256:img3", postgresImage)] ∧
    ([nginxImage, postgresImage, rebuiltNginx].foldl ImageSet.Add NewImageSet).Size = 2 ∧
    ([nginxImage, postgresImage, rebuiltNginx].foldl ImageSet.Add NewImageSet).Contains
      orphanImage = false ∧
    (([nginxImage, postgresImage, rebuiltNginx].foldl ImageSet.Add NewImageSet).Remove
      rebuiltNginx).Items = [("sha256:img3", postgresImage)] ∧
    ([nginxImage, postgresImage, rebuiltNginx].foldl ImageSet.Add NewImageSet).Items.lookup
        "sha256:img1" =
      [nginxImage, postgresImage, rebuiltNginx].find? (fun img => img.ID = "sha256:img1") :=
  ⟨by decide, by decide, by decide, by decide,
   (ImageSet_dedup [nginxImage, postgresImage, rebuiltNginx]).2.2.1 "sha256:img1"⟩

/-! ## The health poll on a container without healthcheck -/

/-- Claim C26, where the code departs from it.  A poll of the healthy-condition wait whose
inspection succeeds with no `Health` record in the state does not decide: reading
`container.State.Health.Status` dereferences the nil record and the program panics, after
the inspection and before any start.  On the fleet `/web` has no healthcheck, so starting
its dependent `/worker` with the healthy condition panics at the first poll. -/
theorem pollHealthy_nil_Health :
    (∀ (env : Env) (c : DependantContainer) (ticks : Nat) (w : World)
        (container : ContainerJSON),
      env.containerInspect w.trace c.DependsOn.ID = .ok container →
      container.State.Health = none →
      c.pollHealthy env (ticks + 1) w =
        (.panic "invalid memory address or nil pointer dereference",
         w.log (.ContainerInspect c.DependsOn.ID none))) ∧
    fleetEnv.containerInspect emptyWorld.trace healthyWorker.DependsOn.ID = .ok webJSON ∧
    webJSON.State.Health = none ∧
    healthyWorker.Start fleetEnv emptyWorld =
      (.panic "invalid memory address or nil pointer dereference",
       { emptyWorld with trace := [.ContainerInspect "c1" none] }) := by
  refine ⟨?_, rfl, rfl, by decide⟩
  intro env c ticks w container hinspect hnil
  rw [DependantContainer.pollHealthy]
  simp only [hinspect, hnil, errOf]


/-! ## Days passed and the age gate -/

/-- A day has a positive number of nanoseconds. -/
theorem nsPerDay_pos : (0 : Int) < nsPerDay := by decide

/-- A quotient truncated toward zero is below a positive bound exactly when the dividend is
below the bound times the (positive) divisor. -/
theorem tdiv_lt_iff (x N d : Int) (hd : 0 < d) (hN : 1 ≤ N) :
    Int.tdiv x d < N ↔ x < N * d := by
  by_cases hx : 0 ≤ x
  · rw [Int.tdiv_eq_ediv hx (le_of_lt hd)]
    exact Int.ediv_lt_iff_lt_mul hd
  · have hneg : 0 ≤ -x := by omega
    have h1 : 0 ≤ (-x).tdiv d := Int.tdiv_nonneg hneg (le_of_lt hd)
    rw [Int.neg_tdiv] at h1
    have h2 : 0 < N * d := Int.mul_pos (by omega) hd
    constructor
    · intro _; omega
    · intro _; omega

/-- The truncated quotient of a negative number by a positive one is not positive. -/
theorem tdiv_nonpos_of_neg (x d : Int) (hd : 0 < d) (hx : x < 0) : Int.tdiv x d ≤ 0 := by
  have hneg : 0 ≤ -x := by omega
  have h1 : 0 ≤ (-x).tdiv d := Int.tdiv_nonneg hneg (le_of_lt hd)
  rw [Int.neg_tdiv] at h1
  omega

/-- Saturation to the range of `Duration` keeps a value of the range. -/
theorem saturate_in_range (x : Int) (h1 : -9223372036854775808 ≤ x)
    (h2 : x ≤ 9223372036854775807) :
    (if x > 9223372036854775807 then 9223372036854775807
      else if x < -9223372036854775808 then -9223372036854775808 else x) = x := by
  split_ifs <;> omega

/-- Saturation to the range of `Duration` keeps the sign. -/
theorem saturate_nonneg (x : Int) :
    0 ≤ (if x > 9223372036854775807 then 9223372036854775807
      else if x < -9223372036854775808 then -9223372036854775808 else x) ↔ 0 ≤ x := by
  split_ifs <;> omega

/-- Saturation does not change the comparison with a positive bound of the range. -/
theorem saturate_lt (x bound : Int) (hb : bound ≤ 9223372036854775807) (hpos : 0 < bound) :
    (if x > 9223372036854775807 then 9223372036854775807
      else if x < -9223372036854775808 then -9223372036854775808 else x) < bound ↔
      x < bound := by
  split_ifs <;> omega

/-- The method `Sub` is the difference when it is in the range of `Duration`. -/
theorem Sub_in_range (now t : Int) (h1 : -9223372036854775808 ≤ now - t)
    (h2 : now - t ≤ 9223372036854775807) : Sub now t = now - t :=
  saturate_in_range (now - t) h1 h2

/-- The elapsed time is not negative exactly when the instant is not in the future. -/
theorem Sub_nonneg_iff (now t : Int) : (0 : Int) ≤ Sub now t ↔ t ≤ now := by
  have h := saturate_nonneg (now - t)
  have h2 : (0 : Int) ≤ now - t ↔ t ≤ now := by omega
  exact h.trans h2

/-- The elapsed time is below a positive bound of the range exactly when the difference is. -/
theorem Sub_lt_iff (now t bound : Int) (hb : bound ≤ 9223372036854775807) (hpos : 0 < bound) :
    bound > Sub now t ↔ now - t < bound :=
  saturate_lt (now - t) bound hb hpos

/-- The gate `DaysPassed < N` for a positive threshold. -/
theorem DaysPassed_lt_iff (now t N : Int) (hN : 1 ≤ N) :
    DaysPassed now t < N ↔ N * nsPerDay > Sub now t :=
  tdiv_lt_iff _ N nsPerDay nsPerDay_pos hN

/-- The days passed since an instant that is not in the future are not negative. -/
theorem DaysPassed_nonneg (now t : Int) (ht : t ≤ now) : 0 ≤ DaysPassed now t :=
  Int.tdiv_nonneg ((Sub_nonneg_iff now t).mpr ht) (le_of_lt nsPerDay_pos)

/-- The days passed since an instant in the future are not positive. -/
theorem DaysPassed_nonpos (now t : Int) (ht : now < t) : DaysPassed now t ≤ 0 := by
  apply tdiv_nonpos_of_neg _ _ nsPerDay_pos
  have h := Sub_nonneg_iff now t
  by_contra hcon
  have h0 : (0 : Int) ≤ Sub now t := not_lt.mp hcon
  have := h.mp h0
  omega

/-- Claim C27.  With the elapsed time taken as the integer `Duration` that `now.Sub(t)`
returns (the difference `now - t` whenever it fits a `Duration`), `DaysPassed` is that
number of nanoseconds divided by 24 hours and truncated toward zero.  For every threshold
`N ≥ 1` the gate `DaysPassed < N` holds exactly when the elapsed time is less than
`N × 24h`, also for an instant in the future, for which `DaysPassed` is not positive; in
terms of the difference `now - t` itself this holds for every `N` with `N × 24h` in the
range of `Duration`.  For `N ≤ 0` the gate never holds for an instant that is not in the
future.  `Container.IsOutdated` answers by this gate. -/
theorem DaysPassed_gate (now t : Time) :
    DaysPassed now t = Int.tdiv (Sub now t) nsPerDay ∧
    (minDuration ≤ now - t → now - t ≤ maxDuration → Sub now t = now - t) ∧
    (0 ≤ Sub now t ↔ t ≤ now) ∧
    (∀ N : Int, 1 ≤ N → (DaysPassed now t < N ↔ Sub now t < N * nsPerDay)) ∧
    (∀ N : Int, 1 ≤ N → N * nsPerDay ≤ maxDuration →
      (DaysPassed now t < N ↔ now - t < N * nsPerDay)) ∧
    (∀ N : Int, N ≤ 0 → t ≤ now → ¬ DaysPassed now t < N) ∧
    (now < t → DaysPassed now t ≤ 0) ∧
    (∀ (env : Env) (c : Container) (w : World), (c.IsOutdated env w).1 =
      .ok (decide (¬ DaysPassed (env.clock w.tick) c.Image.Created < c.MinImageAge))) := by
  refine ⟨rfl, ?_, Sub_nonneg_iff now t, ?_, ?_, ?_, DaysPassed_nonpos now t, ?_⟩
  · intro h1 h2
    exact Sub_in_range now t h1 h2
  · intro N hN
    exact DaysPassed_lt_iff now t N hN
  · intro N hN hbound
    rw [DaysPassed_lt_iff now t N hN]
    exact Sub_lt_iff now t _ hbound (Int.mul_pos (by omega) nsPerDay_pos)
  · intro N hN ht hlt
    have h := DaysPassed_nonneg now t ht
    exact absurd (lt_of_le_of_lt h hlt) (not_lt.mpr hN)
  · intro env c w
    unfold Container.IsOutdated timeNow
    simp only
    split
    · rename_i h
      simp [h]
    · rename_i h
      simp [h]

/-- Claim C27 on the calendar of the fleet: two days passed since day 38 on day 40; an
instant less than a day ahead counts 0 days, not -1; the gate with the threshold 7 holds
on day 40 for day 38 and not for day 10; with the threshold 0 it does not hold for
day 40 itself. -/
theorem DaysPassed_gate_witness :
    DaysPassed (day 40) (day 38) = 2 ∧
    DaysPassed (day 40) (day 41 - 1) = 0 ∧
    DaysPassed (day 40) (day 42) = -2 ∧
    (DaysPassed (day 40) (day 38) < 7 ↔ Sub (day 40) (day 38) < 7 * nsPerDay) ∧
    ¬ DaysPassed (day 40) (day 10) < 7 ∧
    ¬ DaysPassed (day 40) (day 40) < 0 :=
  ⟨by decide, by decide, by decide,
   (DaysPassed_gate (day 40) (day 38)).2.2.2.1 7 (by decide),
   by decide,
   (DaysPassed_gate (day 40) (day 40)).2.2.2.2.2.1 0 (by decide) (by decide)⟩

/-! ## A threshold of zero days -/

/-- The update of a row only adds to the history. -/
theorem UpdateRemoteImage_extends {env : Env} {rowid : Int} {created : Option Time}
    {digest : String} {w w1 : World} {r : Res Unit}
    (h : UpdateRemoteImage env rowid created digest w = (r, w1)) :
    w.trace <+: w1.trace := by
  unfold UpdateRemoteImage at h
  split at h
  · simp only [Prod.mk.injEq] at h
    rw [← h.2]
  · simp only at h
    split at h
    · simp only [Prod.mk.injEq] at h
      rw [← h.2]
      exact List.prefix_append _ _
    · simp only [Prod.mk.injEq] at h
      rw [← h.2]
      exact List.prefix_append _ _

/-- The update of the time of the last check only adds to the history. -/
theorem UpdateRemoteImageCheck_extends {env : Env} {rowid : Int} {w w1 : World}
    {r : Option Error} (h : UpdateRemoteImageCheck env rowid w = (r, w1)) :
    w.trace <+: w1.trace := by
  unfold UpdateRemoteImageCheck timeNow at h
  simp only at h
  split at h
  · simp only [Prod.mk.injEq] at h
    rw [← h.2]
    exact List.prefix_append _ _
  · simp only [Prod.mk.injEq] at h
    rw [← h.2]
    exact List.prefix_append _ _

/-- Claim C28.  When the effective `MinImageAge` of the container is at most 0, the cache
holds a readable row for its name, and neither the `created` time nor the `last_check`
time of the row is in the future of the clock reading that its gate compares it with,
`IsRemotePullable` is stopped by neither gate: after the read of the cache its next call
is the registry fetch for the repository of the container. -/
theorem IsRemotePullable_no_gate (env : Env) (c : Container) (w : World)
    (dbImage : RemoteImageRow)
    (hrow : (GetRemoteImageFromName env c.RepositoryFamiliarized w).1 = .ok dbImage)
    (hage : c.MinImageAge ≤ 0)
    (hcreated : dbImage.Created ≤ env.clock w.tick)
    (hcheck : dbImage.LastCheck ≤ env.clock (w.tick + 1)) :
    ∃ evs, (IsRemotePullable env c w).2.trace = w.trace ++
      [.dbGet c.RepositoryFamiliarized none,
       .registryFetch c.Repository (errOf (env.registry
         (w.trace ++ [.dbGet c.RepositoryFamiliarized none]) c.Repository))] ++ evs := by
  have hget := GetRemoteImageFromName_ok env c.RepositoryFamiliarized w dbImage hrow
  have h1 : ¬ DaysPassed (env.clock w.tick) dbImage.Created < c.MinImageAge := by
    have := DaysPassed_nonneg _ _ hcreated
    intro hlt
    exact absurd (lt_of_le_of_lt this hlt) (not_lt.mpr hage)
  have h2 : ¬ DaysPassed (env.clock (w.tick + 1)) dbImage.LastCheck < c.MinImageAge := by
    have := DaysPassed_nonneg _ _ hcheck
    intro hlt
    exact absurd (lt_of_le_of_lt this hlt) (not_lt.mpr hage)
  have hpre : (w.trace ++ [.dbGet c.RepositoryFamiliarized none,
      .registryFetch c.Repository (errOf (env.registry
        (w.trace ++ [.dbGet c.RepositoryFamiliarized none]) c.Repository))]) <+:
      (IsRemotePullable env c w).2.trace := by
    unfold IsRemotePullable
    simp only [hget, timeNow, World.log, h1, h2, if_false, GetImageDataFromRegistry]
    cases hreg : env.registry (w.trace ++ [.dbGet c.RepositoryFamiliarized none])
        c.Repository with
    | error e => simp [errOf]
    | ok remoteData =>
      simp only [errOf]
      split
      · rename_i hu
        have := UpdateRemoteImage_extends hu
        simpa using this
      · rename_i hu
        have := UpdateRemoteImage_extends hu
        simpa using this
      · rename_i hu
        have hu1 := UpdateRemoteImage_extends hu
        simp only [List.append_assoc, List.singleton_append] at hu1
        split
        · exact hu1
        · split
          · exact hu1
          · split
            · rename_i hc
              have hc1 := UpdateRemoteImageCheck_extends hc
              simp only at hc1
              exact hu1.trans hc1
            · rename_i hc
              have hc1 := UpdateRemoteImageCheck_extends hc
              simp only at hc1
              have hp := hu1.trans hc1
              split <;> exact hp
  obtain ⟨evs, hevs⟩ := hpre
  exact ⟨evs, hevs.symm⟩

/-- Claim C28 on the fleet: with the image age 0, a row created and checked on this very
day does not keep `IsRemotePullable` from asking the registry. -/
theorem IsRemotePullable_no_gate_witness :
    (GetRemoteImageFromName fleetEnv eagerWeb.RepositoryFamiliarized
      (cachedWorld (day 40) (day 40))).1 = .ok (nginxRow (day 40) (day 40)) ∧
    (IsRemotePullable fleetEnv eagerWeb (cachedWorld (day 40) (day 40))).2.trace =
      [.dbGet "nginx:latest" none, .registryFetch nginxRef none,
       .dbUpdate 1 "1970-01-11T00:00:00Z" "sha256:d1" none,
       .dbUpdateCheck 1 "1970-02-10T00:00:00Z" none] ∧
    (IsRemotePullable fleetEnv webContainer (cachedWorld (day 40) (day 40))).2.trace =
      [.dbGet "nginx:latest" none] ∧
    ∃ evs, (IsRemotePullable fleetEnv eagerWeb (cachedWorld (day 40) (day 40))).2.trace =
      (cachedWorld (day 40) (day 40)).trace ++
      [.dbGet eagerWeb.RepositoryFamiliarized none,
       .registryFetch eagerWeb.Repository (errOf (fleetEnv.registry
         ((cachedWorld (day 40) (day 40)).trace ++
           [.dbGet eagerWeb.RepositoryFamiliarized none]) eagerWeb.Repository))] ++ evs :=
  ⟨rfl, by decide, by decide,
   IsRemotePullable_no_gate fleetEnv eagerWeb (cachedWorld (day 40) (day 40))
     (nginxRow (day 40) (day 40)) rfl (by decide) (by decide) (by decide)⟩

/-! ## The comparison of digests -/

/-- The function `strings.Contains` decides whether the second text occurs in the first. -/
theorem containsChars_iff_occurs : ∀ (s sub : List Char),
    containsChars s sub = true ↔ sub <:+: s
  | [], sub => by
    rw [containsChars, List.infix_nil, List.isEmpty_iff]
  | c :: cs, sub => by
    rw [containsChars, List.infix_cons_iff, Bool.or_eq_true, List.isPrefixOf_iff_prefix,
      containsChars_iff_occurs cs sub]

/-- Claim C29.  `Container.HasRepoDigest(d)` is true exactly when some entry of the
`RepoDigests` of the local image contains the text of `d`; it depends on these entries
only, so not on the field `ImageData.RepoDigest` nor on the repository of the container,
and it is true whenever an entry `name@d` is listed, whatever the name. -/
theorem Container_HasRepoDigest_substring (c : Container) (d : String) :
    (c.HasRepoDigest d = true ↔
      ∃ str ∈ c.Image.Raw.RepoDigests, d.data <:+: str.data) ∧
    (∀ c2 : Container, c2.Image.Raw.RepoDigests = c.Image.Raw.RepoDigests →
      c2.HasRepoDigest d = c.HasRepoDigest d) ∧
    (∀ name : String, (name ++ "@" ++ d) ∈ c.Image.Raw.RepoDigests →
      c.HasRepoDigest d = true) := by
  have hiff : c.HasRepoDigest d = true ↔
      ∃ str ∈ c.Image.Raw.RepoDigests, d.data <:+: str.data := by
    unfold Container.HasRepoDigest Contains
    rw [List.any_eq_true]
    constructor
    · rintro ⟨str, hmem, hc⟩
      exact ⟨str, hmem, (containsChars_iff_occurs _ _).mp hc⟩
    · rintro ⟨str, hmem, hc⟩
      exact ⟨str, hmem, (containsChars_iff_occurs _ _).mpr hc⟩
  refine ⟨hiff, ?_, ?_⟩
  · intro c2 h
    unfold Container.HasRepoDigest
    rw [h]
  · intro name hmem
    rw [hiff]
    refine ⟨_, hmem, ?_⟩
    rw [String.data_append, String.data_append]
    exact ⟨name.data ++ "@".data, [], by simp⟩

/-- Claim C29 on the fleet: `/web` runs `nginx` of `docker.io`, the runtime lists its image
under a mirror only; the digest of that entry is found although the repository differs
and although the field `RepoDigest` holds another value. -/
theorem Container_HasRepoDigest_substring_witness :
    FamiliarName mirroredWeb.Repository = "nginx" ∧
    mirroredWeb.Image.RepoDigest ≠ "sha256:d9" ∧
    ("mirror.example/nginx" ++ "@" ++ "sha256:d9") ∈ mirroredWeb.Image.Raw.RepoDigests ∧
    mirroredWeb.HasRepoDigest "sha256:d9" = true :=
  ⟨by decide, by decide, by decide,
   (Container_HasRepoDigest_substring mirroredWeb "sha256:d9").2.2 "mirror.example/nginx"
     (by decide)⟩


end Yacu
